import Mathlib

/-!
# Reconciliation core of the `cl` cluster tool

A shallow embedding of `cmd/cli/cluster.go` (the reconciler, the provisioner,
the disk matcher and the node detail resolver), of the data model in
`internal/state/s3.go`, `internal/clo/models.go` and `cmd/cli/config.go`, and
of `internal/clo/waiter.go`.

Conventions of the embedding:

* Go `int` is `Int`; no arithmetic is performed on it, so no overflow arises.
* A Go `map[string]T` is an association list with at most one entry per key
  (`GoMap`); writing a key replaces the entry of that key.  A `range` over a
  map visits the entries in list order, which stands for the order the Go
  runtime happened to choose in the run under consideration.
* `map[int]InstanceConfig` is the list of its entries in the order `range`
  yields them.
* The cloud API is a record of functions over an abstract world state;
  every call returns its response together with the next world state, so
  responses may differ from call to call.
* `time.Sleep` is not modelled; `time.Now()` is read from the world state.
* The workers of the provisioning phase are run one after the other, in the
  order in which their results arrive on the channel; that order is an input
  of the run.
* Printing is not modelled, except for the report of an extra node, which is
  recorded in the list of orphans of the run.
-/

namespace Cl

/-! ## Go maps keyed by strings -/

/-- A Go map keyed by strings, as an association list. -/
abbrev GoMap (β : Type) := List (String × β)

namespace GoMap

/-- The value stored under key `k`, as in `v, ok := m[k]`. -/
def get {β : Type} (m : GoMap β) (k : String) : Option β :=
  match m with
  | [] => none
  | (k', v) :: rest => if k' = k then some v else get rest k

/-- The assignment `m[k] = v`. -/
def set {β : Type} (m : GoMap β) (k : String) (v : β) : GoMap β :=
  match m with
  | [] => [(k, v)]
  | (k', v') :: rest => if k' = k then (k, v) :: rest else (k', v') :: set rest k v

/-- The keys of the map. -/
def keys {β : Type} (m : GoMap β) : List String := m.map Prod.fst

end GoMap

/-! ## Data model: `internal/state/s3.go` -/

/-- The persisted record of a disk (`state.DiskState`). -/
structure DiskState where
  ID : String
  Size : Int
  Typ : String
  Bootable : Bool
  Device : String
  MountPoint : String
  Owner : String
  Group : String
  Mode : String
  Critical : Bool
  Created : String
  Updated : String
  deriving DecidableEq, Repr

/-- The persisted record of a node (`state.NodeState`). -/
structure NodeState where
  Name : String
  Role : String
  ID : String
  IP : String
  SSHPort : Int
  AddressID : String
  Labels : GoMap String
  Taints : List String
  Disks : List DiskState
  Created : String
  Updated : String
  deriving DecidableEq, Repr

/-- The persisted snapshot (`state.ClusterState`); `LastUpdated` is the
rendered timestamp. -/
structure ClusterState where
  Version : String
  LastUpdated : String
  SSHUser : String
  Nodes : List NodeState
  deriving DecidableEq, Repr

/-! ## Data model: `cmd/cli/config.go` -/

/-- Settings of one instance slot (`InstanceConfig`). -/
structure InstanceConfig where
  Enabled : Bool
  Labels : GoMap String
  deriving DecidableEq, Repr

/-- Compute flavor (`Flavor`). -/
structure Flavor where
  RAM : Int
  VCPUs : Int
  deriving DecidableEq, Repr

/-- A declared disk (`Disk`). -/
structure Disk where
  Size : Int
  Bootable : Bool
  Typ : String
  MountPoint : String
  Owner : String
  Group : String
  Mode : String
  deriving DecidableEq, Repr

/-- A load-balancer rule of a group (`LBRuleConfig`). -/
structure LBRuleConfig where
  ExtPort : Int
  IntPort : Int
  deriving DecidableEq, Repr

/-- A node group (`NodeGroup`).  `Instances` lists the entries of the Go map
`map[int]InstanceConfig` in iteration order. -/
structure NodeGroup where
  NamePrefix : String
  Role : String
  Instances : List (Int × InstanceConfig)
  Flavor : Flavor
  Disks : List Disk
  ExternalIP : Bool
  StaticIP : String
  Labels : GoMap String
  Taints : List String
  LBRules : List LBRuleConfig
  deriving DecidableEq, Repr

/-- The configuration (`Config`). -/
structure Config where
  SSHUser : String
  Groups : List NodeGroup
  LoadBalancerIP : String
  deriving DecidableEq, Repr

/-! ## Data model: `internal/clo/models.go` -/

/-- Where a volume is attached (`clo.VolumeAttachment`). -/
structure VolumeAttachment where
  ID : String
  Device : String
  deriving DecidableEq, Repr

/-- A volume of the project (`clo.DiskResult`). -/
structure DiskResult where
  ID : String
  Name : String
  Size : Int
  Status : String
  Typ : String
  Bootable : Bool
  Created : String
  AttachedToServer : Option VolumeAttachment
  deriving DecidableEq, Repr

/-- What an address is bound to (`clo.AttachedTo`). -/
structure AttachedTo where
  Entity : String
  ID : String
  deriving DecidableEq, Repr

/-- An address of the project (`clo.AddressDetail`). -/
structure AddressDetail where
  ID : String
  Status : String
  Address : String
  External : Bool
  Ptr : String
  Typ : String
  MacAddr : String
  IsPrimary : Bool
  AttachedTo : Option AttachedTo
  ServerID : String
  LoadBalancerID : String
  deriving DecidableEq, Repr

/-- One entry of the server listing (`clo.ServerListResponse.Result`). -/
structure ServerListEntry where
  ID : String
  Name : String
  deriving DecidableEq, Repr

/-- The detail of a server (`clo.ServerDetailResponse.Result`); `Storages`
holds the volume IDs. -/
structure ServerDetail where
  ID : String
  Status : String
  Name : String
  Created : String
  Addresses : List String
  Storages : List String
  deriving DecidableEq, Repr

/-- The body of a delete-server request (`clo.DeleteServerPayload`). -/
structure DeleteServerPayload where
  ClearFstab : Bool
  DeleteVolumes : List String
  DeleteAddresses : List String
  deriving DecidableEq, Repr

/-! ## Request payloads of `createNodeAsync` -/

/-- One entry of the `storages` list of a create-server request. -/
structure StoragePayload where
  bootable : Bool
  storage_type : String
  size : Int
  deriving DecidableEq, Repr

/-- One entry of the `addresses` list of a create-server request: either an
existing address, or a request for a fresh one. -/
inductive AddressPayload where
  | existing (address_id : String)
  | fresh (ddos_protection : Bool) (external : Bool) (version : Int) (bandwidth_max_mbps : Int)
  deriving DecidableEq, Repr

/-- The create-server request assembled by `createNodeAsync`. -/
structure CreatePayload where
  name : String
  ram : Int
  vcpus : Int
  cpu_type : String
  storages : List StoragePayload
  addresses : List AddressPayload
  image : String
  keypairs : List String
  deriving DecidableEq, Repr

/-! ## Data of `cmd/cli/cluster.go` -/

/-- The outcome for one node (`NodeResult`); `Err = none` is Go's `nil`. -/
structure NodeResult where
  Name : String
  Role : String
  ID : String
  IP : String
  SSHPort : Int
  AddressID : String
  Err : Option String
  Labels : GoMap String
  Taints : List String
  Disks : List DiskState
  IsNew : Bool
  Created : String
  deriving DecidableEq, Repr

/-- An entry of the `nodesToCreate` queue (the anonymous struct of
`handleClusterCreateFromCode`). -/
structure PendingNode where
  Name : String
  Group : NodeGroup
  OldDisks : List DiskState
  MergedLabels : GoMap String
  deriving DecidableEq, Repr

/-! ## Node names -/

/-- The verb `%d` of `fmt.Sprintf` on an `int`. -/
def formatInt : Int → String
  | Int.ofNat n => Nat.repr n
  | Int.negSucc n => "-" ++ Nat.repr (n + 1)

/-- The desired name of a slot: `fmt.Sprintf("%s-%s-%d", clusterName, group.NamePrefix, i)`. -/
def nodeName (clusterName : String) (namePrefix : String) (i : Int) : String :=
  clusterName ++ "-" ++ namePrefix ++ "-" ++ formatInt i

/-- The label map of a slot: the group's labels, then the slot's labels
written over them. -/
def mergeLabels (groupLabels instLabels : GoMap String) : GoMap String :=
  let merged := groupLabels.foldl (fun m kv => GoMap.set m kv.1 kv.2) ([] : GoMap String)
  instLabels.foldl (fun m kv => GoMap.set m kv.1 kv.2) merged

/-! ## The disk matcher of `createNodeAsync` -/

/-- The volumes of the listing whose status is `AVAILABLE`. -/
def availableVolumes (allProjectVolumes : List DiskResult) : List DiskResult :=
  allProjectVolumes.filter (fun v => v.Status = "AVAILABLE")

/-- Step 1 for one spec: the loop over `oldDisks`.  Returns `foundDiskID` and
the updated set `usedVolIDs`. -/
def matchOldDisk (dConf : Disk) (avail : List DiskResult) :
    List DiskState → List String → String × List String
  | [], used => ("", used)
  | oldD :: rest, used =>
    if oldD.Bootable || oldD.Size != dConf.Size then
      matchOldDisk dConf avail rest used
    else
      match avail.find? (fun av => av.ID = oldD.ID && !(used.contains av.ID)) with
      | some av =>
        if av.ID != "" then (av.ID, av.ID :: used)
        else matchOldDisk dConf avail rest (av.ID :: used)
      | none => matchOldDisk dConf avail rest used

/-- Step 2 for one spec: the first unused available volume of the spec's
size. -/
def matchBySize (dConf : Disk) (avail : List DiskResult) (used : List String) :
    String × List String :=
  match avail.find? (fun av => !(used.contains av.ID) && av.Size = dConf.Size) with
  | some av => (av.ID, av.ID :: used)
  | none => ("", used)

/-- The variable `foundDiskID`, and the set `usedVolIDs`, after steps 1 and 2
for one spec: step 2 runs when step 1 left `foundDiskID` empty. -/
def findDisk (dConf : Disk) (avail : List DiskResult) (oldDisks : List DiskState)
    (used : List String) : String × List String :=
  let r1 := matchOldDisk dConf avail oldDisks used
  if r1.1 = "" then matchBySize dConf avail r1.2 else r1

/-- The `storage_type` of a request: the spec's type, `storage` by default. -/
def storageType (dConf : Disk) : String :=
  if dConf.Typ = "" then "storage" else dConf.Typ

/-- The plan of one attempt while it is being built. -/
structure DiskPlan where
  storagesPayload : List StoragePayload
  disksToAttach : List String
  usedVolIDs : List String
  deriving DecidableEq, Repr

/-- The body of the loop over `group.Disks`. -/
def matchDiskStep (oldDisks : List DiskState) (avail : List DiskResult)
    (plan : DiskPlan) (dConf : Disk) : DiskPlan :=
  if dConf.Bootable then
    { plan with storagesPayload := plan.storagesPayload ++
        [{ bootable := true, storage_type := storageType dConf, size := dConf.Size }] }
  else
    let r2 := findDisk dConf avail oldDisks plan.usedVolIDs
    if r2.1 != "" then
      { plan with disksToAttach := plan.disksToAttach ++ [r2.1], usedVolIDs := r2.2 }
    else
      { storagesPayload := plan.storagesPayload ++
          [{ bootable := false, storage_type := storageType dConf, size := dConf.Size }],
        disksToAttach := plan.disksToAttach,
        usedVolIDs := r2.2 }

/-- The disk-matching pass of one attempt of `createNodeAsync`. -/
def matchDisks (groupDisks : List Disk) (oldDisks : List DiskState)
    (avail : List DiskResult) : DiskPlan :=
  groupDisks.foldl (matchDiskStep oldDisks avail)
    { storagesPayload := [], disksToAttach := [], usedVolIDs := [] }

/-! ## The cloud client -/

/-- The methods of `clo.Client` used by the reconciler, over an abstract world
state `σ`.  Each call returns its outcome (`Except.error` for a non-nil Go
error) and the next world state.  `GetProjectAddresses` is the decoded
address listing from which `GetProjectAddressesMap` builds its map; `Now` is
`time.Now().Format(time.RFC3339)`. -/
structure Client (σ : Type) where
  GetServersList : σ → Except String (List ServerListEntry) × σ
  GetServerDetail : String → σ → Except String ServerDetail × σ
  GetProjectAddresses : σ → Except String (List AddressDetail) × σ
  GetProjectVolumes : σ → Except String (List DiskResult) × σ
  GetVolumeDetail : String → σ → Except String DiskResult × σ
  CreateServer : CreatePayload → σ → Except String String × σ
  DeleteServer : String → DeleteServerPayload → σ → Option String × σ
  AttachVolume : String → String → σ → Except String String × σ
  SetServerPassword : String → String → σ → Option String × σ
  Now : σ → String

/-- A mutating request sent to the cloud. -/
inductive Event where
  | CreateServer (payload : CreatePayload)
  | DeleteServer (serverID : String) (payload : DeleteServerPayload)
  | AttachVolume (volumeID : String) (serverID : String)
  | SetServerPassword (serverID : String) (password : String)
  deriving DecidableEq, Repr

/-- The map built by `GetProjectAddressesMap`: `addrMap[addr.ID] = addr` for
every address of the listing, in order. -/
def addressesMap (addrs : List AddressDetail) : GoMap AddressDetail :=
  addrs.foldl (fun m addr => GoMap.set m addr.ID addr) ([] : GoMap AddressDetail)

/-- The method `GetProjectAddressesMap` of `clo.Client`. -/
def GetProjectAddressesMap {σ : Type} (c : Client σ) (w : σ) :
    Except String (GoMap AddressDetail) × σ :=
  match c.GetProjectAddresses w with
  | (Except.ok addrs, w1) => (Except.ok (addressesMap addrs), w1)
  | (Except.error e, w1) => (Except.error e, w1)

/-- The method `FindAvailableExternalIP` of `clo.Client`: the ID of an external
address bound to nothing, or the empty string. -/
def FindAvailableExternalIP {σ : Type} (c : Client σ) (w : σ) : Except String String × σ :=
  match GetProjectAddressesMap c w with
  | (Except.error e, w1) => (Except.error ("could not get project addresses: " ++ e), w1)
  | (Except.ok allAddrs, w1) =>
    match allAddrs.find? (fun kv => kv.2.External && kv.2.AttachedTo.isNone
        && kv.2.ServerID = "" && kv.2.LoadBalancerID = "") with
    | some kv => (Except.ok kv.1, w1)
    | none => (Except.ok "", w1)

/-! ## `fetchNodeDetails` -/

/-- The first address of the server that the address map marks external:
its address and its ID. -/
def externalAddress (allAddrs : GoMap AddressDetail) : List String → Option (String × String)
  | [] => none
  | addrID :: rest =>
    match allAddrs.get addrID with
    | some info =>
      if info.External then some (info.Address, addrID) else externalAddress allAddrs rest
    | none => externalAddress allAddrs rest

/-- The pair `(finalIP, finalAddressID)` of `fetchNodeDetails`. -/
def resolveAddress (allAddrs : GoMap AddressDetail) (addresses : List String) :
    String × String :=
  let first : String × String :=
    match externalAddress allAddrs addresses with
    | some p => p
    | none => ("unknown", "")
  if first.1 = "unknown" then
    match addresses with
    | [] => first
    | addrID :: _ =>
      match allAddrs.get addrID with
      | some info => (info.Address, addrID)
      | none => (first.1, addrID)
  else first

/-- The last element of `strings.Split(device, "/")`. -/
def lastSegment (device : String) : String :=
  String.mk (device.data.reverse.takeWhile (fun ch => ch != '/')).reverse

/-- The mount point of the first prior record with the volume's ID and a
non-empty mount point, or the empty string. -/
def oldMountPoint (oldDisks : List DiskState) (volID : String) : String :=
  match oldDisks.find? (fun old => old.ID = volID && old.MountPoint != "") with
  | some old => old.MountPoint
  | none => ""

/-- The mount point of the first non-bootable configured disk of the given
size that has one, or the empty string. -/
def configMountPoint (configDisks : List Disk) (size : Int) : String :=
  match configDisks.find? (fun cd => !cd.Bootable && cd.MountPoint != "" && cd.Size = size) with
  | some cd => cd.MountPoint
  | none => ""

/-- The set `criticalMap`: the IDs of the prior records marked critical. -/
def criticalMap (oldDisks : List DiskState) : List String :=
  (oldDisks.filter (fun d => d.Critical)).map (fun d => d.ID)

/-- The record built for a volume of the listing when it is attached to the
server; `none` for any other volume. -/
def attachedDisk (serverID : String) (oldDisks : List DiskState) (configDisks : List Disk)
    (now : String) (vol : DiskResult) : Option DiskState :=
  match vol.AttachedToServer with
  | none => none
  | some att =>
    if att.ID = serverID then
      let mp0 := oldMountPoint oldDisks vol.ID
      let mp1 := if mp0 = "" && !vol.Bootable then configMountPoint configDisks vol.Size else mp0
      let mp2 := if mp1 = "" && !vol.Bootable then "/mnt/disks/" ++ lastSegment att.Device else mp1
      some { ID := vol.ID, Size := vol.Size, Typ := vol.Typ, Bootable := vol.Bootable,
             Device := att.Device, MountPoint := mp2, Owner := "", Group := "", Mode := "",
             Critical := (criticalMap oldDisks).contains vol.ID,
             Created := vol.Created, Updated := now }
    else none

/-- The body of the second loop over `oldDisks`: a prior non-bootable record
that is not yet in `disks` and whose volume is in the listing is appended as a
detached record. -/
def detachedDiskStep (allVolumes : List DiskResult) (now : String)
    (disks : List DiskState) (old : DiskState) : List DiskState :=
  if old.Bootable then disks
  else if disks.any (fun d => d.ID = old.ID) then disks
  else
    match allVolumes.find? (fun vol => vol.ID = old.ID) with
    | some vol =>
      disks ++ [{ ID := vol.ID, Size := vol.Size, Typ := vol.Typ, Bootable := false,
                  Device := "", MountPoint := old.MountPoint, Owner := "", Group := "",
                  Mode := "", Critical := old.Critical, Created := vol.Created,
                  Updated := now }]
    | none => disks

/-- The disk list of `fetchNodeDetails` for a volume listing (`none` when the
listing could not be fetched, Go's `allVolumes == nil`). -/
def resolveDisks (serverID : String) (oldDisks : List DiskState) (configDisks : List Disk)
    (now : String) (allVolumes : Option (List DiskResult)) : List DiskState :=
  match allVolumes with
  | none => []
  | some vols =>
    oldDisks.foldl (detachedDiskStep vols now)
      (vols.filterMap (attachedDisk serverID oldDisks configDisks now))

/-- What `fetchNodeDetails` returns when it returns no error. -/
structure NodeDetails where
  IP : String
  AddressID : String
  Disks : List DiskState
  Created : String
  deriving DecidableEq, Repr

/-- The function `fetchNodeDetails`. -/
def fetchNodeDetails {σ : Type} (c : Client σ) (serverID : String)
    (oldDisks : List DiskState) (configDisks : List Disk) (w : σ) :
    Except String NodeDetails × σ :=
  match c.GetServerDetail serverID w with
  | (Except.error e, w1) => (Except.error e, w1)
  | (Except.ok detail, w1) =>
    match GetProjectAddressesMap c w1 with
    | (addrs, w2) =>
      let allAddrs : GoMap AddressDetail :=
        match addrs with
        | Except.ok m => m
        | Except.error _ => []
      let addr := resolveAddress allAddrs detail.Addresses
      match c.GetProjectVolumes w2 with
      | (vols, w3) =>
        let allVolumes : Option (List DiskResult) :=
          match vols with
          | Except.ok l => some l
          | Except.error _ => none
        (Except.ok { IP := addr.1, AddressID := addr.2,
                     Disks := resolveDisks serverID oldDisks configDisks (c.Now w3) allVolumes,
                     Created := detail.Created }, w3)

/-! ## `WaitForStatus` (`internal/clo/waiter.go`) -/

/-- The test `strings.Contains(s, pat)`. -/
def containsSubstr (s pat : String) : Bool :=
  s.data.tails.any (fun t => pat.data.isPrefixOf t)

/-- What `WaitForStatus` returns: the status, the address IDs, the volume IDs
and the error. -/
structure WaitResult where
  status : String
  addrIDs : List String
  volIDs : List String
  err : Option String
  deriving DecidableEq, Repr

/-- The method `WaitForStatus`; the natural number is the number of polls
left (`maxAttempts - i`). -/
def WaitForStatus {σ : Type} (c : Client σ) (serverID : String) (targetStatuses : List String) :
    Nat → σ → WaitResult × σ
  | 0, w =>
    ({ status := "", addrIDs := [], volIDs := [],
       err := some ("timeout: server did not reach status [" ++
         " ".intercalate targetStatuses ++ "]") }, w)
  | n + 1, w =>
    match c.GetServerDetail serverID w with
    | (Except.error e, w1) =>
      if containsSubstr e "Status: 404" then
        ({ status := "DELETED", addrIDs := [], volIDs := [],
           err := some ("server " ++ serverID ++ " not found (404), aborting wait") }, w1)
      else WaitForStatus c serverID targetStatuses n w1
    | (Except.ok detail, w1) =>
      if detail.Status = "ERROR" then
        ({ status := "ERROR", addrIDs := detail.Addresses, volIDs := detail.Storages,
           err := some "server entered ERROR state" }, w1)
      else if targetStatuses.contains detail.Status then
        ({ status := detail.Status, addrIDs := detail.Addresses, volIDs := detail.Storages,
           err := none }, w1)
      else WaitForStatus c serverID targetStatuses n w1

/-! ## `createNodeAsync` -/

/-- The `addresses` list of the create-server request. -/
def addressesPayload {σ : Type} (c : Client σ) (group : NodeGroup) (w : σ) :
    List AddressPayload × σ :=
  if group.ExternalIP then
    let found : String × σ :=
      if group.StaticIP = "" then
        match FindAvailableExternalIP c w with
        | (Except.ok id, w1) => (id, w1)
        | (Except.error _, w1) => ("", w1)
      else (group.StaticIP, w)
    if found.1 != "" then ([AddressPayload.existing found.1], found.2)
    else ([AddressPayload.fresh false true 4 1024], found.2)
  else ([AddressPayload.fresh false false 4 1024], w)

/-- The create-server request of one attempt. -/
def createPayload (name : String) (group : NodeGroup) (storages : List StoragePayload)
    (addresses : List AddressPayload) : CreatePayload :=
  { name := name, ram := group.Flavor.RAM, vcpus := group.Flavor.VCPUs, cpu_type := "SHARED",
    storages := storages, addresses := addresses,
    image := "389d732c-a53c-4566-984e-e01a7617ff25",
    keypairs := ["dd6b1251-ceeb-4fba-afbc-aa34cc4a6990", "92fb9ff8-9396-455f-9aed-a6482fc54ce6"] }

/-- The loop `for _, volID := range disksToAttach { client.AttachVolume(volID, id) }`. -/
def attachAll {σ : Type} (c : Client σ) (id : String) :
    List String → σ → List Event → σ × List Event
  | [], w, log => (w, log)
  | volID :: rest, w, log =>
    attachAll c id rest (c.AttachVolume volID id w).2 (log ++ [Event.AttachVolume volID id])

/-- The retry loop of `createNodeAsync`; the natural number is the number of
attempts left (`MaxRetries - attempt + 1`).  Returns the `NodeResult` sent on
the channel, the next world state and the requests issued. -/
def createNodeAttempts {σ : Type} (c : Client σ) (name : String) (group : NodeGroup)
    (oldDisks : List DiskState) (labels : GoMap String) (password : String)
    (avail : List DiskResult) :
    Nat → Option String → σ → List Event → NodeResult × σ × List Event
  | 0, lastErr, w, log =>
    ({ Name := name, Role := "", ID := "", IP := "", SSHPort := 0, AddressID := "",
       Err := some ("failed after 3 attempts: " ++ lastErr.getD "<nil>"),
       Labels := [], Taints := [], Disks := [], IsNew := false, Created := "" }, w, log)
  | n + 1, _, w, log =>
    let plan := matchDisks group.Disks oldDisks avail
    match addressesPayload c group w with
    | (addresses, w1) =>
      let payload := createPayload name group plan.storagesPayload addresses
      match c.CreateServer payload w1 with
      | (Except.error e, w2) =>
        createNodeAttempts c name group oldDisks labels password avail n (some e) w2
          (log ++ [Event.CreateServer payload])
      | (Except.ok id, w2) =>
        match WaitForStatus c id ["ACTIVE", "RUNNING"] 60 w2 with
        | (wr, w3) =>
          match wr.err with
          | some e =>
            let del : DeleteServerPayload :=
              { ClearFstab := true, DeleteVolumes := wr.volIDs, DeleteAddresses := [] }
            createNodeAttempts c name group oldDisks labels password avail n (some e)
              (c.DeleteServer id del w3).2
              (log ++ [Event.CreateServer payload, Event.DeleteServer id del])
          | none =>
            match attachAll c id plan.disksToAttach w3 (log ++ [Event.CreateServer payload]) with
            | (w4, log4) =>
              match fetchNodeDetails c id oldDisks group.Disks w4 with
              | (details, w5) =>
                let d : NodeDetails :=
                  match details with
                  | Except.ok d => d
                  | Except.error _ => { IP := "", AddressID := "", Disks := [], Created := "" }
                ({ Name := name, Role := group.Role, ID := id, IP := d.IP, SSHPort := 0,
                   AddressID := d.AddressID, Err := none, Labels := labels,
                   Taints := group.Taints, Disks := d.Disks, IsNew := true,
                   Created := d.Created },
                 (c.SetServerPassword id password w5).2,
                 log4 ++ [Event.SetServerPassword id password])

/-- The function `createNodeAsync`: the volume listing is fetched once, then
up to `MaxRetries = 3` attempts are made. -/
def createNodeAsync {σ : Type} (c : Client σ) (name : String) (group : NodeGroup)
    (oldDisks : List DiskState) (labels : GoMap String) (password : String)
    (w : σ) (log : List Event) : NodeResult × σ × List Event :=
  match c.GetProjectVolumes w with
  | (vols, w1) =>
    let avail : List DiskResult :=
      match vols with
      | Except.ok l => availableVolumes l
      | Except.error _ => []
    createNodeAttempts c name group oldDisks labels password avail 3 none w1 log

/-! ## `handleDelete` (`cmd/cli/handlers.go`) -/

/-- The internal addresses of the server, collected for deletion. -/
def addrIDsToDelete (allAddrs : GoMap AddressDetail) (addresses : List String) : List String :=
  addresses.filter (fun addrID =>
    match allAddrs.get addrID with
    | some addrInfo => !addrInfo.External
    | none => false)

/-- The bootable volumes of the server, collected for deletion. -/
def volIDsToDelete {σ : Type} (c : Client σ) : List String → σ → List String × σ
  | [], w => ([], w)
  | sID :: rest, w =>
    match c.GetVolumeDetail sID w with
    | (Except.ok volInfo, w1) =>
      match volIDsToDelete c rest w1 with
      | (ids, w2) => (if volInfo.Bootable then sID :: ids else ids, w2)
    | (Except.error _, w1) => volIDsToDelete c rest w1

/-- The function `handleDelete`: it always ends with a delete-server request. -/
def handleDelete {σ : Type} (c : Client σ) (serverID : String) (w : σ) (log : List Event) :
    σ × List Event :=
  match c.GetServerDetail serverID w with
  | (Except.error _, w1) =>
    let payload : DeleteServerPayload :=
      { ClearFstab := true, DeleteVolumes := [], DeleteAddresses := [] }
    ((c.DeleteServer serverID payload w1).2, log ++ [Event.DeleteServer serverID payload])
  | (Except.ok detail, w1) =>
    match GetProjectAddressesMap c w1 with
    | (addrs, w2) =>
      let addrIDs : List String :=
        match addrs with
        | Except.ok allAddrs => addrIDsToDelete allAddrs detail.Addresses
        | Except.error _ => []
      match volIDsToDelete c detail.Storages w2 with
      | (volIDs, w3) =>
        let payload : DeleteServerPayload :=
          { ClearFstab := true, DeleteVolumes := volIDs, DeleteAddresses := addrIDs }
        ((c.DeleteServer serverID payload w3).2, log ++ [Event.DeleteServer serverID payload])

/-! ## `handleClusterCreateFromCode` -/

/-- The inputs of a run that come from outside the cloud API: the outcome of
`local.LoadPassword`, the password `clo.GenerateRandomPassword` returns, the
order in which the workers deliver their results (positions in the
`nodesToCreate` queue), the text `scanner.Text()` returns at each successive
read of standard input (the empty string once the input has ended), and the
library functions `strings.ToLower` and `strings.TrimSpace`. -/
structure Env where
  LoadPassword : Except String String
  GenerateRandomPassword : String
  arrival : List Nat
  stdin : Nat → String
  ToLower : String → String
  TrimSpace : String → String

/-- The function `askForConfirmation`, at the read number `k` of standard
input: the text read, lower-cased and trimmed, is compared with `yes`. -/
def askForConfirmation (env : Env) (k : Nat) : Bool :=
  decide (env.TrimSpace (env.ToLower (env.stdin k)) = "yes")

/-- The map `cloudServerMap`: empty when the listing failed. -/
def buildCloudServerMap (resp : Except String (List ServerListEntry)) : GoMap String :=
  match resp with
  | Except.ok servers =>
    servers.foldl (fun m srv => GoMap.set m srv.Name srv.ID) ([] : GoMap String)
  | Except.error _ => []

/-- The body of the alive-verification loop over the persisted nodes. -/
def verifyNode {σ : Type} (c : Client σ) (st : GoMap NodeState × σ) (n : NodeState) :
    GoMap NodeState × σ :=
  match fetchNodeDetails c n.ID n.Disks [] st.2 with
  | (Except.error _, w1) => (st.1, w1)
  | (Except.ok d, w1) =>
    let finalIP := if n.SSHPort != 0 && n.IP != d.IP then n.IP else d.IP
    (GoMap.set st.1 n.Name
      { Name := n.Name, Role := n.Role, ID := n.ID, IP := finalIP, SSHPort := n.SSHPort,
        AddressID := d.AddressID, Labels := n.Labels, Taints := n.Taints, Disks := d.Disks,
        Created := d.Created, Updated := c.Now w1 }, w1)

/-- The map `aliveNodesMap` after the state has been loaded.  `s3 = none` is a
nil backend; otherwise it holds the outcome of `LoadState` (`Except.ok none`
when the object does not exist). -/
def verifyState {σ : Type} (c : Client σ) (s3 : Option (Except String (Option ClusterState)))
    (force : Bool) (w : σ) : GoMap NodeState × σ :=
  match s3 with
  | some (Except.ok (some existingState)) =>
    if existingState.Nodes.length > 0 then
      if force then ([], w)
      else existingState.Nodes.foldl (verifyNode c) ([], w)
    else ([], w)
  | _ => ([], w)

/-- The variable `existingState` after the state has been loaded. -/
def loadedState (s3 : Option (Except String (Option ClusterState))) : Option ClusterState :=
  match s3 with
  | some (Except.ok st) => st
  | _ => none

/-- The variable `currentPassword`. -/
def choosePassword (env : Env) (manualPassword : String) : String :=
  let p1 :=
    if manualPassword = "" then
      match env.LoadPassword with
      | Except.ok loaded => if loaded != "" then loaded else manualPassword
      | Except.error _ => manualPassword
    else manualPassword
  if p1 = "" then env.GenerateRandomPassword else p1

/-- The variables the classification loop updates. -/
structure ClassifyState (σ : Type) where
  finalNodes : List NodeResult
  nodesToCreate : List PendingNode
  world : σ

/-- The disks recorded for a name in the loaded state (`oldDisks`). -/
def oldDisksOf (existingState : Option ClusterState) (name : String) : List DiskState :=
  match existingState with
  | none => []
  | some st =>
    match st.Nodes.find? (fun n => n.Name = name) with
    | some n => n.Disks
    | none => []

/-- The body of the inner classification loop, for slot `slot.1` of `group`. -/
def classifySlot {σ : Type} (c : Client σ) (clusterName : String)
    (aliveNodesMap : GoMap NodeState) (cloudServerMap : GoMap String)
    (existingState : Option ClusterState) (group : NodeGroup)
    (st : ClassifyState σ) (slot : Int × InstanceConfig) : ClassifyState σ :=
  if !slot.2.Enabled then st
  else
    let mergedLabels := mergeLabels group.Labels slot.2.Labels
    let name := nodeName clusterName group.NamePrefix slot.1
    match aliveNodesMap.get name with
    | some existing =>
      { st with finalNodes := st.finalNodes ++
          [{ Name := existing.Name, Role := group.Role, ID := existing.ID, IP := existing.IP,
             SSHPort := existing.SSHPort, AddressID := existing.AddressID, Err := none,
             Labels := mergedLabels, Taints := group.Taints, Disks := existing.Disks,
             IsNew := false, Created := existing.Created }] }
    | none =>
      match cloudServerMap.get name with
      | some realID =>
        match fetchNodeDetails c realID [] group.Disks st.world with
        | (Except.error _, w1) => { st with world := w1 }
        | (Except.ok d, w1) =>
          { finalNodes := st.finalNodes ++
              [{ Name := name, Role := group.Role, ID := realID, IP := d.IP, SSHPort := 0,
                 AddressID := d.AddressID, Err := none, Labels := mergedLabels,
                 Taints := group.Taints, Disks := d.Disks, IsNew := false,
                 Created := d.Created }],
            nodesToCreate := st.nodesToCreate,
            world := w1 }
      | none =>
        { st with nodesToCreate := st.nodesToCreate ++
            [{ Name := name, Group := group, OldDisks := oldDisksOf existingState name,
               MergedLabels := mergedLabels }] }

/-- The classification loop over the groups and their instance slots. -/
def classify {σ : Type} (c : Client σ) (clusterName : String)
    (aliveNodesMap : GoMap NodeState) (cloudServerMap : GoMap String)
    (existingState : Option ClusterState) (groups : List NodeGroup) (w : σ) :
    ClassifyState σ :=
  groups.foldl
    (fun st group =>
      group.Instances.foldl
        (classifySlot c clusterName aliveNodesMap cloudServerMap existingState group) st)
    { finalNodes := [], nodesToCreate := [], world := w }

/-- The provisioning phase: the results the workers send, in arrival order.
`arrival` lists positions in the queue; in a run it is a rearrangement of
`0, …, len(nodesToCreate) - 1`, the order in which the workers finish. -/
def provision {σ : Type} (c : Client σ) (password : String) (items : List PendingNode) :
    List Nat → σ → List Event → List NodeResult × σ × List Event
  | [], w, log => ([], w, log)
  | i :: rest, w, log =>
    match items[i]? with
    | none => provision c password items rest w log
    | some itm =>
      match createNodeAsync c itm.Name itm.Group itm.OldDisks itm.MergedLabels password w log with
      | (res, w1, log1) =>
        match provision c password items rest w1 log1 with
        | (results, w2, log2) => (res :: results, w2, log2)

/-- The receive loop over the result channel: a result without error is
appended to `finalNodes`. -/
def collectResults (finalNodes : List NodeResult) (results : List NodeResult) :
    List NodeResult :=
  results.foldl (fun acc res => if res.Err.isSome then acc else acc ++ [res]) finalNodes

/-- The variables the orphan loop updates: the reported orphans (name and
ID), the server IDs passed to `handleDelete`, the number of reads of standard
input so far, the world and the requests issued. -/
structure OrphanState (σ : Type) where
  orphans : List (String × String)
  deleted : List String
  reads : Nat
  world : σ
  log : List Event

/-- The body of the loop over `aliveNodesMap` that detects extra nodes. -/
def orphanStep {σ : Type} (c : Client σ) (env : Env) (deleteFromCloud : Bool)
    (finalNodes : List NodeResult) (st : OrphanState σ) (entry : String × NodeState) :
    OrphanState σ :=
  if finalNodes.any (fun fn => fn.Name = entry.1) then st
  else
    let st1 := { st with orphans := st.orphans ++ [(entry.1, entry.2.ID)] }
    if deleteFromCloud then
      if askForConfirmation env st1.reads then
        match handleDelete c entry.2.ID st1.world st1.log with
        | (w1, log1) =>
          { st1 with deleted := st1.deleted ++ [entry.2.ID], reads := st1.reads + 1,
                     world := w1, log := log1 }
      else { st1 with reads := st1.reads + 1 }
    else st1

/-- The state `runPostActions` passes to `SaveState`, when there is a backend. -/
def runPostActions (hasBackend : Bool) (sshUser : String) (nodes : List NodeResult)
    (now : String) : Option ClusterState :=
  if hasBackend then
    some { Version := "1.9", LastUpdated := now, SSHUser := sshUser,
           Nodes := nodes.map (fun n =>
             { Name := n.Name, Role := n.Role, ID := n.ID, IP := n.IP, SSHPort := n.SSHPort,
               AddressID := n.AddressID, Labels := n.Labels, Taints := n.Taints,
               Disks := n.Disks, Created := if n.Created = "" then now else n.Created,
               Updated := now }) }
  else none

/-- What a run of `handleClusterCreateFromCode` computes and does: its two
indexes, the list `finalNodes` at the end of the classification loop
(`classified`), the queue, the results received from the channel `results` in
arrival order, the final list, the orphans reported, the server IDs passed to
`handleDelete`, the state passed to `SaveState` (if any), the requests issued
by the provisioning phase and by the orphan loop, and the final world. -/
structure RunResult (σ : Type) where
  cloudServerMap : GoMap String
  aliveNodesMap : GoMap NodeState
  classified : List NodeResult
  nodesToCreate : List PendingNode
  results : List NodeResult
  finalNodes : List NodeResult
  orphans : List (String × String)
  deleted : List String
  saved : Option ClusterState
  provisionLog : List Event
  orphanLog : List Event
  world : σ

/-- The function `handleClusterCreateFromCode`.  `cfg` is the outcome of
`GetClusterConfig`; `s3` is `none` for a nil backend and otherwise the outcome
of `LoadState`.  The inventory file and the SSH check that follow `SaveState`
are not part of the model. -/
def handleClusterCreateFromCode {σ : Type} (c : Client σ) (env : Env)
    (cfg : Except String Config) (s3 : Option (Except String (Option ClusterState)))
    (clusterName : String) (force : Bool) (manualPassword : String)
    (deleteFromCloud : Bool) (w : σ) : RunResult σ :=
  match cfg with
  | Except.error _ =>
    { cloudServerMap := [], aliveNodesMap := [], classified := [], nodesToCreate := [],
      results := [], finalNodes := [], orphans := [], deleted := [], saved := none,
      provisionLog := [], orphanLog := [], world := w }
  | Except.ok cfg =>
    match c.GetServersList w with
    | (servers, w1) =>
      let cloudServerMap := buildCloudServerMap servers
      match verifyState c s3 force w1 with
      | (aliveNodesMap, w2) =>
        let existingState := loadedState s3
        let currentPassword := choosePassword env manualPassword
        let cl := classify c clusterName aliveNodesMap cloudServerMap existingState cfg.Groups w2
        match provision c currentPassword cl.nodesToCreate env.arrival cl.world [] with
        | (results, w3, log3) =>
          let finalNodes := collectResults cl.finalNodes results
          let os := aliveNodesMap.foldl (orphanStep c env deleteFromCloud finalNodes)
            { orphans := [], deleted := [], reads := 0, world := w3, log := [] }
          { cloudServerMap := cloudServerMap, aliveNodesMap := aliveNodesMap,
            classified := cl.finalNodes, nodesToCreate := cl.nodesToCreate,
            results := results,
            finalNodes := finalNodes, orphans := os.orphans, deleted := os.deleted,
            saved := runPostActions s3.isSome cfg.SSHUser finalNodes (c.Now os.world),
            provisionLog := log3, orphanLog := os.log, world := os.world }

/-- The invariant of the matching loop: the reattach list has no repetition,
and each of its IDs is marked used and is the ID of a volume of the pool. -/
def PlanOk (avail : List DiskResult) (plan : DiskPlan) : Prop :=
  plan.disksToAttach.Nodup ∧
  ∀ id ∈ plan.disksToAttach, id ∈ plan.usedVolIDs ∧ ∃ av ∈ avail, av.ID = id

/-! ## The scenario of two master slots -/

/-- The cloud of the scenario; the world state tells whether `srv-b` has been
created. -/
def scenarioClient : Client Bool where
  GetServersList := fun w =>
    (Except.ok ([{ ID := "srv-a", Name := "c1-master-1" }] ++
      (if w then [{ ID := "srv-b", Name := "c1-master-2" }] else [])), w)
  GetServerDetail := fun id w =>
    if id = "srv-a" then
      (Except.ok { ID := "srv-a", Status := "ACTIVE", Name := "c1-master-1", Created := "t0",
                   Addresses := ["addr-a"], Storages := ["vol-a"] }, w)
    else if id = "srv-b" && w then
      (Except.ok { ID := "srv-b", Status := "ACTIVE", Name := "c1-master-2", Created := "t1",
                   Addresses := ["addr-b"], Storages := ["vol-b"] }, w)
    else (Except.error "get detail failed. Status: 404", w)
  GetProjectAddresses := fun w =>
    (Except.ok [
      { ID := "addr-a", Status := "ACTIVE", Address := "10.0.0.1", External := true, Ptr := "",
        Typ := "", MacAddr := "", IsPrimary := true, AttachedTo := none, ServerID := "srv-a",
        LoadBalancerID := "" },
      { ID := "addr-b", Status := "ACTIVE", Address := "10.0.0.2", External := false, Ptr := "",
        Typ := "", MacAddr := "", IsPrimary := true, AttachedTo := none, ServerID := "srv-b",
        LoadBalancerID := "" }], w)
  GetProjectVolumes := fun w =>
    (Except.ok ([
      { ID := "vol-a", Name := "boot-a", Size := 20, Status := "IN_USE", Typ := "storage",
        Bootable := true, Created := "t0",
        AttachedToServer := some { ID := "srv-a", Device := "/dev/vda" } }] ++
      (if w then [
      { ID := "vol-b", Name := "boot-b", Size := 20, Status := "IN_USE", Typ := "storage",
        Bootable := true, Created := "t1",
        AttachedToServer := some { ID := "srv-b", Device := "/dev/vda" } }] else [])), w)
  GetVolumeDetail := fun _ w => (Except.error "get volume detail failed. Status: 404", w)
  CreateServer := fun _ _ => (Except.ok "srv-b", true)
  DeleteServer := fun _ _ w => (none, w)
  AttachVolume := fun _ _ w => (Except.ok "", w)
  SetServerPassword := fun _ _ w => (none, w)
  Now := fun w => if w then "t2" else "t1"

/-- The environment of the scenario: no saved password, the single worker
delivers its result, nothing is typed. -/
def scenarioEnv : Env where
  LoadPassword := Except.error "no password"
  GenerateRandomPassword := "pw"
  arrival := [0]
  stdin := fun _ => ""
  ToLower := fun s => s
  TrimSpace := fun s => s

/-- The group of the scenario, with its two slots in the given order. -/
def scenarioGroup (slots : List Int) : NodeGroup :=
  { NamePrefix := "master", Role := "master",
    Instances := slots.map (fun i => (i, { Enabled := true, Labels := [] })),
    Flavor := { RAM := 4, VCPUs := 2 },
    Disks := [{ Size := 20, Bootable := true, Typ := "", MountPoint := "", Owner := "",
                Group := "", Mode := "" }],
    ExternalIP := false, StaticIP := "", Labels := [], Taints := [], LBRules := [] }

/-- The configuration of the scenario. -/
def scenarioConfig (slots : List Int) : Config :=
  { SSHUser := "root", Groups := [scenarioGroup slots], LoadBalancerIP := "" }

/-- The persisted state of the scenario: only `c1-master-1`. -/
def scenarioState : ClusterState :=
  { Version := "1.9", LastUpdated := "t0", SSHUser := "root",
    Nodes := [{ Name := "c1-master-1", Role := "master", ID := "srv-a", IP := "10.0.0.1",
                SSHPort := 0, AddressID := "addr-a", Labels := [], Taints := [],
                Disks := [], Created := "t0", Updated := "t0" }] }

/-- The run of the scenario. -/
def scenarioRun (slots : List Int) : RunResult Bool :=
  handleClusterCreateFromCode scenarioClient scenarioEnv (Except.ok (scenarioConfig slots))
    (some (Except.ok (some scenarioState))) "c1" false "" false false

/-- A name is the desired name of an enabled slot of one of the groups. -/
def Desired (clusterName : String) (groups : List NodeGroup) (name : String) : Prop :=
  ∃ g ∈ groups, ∃ slot ∈ g.Instances,
    slot.2.Enabled = true ∧ nodeName clusterName g.NamePrefix slot.1 = name

/-- A cloud that lists the server `srv-x` under the name `c1-master-1` but
fails to resolve its detail. -/
def unresolvedClient : Client Unit where
  GetServersList := fun w => (Except.ok [{ ID := "srv-x", Name := "c1-master-1" }], w)
  GetServerDetail := fun _ w => (Except.error "get detail failed. Status: 500", w)
  GetProjectAddresses := fun w => (Except.ok [], w)
  GetProjectVolumes := fun w => (Except.ok [], w)
  GetVolumeDetail := fun _ w => (Except.error "get volume detail failed. Status: 500", w)
  CreateServer := fun _ w => (Except.error "API Error", w)
  DeleteServer := fun _ _ w => (none, w)
  AttachVolume := fun _ _ w => (Except.ok "", w)
  SetServerPassword := fun _ _ w => (none, w)
  Now := fun _ => "t1"

/-- The run of the one-slot configuration against `unresolvedClient`, without
a state backend. -/
def unresolvedRun : RunResult Unit :=
  handleClusterCreateFromCode unresolvedClient scenarioEnv (Except.ok (scenarioConfig [1]))
    none "c1" false "" false ()

/-- A cloud with the server `srv-a`, named `c1-master-1`, to which the boot
volume `vol-a` and the data volume `vol-d` are attached. -/
def criticalClient : Client Unit where
  GetServersList := fun w => (Except.ok [{ ID := "srv-a", Name := "c1-master-1" }], w)
  GetServerDetail := fun id w =>
    if id = "srv-a" then
      (Except.ok { ID := "srv-a", Status := "ACTIVE", Name := "c1-master-1", Created := "t0",
                   Addresses := ["addr-a"], Storages := ["vol-a", "vol-d"] }, w)
    else (Except.error "get detail failed. Status: 404", w)
  GetProjectAddresses := fun w =>
    (Except.ok [
      { ID := "addr-a", Status := "ACTIVE", Address := "10.0.0.1", External := true, Ptr := "",
        Typ := "", MacAddr := "", IsPrimary := true, AttachedTo := none, ServerID := "srv-a",
        LoadBalancerID := "" }], w)
  GetProjectVolumes := fun w =>
    (Except.ok [
      { ID := "vol-a", Name := "boot-a", Size := 20, Status := "IN_USE", Typ := "storage",
        Bootable := true, Created := "t0",
        AttachedToServer := some { ID := "srv-a", Device := "/dev/vda" } },
      { ID := "vol-d", Name := "data-a", Size := 50, Status := "IN_USE", Typ := "storage",
        Bootable := false, Created := "t0",
        AttachedToServer := some { ID := "srv-a", Device := "/dev/vdb" } }], w)
  GetVolumeDetail := fun _ w => (Except.error "get volume detail failed. Status: 404", w)
  CreateServer := fun _ w => (Except.error "API Error", w)
  DeleteServer := fun _ _ w => (none, w)
  AttachVolume := fun _ _ w => (Except.ok "", w)
  SetServerPassword := fun _ _ w => (none, w)
  Now := fun _ => "t1"

/-- A persisted state whose node `c1-master-1`, recorded under the server ID
`serverID`, has the data disk `vol-d` marked critical. -/
def criticalState (serverID : String) : ClusterState :=
  { Version := "1.9", LastUpdated := "t0", SSHUser := "root",
    Nodes := [{ Name := "c1-master-1", Role := "master", ID := serverID, IP := "10.0.0.1",
                SSHPort := 0, AddressID := "addr-a", Labels := [], Taints := [],
                Disks := [
                  { ID := "vol-a", Size := 20, Typ := "storage", Bootable := true,
                    Device := "/dev/vda", MountPoint := "", Owner := "", Group := "",
                    Mode := "", Critical := false, Created := "t0", Updated := "t0" },
                  { ID := "vol-d", Size := 50, Typ := "storage", Bootable := false,
                    Device := "/dev/vdb", MountPoint := "/data", Owner := "", Group := "",
                    Mode := "", Critical := true, Created := "t0", Updated := "t0" }],
                Created := "t0", Updated := "t0" }] }

/-- The configuration of the critical-disk scenario: slot 1 of the group
`master`, with a boot disk and a data disk mounted on `/data`. -/
def criticalConfig : Config :=
  { SSHUser := "root",
    Groups := [
      { NamePrefix := "master", Role := "master",
        Instances := [(1, { Enabled := true, Labels := [] })],
        Flavor := { RAM := 4, VCPUs := 2 },
        Disks := [
          { Size := 20, Bootable := true, Typ := "", MountPoint := "", Owner := "",
            Group := "", Mode := "" },
          { Size := 50, Bootable := false, Typ := "", MountPoint := "/data", Owner := "",
            Group := "", Mode := "" }],
        ExternalIP := false, StaticIP := "", Labels := [], Taints := [], LBRules := [] }],
    LoadBalancerIP := "" }

/-- The run of `criticalConfig` against `criticalClient`, loading
`criticalState serverID`. -/
def criticalRun (serverID : String) (force : Bool) : RunResult Unit :=
  handleClusterCreateFromCode criticalClient scenarioEnv (Except.ok criticalConfig)
    (some (Except.ok (some (criticalState serverID)))) "c1" force "" false ()

/-- The names and critical flags of the disks a state records, node by node. -/
def criticalFlags (st : Option ClusterState) : List (String × List (String × Bool)) :=
  match st with
  | none => []
  | some s => s.Nodes.map (fun n => (n.Name, n.Disks.map (fun d => (d.ID, d.Critical))))


/-- The entry the scenario of two master slots queues for creation. -/
def scenarioPending : PendingNode :=
  { Name := "c1-master-2", Group := scenarioGroup [1, 2], OldDisks := [], MergedLabels := [] }

/-- The alive-index record of `c1-master-1` in the scenario of two master
slots. -/
def scenarioAlive : NodeState :=
  { Name := "c1-master-1", Role := "master", ID := "srv-a", IP := "10.0.0.1", SSHPort := 0,
    AddressID := "addr-a", Labels := [], Taints := [],
    Disks := [{ ID := "vol-a", Size := 20, Typ := "storage", Bootable := true,
                Device := "/dev/vda", MountPoint := "", Owner := "", Group := "", Mode := "",
                Critical := false, Created := "t0", Updated := "t1" }],
    Created := "t0", Updated := "t1" }

/-! ## One attempt of `createNodeAsync` -/

/-- The body of the retry loop of `createNodeAsync`, run once in world `w`:
`Except.error` with the error kept in `lastErr` when the attempt is abandoned
(at `CreateServer` or at `WaitForStatus`), the `NodeResult` sent on the
channel otherwise; with the next world and the requests issued. -/
def createAttempt {σ : Type} (c : Client σ) (name : String) (group : NodeGroup)
    (oldDisks : List DiskState) (labels : GoMap String) (password : String)
    (avail : List DiskResult) (w : σ) : Except String NodeResult × σ × List Event :=
  let plan := matchDisks group.Disks oldDisks avail
  match addressesPayload c group w with
  | (addresses, w1) =>
    let payload := createPayload name group plan.storagesPayload addresses
    match c.CreateServer payload w1 with
    | (Except.error e, w2) => (Except.error e, w2, [Event.CreateServer payload])
    | (Except.ok id, w2) =>
      match WaitForStatus c id ["ACTIVE", "RUNNING"] 60 w2 with
      | (wr, w3) =>
        match wr.err with
        | some e =>
          let del : DeleteServerPayload :=
            { ClearFstab := true, DeleteVolumes := wr.volIDs, DeleteAddresses := [] }
          (Except.error e, (c.DeleteServer id del w3).2,
            [Event.CreateServer payload, Event.DeleteServer id del])
        | none =>
          match attachAll c id plan.disksToAttach w3 [Event.CreateServer payload] with
          | (w4, log4) =>
            match fetchNodeDetails c id oldDisks group.Disks w4 with
            | (details, w5) =>
              let d : NodeDetails :=
                match details with
                | Except.ok d => d
                | Except.error _ => { IP := "", AddressID := "", Disks := [], Created := "" }
              (Except.ok { Name := name, Role := group.Role, ID := id, IP := d.IP, SSHPort := 0,
                           AddressID := d.AddressID, Err := none, Labels := labels,
                           Taints := group.Taints, Disks := d.Disks, IsNew := true,
                           Created := d.Created },
               (c.SetServerPassword id password w5).2,
               log4 ++ [Event.SetServerPassword id password])

/-- The outcomes of `n` successive attempts, each started in the world the
previous one left. -/
def attemptsFrom {σ : Type} (c : Client σ) (name : String) (group : NodeGroup)
    (oldDisks : List DiskState) (labels : GoMap String) (password : String)
    (avail : List DiskResult) : Nat → σ → List (Except String NodeResult × σ × List Event)
  | 0, _ => []
  | n + 1, w =>
    createAttempt c name group oldDisks labels password avail w ::
      attemptsFrom c name group oldDisks labels password avail n
        (createAttempt c name group oldDisks labels password avail w).2.1

/-- The pool of available volumes `createNodeAsync` computes from the listing
it fetches first. -/
def fetchedPool {σ : Type} (c : Client σ) (w : σ) : List DiskResult :=
  match (c.GetProjectVolumes w).1 with
  | Except.ok l => availableVolumes l
  | Except.error _ => []

/-- Whether a request is a create-server request. -/
def Event.isCreateServer : Event → Bool
  | Event.CreateServer _ => true
  | _ => false

/-- The volumes a delete-server request of the log lists, request by request. -/
def deletedVolumes : List Event → List (String × List String)
  | [] => []
  | Event.DeleteServer id p :: rest => (id, p.DeleteVolumes) :: deletedVolumes rest
  | _ :: rest => deletedVolumes rest

/-- A cloud in which the created server `srv-n`, with the volume `vol-n`,
stays in the status `BUILD` for ever. -/
def stuckClient : Client Unit where
  GetServersList := fun w => (Except.ok [], w)
  GetServerDetail := fun _ w =>
    (Except.ok { ID := "srv-n", Status := "BUILD", Name := "c1-master-1", Created := "t0",
                 Addresses := ["addr-n"], Storages := ["vol-n"] }, w)
  GetProjectAddresses := fun w => (Except.ok [], w)
  GetProjectVolumes := fun w => (Except.ok [], w)
  GetVolumeDetail := fun _ w => (Except.error "get volume detail failed. Status: 404", w)
  CreateServer := fun _ w => (Except.ok "srv-n", w)
  DeleteServer := fun _ _ w => (none, w)
  AttachVolume := fun _ _ w => (Except.ok "", w)
  SetServerPassword := fun _ _ w => (none, w)
  Now := fun _ => "t1"

/-- A cloud in which the created server `srv-n`, with the volume `vol-n`,
enters the status `ERROR`. -/
def erroredClient : Client Unit :=
  { stuckClient with
    GetServerDetail := fun _ w =>
      (Except.ok { ID := "srv-n", Status := "ERROR", Name := "c1-master-1", Created := "t0",
                   Addresses := ["addr-n"], Storages := ["vol-n"] }, w) }

/-- A persisted state whose only node `c1-master-1` (server `srv-a`) records
the IP `ip` and the SSH port `port`. -/
def editedState (ip : String) (port : Int) : ClusterState :=
  { Version := "1.9", LastUpdated := "t0", SSHUser := "root",
    Nodes := [{ Name := "c1-master-1", Role := "master", ID := "srv-a", IP := ip,
                SSHPort := port, AddressID := "addr-a", Labels := [], Taints := [],
                Disks := [], Created := "t0", Updated := "t0" }] }

/-- The run of the one-slot configuration against `scenarioClient` (which
resolves the IP `10.0.0.1` for `srv-a`), loading `editedState ip port`. -/
def editedRun (ip : String) (port : Int) : RunResult Bool :=
  handleClusterCreateFromCode scenarioClient scenarioEnv (Except.ok (scenarioConfig [1]))
    (some (Except.ok (some (editedState ip port)))) "c1" false "" false false

/-- A prior record of the data volume `vol-d` with a mount point, an owner, a
group and a mode. -/
def ownedDisk : DiskState :=
  { ID := "vol-d", Size := 50, Typ := "storage", Bootable := false, Device := "/dev/vdb",
    MountPoint := "/data", Owner := "1000", Group := "1000", Mode := "0750",
    Critical := true, Created := "t0", Updated := "t0" }

/-- A cloud with the server `srv-a` and its boot volume `vol-a`; the data
volume `vol-d` is unattached and the data volume `vol-e` is attached to the
server `srv-other`. -/
def detachedClient : Client Unit :=
  { criticalClient with
    GetProjectVolumes := fun w =>
      (Except.ok [
        { ID := "vol-a", Name := "boot-a", Size := 20, Status := "IN_USE", Typ := "storage",
          Bootable := true, Created := "t0",
          AttachedToServer := some { ID := "srv-a", Device := "/dev/vda" } },
        { ID := "vol-d", Name := "data-a", Size := 50, Status := "AVAILABLE", Typ := "storage",
          Bootable := false, Created := "t0", AttachedToServer := none },
        { ID := "vol-e", Name := "data-b", Size := 50, Status := "IN_USE", Typ := "storage",
          Bootable := false, Created := "t0",
          AttachedToServer := some { ID := "srv-other", Device := "/dev/vdb" } }], w) }

/-- The disks `fetchNodeDetails` returns, or the empty list when it fails. -/
def fetchedDisks {σ : Type} (c : Client σ) (serverID : String) (oldDisks : List DiskState)
    (configDisks : List Disk) (w : σ) : List DiskState :=
  match (fetchNodeDetails c serverID oldDisks configDisks w).1 with
  | Except.ok d => d.Disks
  | Except.error _ => []

/-- The detail `criticalClient` reports for the server `srv-a`. -/
def criticalDetail : ServerDetail :=
  { ID := "srv-a", Status := "ACTIVE", Name := "c1-master-1", Created := "t0",
    Addresses := ["addr-a"], Storages := ["vol-a", "vol-d"] }

/-- The address `criticalClient` reports for the project. -/
def criticalAddress : AddressDetail :=
  { ID := "addr-a", Status := "ACTIVE", Address := "10.0.0.1", External := true, Ptr := "",
    Typ := "", MacAddr := "", IsPrimary := true, AttachedTo := none, ServerID := "srv-a",
    LoadBalancerID := "" }

/-- The volumes `criticalClient` reports for the project. -/
def criticalVolumes : List DiskResult :=
  [{ ID := "vol-a", Name := "boot-a", Size := 20, Status := "IN_USE", Typ := "storage",
     Bootable := true, Created := "t0",
     AttachedToServer := some { ID := "srv-a", Device := "/dev/vda" } },
   { ID := "vol-d", Name := "data-a", Size := 50, Status := "IN_USE", Typ := "storage",
     Bootable := false, Created := "t0",
     AttachedToServer := some { ID := "srv-a", Device := "/dev/vdb" } }]

/-! ## The persisted document: `SaveState` and `LoadState` (`internal/state/s3.go`)

`SaveState` writes `json.MarshalIndent(data, "", "  ")`, `LoadState` reads the
object back with `json.NewDecoder(obj).Decode(&s)`.  The struct tags of
`DiskState`, `NodeState` and `ClusterState` fix which members a document has:
a member tagged `omitempty` is left out when the field is the empty string,
zero, `false`, or an empty slice or map.  The text of a document is the
rendering of its JSON value; rendering and parsing belong to the library and
are parameters here. -/

/-- A JSON value. -/
inductive JSON where
  | null
  | bool (b : Bool)
  | num (n : Int)
  | str (s : String)
  | arr (items : List JSON)
  | obj (members : List (String × JSON))

namespace JSON

/-- The member of an object the decoder assigns to the field named `key`: the
last member of that name. -/
def field (members : List (String × JSON)) (key : String) : Option JSON :=
  members.foldl (fun acc kv => if kv.1 = key then some kv.2 else acc) none

/-- A string member tagged `omitempty`. -/
def optStr (key : String) (s : String) : List (String × JSON) :=
  if s = "" then [] else [(key, JSON.str s)]

/-- An integer member tagged `omitempty`. -/
def optInt (key : String) (n : Int) : List (String × JSON) :=
  if n = 0 then [] else [(key, JSON.num n)]

/-- A boolean member tagged `omitempty`. -/
def optBool (key : String) (b : Bool) : List (String × JSON) :=
  if b then [(key, JSON.bool true)] else []

/-- A slice member tagged `omitempty`, given the encoded elements. -/
def optArr (key : String) (items : List JSON) : List (String × JSON) :=
  match items with
  | [] => []
  | _ :: _ => [(key, JSON.arr items)]

/-- Decoding into a `string` field: an absent member and `null` leave the
zero value. -/
def getStr : Option JSON → Option String
  | none => some ""
  | some JSON.null => some ""
  | some (JSON.str s) => some s
  | some _ => none

/-- Decoding into an `int` field. -/
def getInt : Option JSON → Option Int
  | none => some 0
  | some JSON.null => some 0
  | some (JSON.num n) => some n
  | some _ => none

/-- Decoding into a `bool` field. -/
def getBool : Option JSON → Option Bool
  | none => some false
  | some JSON.null => some false
  | some (JSON.bool b) => some b
  | some _ => none

/-- Decoding the elements of an array, one by one. -/
def getItems {α : Type} (decode : JSON → Option α) : List JSON → Option (List α)
  | [] => some []
  | item :: rest =>
    match decode item, getItems decode rest with
    | some a, some l => some (a :: l)
    | _, _ => none

/-- Decoding into a slice field: an absent member and `null` leave the nil
slice. -/
def getArr {α : Type} (decode : JSON → Option α) : Option JSON → Option (List α)
  | none => some []
  | some JSON.null => some []
  | some (JSON.arr items) => getItems decode items
  | some _ => none

/-- Decoding a string element. -/
def asStr : JSON → Option String
  | JSON.str s => some s
  | JSON.null => some ""
  | _ => none

/-- Decoding the members of an object into a `map[string]string`, in document
order. -/
def getMembers : List (String × JSON) → GoMap String → Option (GoMap String)
  | [], m => some m
  | (k, v) :: rest, m =>
    match asStr v with
    | some s => getMembers rest (GoMap.set m k s)
    | none => none

/-- Decoding into a `map[string]string` field. -/
def getMap : Option JSON → Option (GoMap String)
  | none => some []
  | some JSON.null => some []
  | some (JSON.obj members) => getMembers members []
  | some _ => none

end JSON

/-- The order in which the encoder writes the entries of a map: by key. -/
def keyLE (a b : String × String) : Prop := a.1 ≤ b.1

instance keyLE_decidable : DecidableRel keyLE := fun a b => inferInstanceAs (Decidable (a.1 ≤ b.1))

instance keyLE_total : IsTotal (String × String) keyLE := ⟨fun a b => le_total a.1 b.1⟩

instance keyLE_trans : IsTrans (String × String) keyLE := ⟨fun _ _ _ h1 h2 => le_trans h1 h2⟩

/-- The entries of a map sorted by key. -/
def sortedEntries (m : GoMap String) : GoMap String := m.insertionSort keyLE

/-- A `map[string]string` member tagged `omitempty`: an object whose members
are sorted by key. -/
def encodeLabels (key : String) (m : GoMap String) : List (String × JSON) :=
  match m with
  | [] => []
  | _ :: _ => [(key, JSON.obj ((sortedEntries m).map (fun kv => (kv.1, JSON.str kv.2))))]

/-- The members of the document of a `DiskState`, by its struct tags. -/
def encodeDiskState (d : DiskState) : JSON :=
  JSON.obj
    ([("id", JSON.str d.ID), ("size", JSON.num d.Size), ("type", JSON.str d.Typ),
      ("bootable", JSON.bool d.Bootable)] ++
      JSON.optStr "device" d.Device ++ JSON.optStr "mount_point" d.MountPoint ++
      JSON.optStr "owner" d.Owner ++ JSON.optStr "group" d.Group ++
      JSON.optStr "mode" d.Mode ++ JSON.optBool "critical" d.Critical ++
      JSON.optStr "created_at" d.Created ++ JSON.optStr "updated_at" d.Updated)

/-- Decoding a document into a `DiskState`. -/
def decodeDiskState : JSON → Option DiskState
  | JSON.obj ms =>
    match JSON.getStr (JSON.field ms "id"), JSON.getInt (JSON.field ms "size"),
      JSON.getStr (JSON.field ms "type"), JSON.getBool (JSON.field ms "bootable"),
      JSON.getStr (JSON.field ms "device"), JSON.getStr (JSON.field ms "mount_point"),
      JSON.getStr (JSON.field ms "owner"), JSON.getStr (JSON.field ms "group"),
      JSON.getStr (JSON.field ms "mode"), JSON.getBool (JSON.field ms "critical"),
      JSON.getStr (JSON.field ms "created_at"), JSON.getStr (JSON.field ms "updated_at") with
    | some id, some size, some typ, some bootable, some device, some mountPoint,
      some owner, some group, some mode, some critical, some created, some updated =>
      some { ID := id, Size := size, Typ := typ, Bootable := bootable, Device := device,
             MountPoint := mountPoint, Owner := owner, Group := group, Mode := mode,
             Critical := critical, Created := created, Updated := updated }
    | _, _, _, _, _, _, _, _, _, _, _, _ => none
  | _ => none

/-- The members of the document of a `NodeState`, by its struct tags. -/
def encodeNodeState (n : NodeState) : JSON :=
  JSON.obj
    ([("name", JSON.str n.Name), ("role", JSON.str n.Role), ("id", JSON.str n.ID),
      ("ip", JSON.str n.IP)] ++
      JSON.optInt "ssh_port" n.SSHPort ++ JSON.optStr "address_id" n.AddressID ++
      encodeLabels "labels" n.Labels ++
      JSON.optArr "taints" (n.Taints.map JSON.str) ++
      JSON.optArr "disks" (n.Disks.map encodeDiskState) ++
      JSON.optStr "created_at" n.Created ++ JSON.optStr "updated_at" n.Updated)

/-- Decoding a document into a `NodeState`. -/
def decodeNodeState : JSON → Option NodeState
  | JSON.obj ms =>
    match JSON.getStr (JSON.field ms "name"), JSON.getStr (JSON.field ms "role"),
      JSON.getStr (JSON.field ms "id"), JSON.getStr (JSON.field ms "ip"),
      JSON.getInt (JSON.field ms "ssh_port"), JSON.getStr (JSON.field ms "address_id"),
      JSON.getMap (JSON.field ms "labels"), JSON.getArr JSON.asStr (JSON.field ms "taints"),
      JSON.getArr decodeDiskState (JSON.field ms "disks"),
      JSON.getStr (JSON.field ms "created_at"), JSON.getStr (JSON.field ms "updated_at") with
    | some name, some role, some id, some ip, some port, some addressID, some labels,
      some taints, some disks, some created, some updated =>
      some { Name := name, Role := role, ID := id, IP := ip, SSHPort := port,
             AddressID := addressID, Labels := labels, Taints := taints, Disks := disks,
             Created := created, Updated := updated }
    | _, _, _, _, _, _, _, _, _, _, _ => none
  | _ => none

/-- The value of the member `nodes`, which is not tagged `omitempty`: `null`
for a nil slice (`nilNodes`), an array otherwise. -/
def encodeNodes (nilNodes : Bool) (nodes : List NodeState) : JSON :=
  match nodes with
  | [] => if nilNodes then JSON.null else JSON.arr []
  | _ :: _ => JSON.arr (nodes.map encodeNodeState)

/-- The document of a `ClusterState`; `nilNodes` tells whether an empty
`Nodes` is the nil slice. -/
def encodeClusterState (nilNodes : Bool) (s : ClusterState) : JSON :=
  JSON.obj
    [("version", JSON.str s.Version), ("last_updated", JSON.str s.LastUpdated),
     ("ssh_user", JSON.str s.SSHUser), ("nodes", encodeNodes nilNodes s.Nodes)]

/-- Decoding the member `nodes`: the slice and whether it is nil. -/
def decodeNodes : Option JSON → Option (List NodeState × Bool)
  | none => some ([], true)
  | some JSON.null => some ([], true)
  | some (JSON.arr items) =>
    match JSON.getItems decodeNodeState items with
    | some nodes => some (nodes, false)
    | none => none
  | some _ => none

/-- Decoding a document into a `ClusterState`, with the nil flag of `Nodes`. -/
def decodeClusterState : JSON → Option (ClusterState × Bool)
  | JSON.obj ms =>
    match JSON.getStr (JSON.field ms "version"), JSON.getStr (JSON.field ms "last_updated"),
      JSON.getStr (JSON.field ms "ssh_user"), decodeNodes (JSON.field ms "nodes") with
    | some version, some lastUpdated, some sshUser, some nodes =>
      some ({ Version := version, LastUpdated := lastUpdated, SSHUser := sshUser,
              Nodes := nodes.1 }, nodes.2)
    | _, _, _, _ => none
  | _ => none

/-- The text `SaveState` puts into the object store, for a rendering `render`
of JSON values (`json.MarshalIndent`). -/
def savedDocument {Doc : Type} (render : JSON → Doc) (nilNodes : Bool) (s : ClusterState) : Doc :=
  render (encodeClusterState nilNodes s)

/-- What the decoder of `LoadState` makes of a text, for a parser `parse` of
JSON texts. -/
def loadedDocument {Doc : Type} (parse : Doc → Option JSON) (doc : Doc) :
    Option (ClusterState × Bool) :=
  match parse doc with
  | some t => decodeClusterState t
  | none => none

/-- An error of the object store, with the code of its response (`NoSuchKey`
when the object does not exist). -/
structure StoreError where
  Code : String
  Message : String
  deriving DecidableEq, Repr

/-- What the object store answers during `LoadState`: the error of
`GetObject`, the error of `obj.Stat()`, and what the decoder makes of the
object. -/
structure StoreReply where
  GetObject : Option StoreError
  Stat : Option StoreError
  Decode : Except String ClusterState

/-- The method `LoadState`: `Except.ok none` is the pair `nil, nil`. -/
def LoadState (reply : StoreReply) : Except String (Option ClusterState) :=
  match reply.GetObject with
  | some err => Except.error err.Message
  | none =>
    match reply.Stat with
    | some _ => Except.ok none
    | none =>
      match reply.Decode with
      | Except.error e => Except.error e
      | Except.ok s => Except.ok (some s)

/-- The method `ObjectExists`, given the error of `StatObject`: only the code
`NoSuchKey` means that the object is absent. -/
def ObjectExists (stat : Option StoreError) : Except String Bool :=
  match stat with
  | some err => if err.Code = "NoSuchKey" then Except.ok false else Except.error err.Message
  | none => Except.ok true

/-- The reply of an object store that cannot be reached: `GetObject` hands out
a handle, `Stat` fails on the connection. -/
def unreachableReply : StoreReply :=
  { GetObject := none,
    Stat := some { Code := "", Message := "dial tcp: connection refused" },
    Decode := Except.error "EOF" }

/-- The run of the one-slot configuration (slot 2) against `scenarioClient`
when `LoadState` returns an error. -/
def unreadableRun : RunResult Bool :=
  handleClusterCreateFromCode scenarioClient scenarioEnv (Except.ok (scenarioConfig [2]))
    (some (Except.error "invalid character 'x' looking for beginning of value")) "c1"
    false "" false false

/-! ## The scenario of a recorded volume of another size -/

/-- A data-disk spec of size 50. -/
def resizedSpec : Disk :=
  { Size := 50, Bootable := false, Typ := "", MountPoint := "/data", Owner := "",
    Group := "", Mode := "" }

/-- The prior records: `vol-1`, recorded with size 50. -/
def resizedOld : List DiskState :=
  [{ ID := "vol-1", Size := 50, Typ := "storage", Bootable := false, Device := "/dev/vdb",
     MountPoint := "/data", Owner := "", Group := "", Mode := "", Critical := false,
     Created := "", Updated := "" }]

/-- The pool: the cloud reports `vol-1` as available with size 100. -/
def resizedPool : List DiskResult :=
  [{ ID := "vol-1", Name := "", Size := 100, Status := "AVAILABLE", Typ := "storage",
     Bootable := false, Created := "", AttachedToServer := none }]

/-- The new-volume request of a spec: its bootable flag, its storage type and
its size. -/
def requestOf (dConf : Disk) : StoragePayload :=
  { bootable := dConf.Bootable, storage_type := storageType dConf, size := dConf.Size }

/-! ## The cleanup of volumes (`handleCleanDisks`) -/

/-- The decoded volume listing `clo.DiskListResponse`. -/
structure DiskListResponse where
  Count : Int
  Result : List DiskResult
  deriving DecidableEq, Repr

/-- The set `criticalDisks` of `handleCleanDisks`: the IDs of the disk records
marked critical in a state that loaded (`err == nil && st != nil`); empty for a
nil backend, a load error or an absent state. -/
def criticalDisks (s3 : Option (Except String (Option ClusterState))) : List String :=
  match s3 with
  | some (Except.ok (some st)) =>
    st.Nodes.foldl (fun m n => n.Disks.foldl (fun m d => if d.Critical then d.ID :: m else m) m) []
  | _ => []

/-- The closure `deleteVol`: the IDs it passes to `DeleteVolume` (none for a
protected ID, the ID itself otherwise). -/
def deleteVol (critical : List String) (id : String) : List String :=
  if critical.contains id then [] else [id]

/-- The handler `handleCleanDisks`: the IDs passed to `DeleteVolume`, in call
order.  `list` is the outcome of `GetProjectVolumes`, `text` the line read from
the operator and `trimSpace` is `strings.TrimSpace`. -/
def handleCleanDisks (s3 : Option (Except String (Option ClusterState)))
    (list : Except String DiskListResponse) (trimSpace : String → String) (text : String) :
    List String :=
  let critical := criticalDisks s3
  match list with
  | Except.error _ => []
  | Except.ok list =>
    if list.Count = 0 then []
    else
      let input := trimSpace text
      if input = "" then []
      else if input = "DELETE-ALL" then
        list.Result.foldl
          (fun calls d => if !d.Bootable then calls else calls ++ deleteVol critical d.ID) []
      else if input = "DELETE-FORCE" then
        list.Result.foldl (fun calls d => calls ++ deleteVol critical d.ID) []
      else deleteVol critical input

/-- The record of the boot volume `vol-boot`, not critical. -/
def cleanBoot : DiskState :=
  { ID := "vol-boot", Size := 20, Typ := "storage", Bootable := true, Device := "/dev/vda",
    MountPoint := "", Owner := "", Group := "", Mode := "", Critical := false, Created := "",
    Updated := "" }

/-- The record of the data volume `vol-crit`, marked critical. -/
def cleanData : DiskState :=
  { ID := "vol-crit", Size := 50, Typ := "storage", Bootable := false, Device := "/dev/vdb",
    MountPoint := "/data", Owner := "", Group := "", Mode := "", Critical := true,
    Created := "", Updated := "" }

/-- The node that owns the two volumes. -/
def cleanNode : NodeState :=
  { Name := "c1-master-1", Role := "master", ID := "srv-a", IP := "10.0.0.1", SSHPort := 0,
    AddressID := "", Labels := [], Taints := [], Disks := [cleanBoot, cleanData],
    Created := "t0", Updated := "t0" }

/-- A state with the critical data volume `vol-crit` and the boot volume
`vol-boot`. -/
def cleanState : ClusterState :=
  { Version := "1.9", LastUpdated := "t0", SSHUser := "root", Nodes := [cleanNode] }

/-- The listing of the two volumes of `cleanState`. -/
def cleanListing : DiskListResponse :=
  { Count := 2,
    Result := [{ ID := "vol-boot", Name := "boot", Size := 20, Status := "IN_USE",
                 Typ := "storage", Bootable := true, Created := "",
                 AttachedToServer := none },
               { ID := "vol-crit", Name := "data", Size := 50, Status := "AVAILABLE",
                 Typ := "storage", Bootable := false, Created := "",
                 AttachedToServer := none }] }

/-! ## The reattachment of recorded disks (`handleAttachDisks`) -/

/-- The counters of `handleAttachDisks` with the world state and the requests
issued so far. -/
structure AttachState (σ : Type) where
  attachedCount : Nat
  stateChanged : Bool
  world : σ
  log : List Event

/-- The message of the runtime failure of reading a field through a nil
pointer. -/
def nilDereference : String :=
  "runtime error: invalid memory address or nil pointer dereference"

/-- The body of the loop over `node.Disks`: the disk record as it is left in
the state, and the counters; `Except.error` when the body fails at run time.
In the `IN_USE` case the `else` branch formats `volInfo.AttachedToServer.ID`,
also when it was reached because `volInfo.AttachedToServer` is nil. -/
def attachDisk {σ : Type} (c : Client σ) (cloudVolMap : GoMap DiskResult) (node : NodeState)
    (st : AttachState σ) (disk : DiskState) : Except String (DiskState × AttachState σ) :=
  if disk.Bootable || disk.ID = "" then Except.ok (disk, st)
  else
    match cloudVolMap.get disk.ID with
    | some volInfo =>
      if volInfo.Status = "AVAILABLE" then
        match c.AttachVolume disk.ID node.ID st.world with
        | (Except.error _, w) =>
          Except.ok (disk, { st with world := w,
                                     log := st.log ++ [Event.AttachVolume disk.ID node.ID] })
        | (Except.ok devicePath, w) =>
          Except.ok ({ disk with Device := devicePath, Updated := c.Now w },
            { attachedCount := st.attachedCount + 1, stateChanged := true, world := w,
              log := st.log ++ [Event.AttachVolume disk.ID node.ID] })
      else if volInfo.Status = "IN_USE" then
        match volInfo.AttachedToServer with
        | some att =>
          if att.ID = node.ID then
            if disk.Device ≠ att.Device then
              Except.ok ({ disk with Device := att.Device }, { st with stateChanged := true })
            else Except.ok (disk, st)
          else Except.ok (disk, st)
        | none => Except.error nilDereference
      else Except.ok (disk, st)
    | none => Except.ok (disk, st)

/-- The loop over `node.Disks`; the first list holds the records already
processed. -/
def attachDisks {σ : Type} (c : Client σ) (cloudVolMap : GoMap DiskResult) (node : NodeState) :
    List DiskState → List DiskState → AttachState σ →
      Except String (List DiskState × AttachState σ)
  | processed, [], st => Except.ok (processed, st)
  | processed, disk :: rest, st =>
    match attachDisk c cloudVolMap node st disk with
    | Except.error e => Except.error e
    | Except.ok (disk1, st1) => attachDisks c cloudVolMap node (processed ++ [disk1]) rest st1

/-- The loop over `st.Nodes`: a node without a server ID is skipped. -/
def attachNodes {σ : Type} (c : Client σ) (cloudVolMap : GoMap DiskResult) :
    List NodeState → List NodeState → AttachState σ →
      Except String (List NodeState × AttachState σ)
  | processed, [], st => Except.ok (processed, st)
  | processed, node :: rest, st =>
    if node.ID = "" then attachNodes c cloudVolMap (processed ++ [node]) rest st
    else
      match attachDisks c cloudVolMap node [] node.Disks st with
      | Except.error e => Except.error e
      | Except.ok (disks1, st1) =>
        attachNodes c cloudVolMap (processed ++ [{ node with Disks := disks1 }]) rest st1

/-- What `handleAttachDisks` does when it completes: the state it passes to
`SaveState` (if any), the number of volumes it attached, the requests it
issued and the last world state. -/
structure AttachResult (σ : Type) where
  saved : Option ClusterState
  attachedCount : Nat
  log : List Event
  world : σ

/-- The handler `handleAttachDisks`; `s3` is the outcome of `LoadState`.
`Except.error` stands for a run that ends in a runtime failure. -/
def handleAttachDisks {σ : Type} (c : Client σ) (s3 : Except String (Option ClusterState))
    (w : σ) : Except String (AttachResult σ) :=
  match s3 with
  | Except.ok (some st) =>
    match c.GetProjectVolumes w with
    | (Except.error _, w1) =>
      Except.ok { saved := none, attachedCount := 0, log := [], world := w1 }
    | (Except.ok allVolumes, w1) =>
      let cloudVolMap : GoMap DiskResult := allVolumes.foldl (fun m v => m.set v.ID v) []
      match attachNodes c cloudVolMap [] st.Nodes
          { attachedCount := 0, stateChanged := false, world := w1, log := [] } with
      | Except.error e => Except.error e
      | Except.ok (nodes1, st1) =>
        Except.ok { saved := if st1.stateChanged then some { st with Nodes := nodes1 } else none,
                    attachedCount := st1.attachedCount, log := st1.log, world := st1.world }
  | _ => Except.ok { saved := none, attachedCount := 0, log := [], world := w }

/-- A cloud whose volume listing is `vols`; `AttachVolume` answers with the
device `/dev/vdb`. -/
def attachClient (vols : List DiskResult) : Client Unit where
  GetServersList := fun w => (Except.ok [{ ID := "srv-a", Name := "c1-master-1" }], w)
  GetServerDetail := fun _ w => (Except.error "get detail failed. Status: 404", w)
  GetProjectAddresses := fun w => (Except.ok [], w)
  GetProjectVolumes := fun w => (Except.ok vols, w)
  GetVolumeDetail := fun _ w => (Except.error "get volume detail failed. Status: 404", w)
  CreateServer := fun _ w => (Except.error "API Error", w)
  DeleteServer := fun _ _ w => (none, w)
  AttachVolume := fun _ _ w => (Except.ok "/dev/vdb", w)
  SetServerPassword := fun _ _ w => (none, w)
  Now := fun _ => "t1"

/-- The volume `vol-crit` as the cloud lists it: with the given status and
attachment. -/
def listedVolume (status : String) (att : Option VolumeAttachment) : DiskResult :=
  { ID := "vol-crit", Name := "data", Size := 50, Status := status, Typ := "storage",
    Bootable := false, Created := "", AttachedToServer := att }

/-! ## The group of a node (`handlePermissions`) -/

/-- The test `strings.HasPrefix(s, pre)`. -/
def hasPrefix (s pre : String) : Bool :=
  pre.data.isPrefixOf s.data

/-- The string `fmt.Sprintf("%s-%s-", clusterName, grp.NamePrefix)`. -/
def groupPrefix (clusterName : String) (grp : NodeGroup) : String :=
  clusterName ++ "-" ++ grp.NamePrefix ++ "-"

/-- The variable `matchedGroup` of `handlePermissions` for a node name: the
first group of the configuration whose `groupPrefix` is a prefix of the
name. -/
def matchedGroup (clusterName : String) (groups : List NodeGroup) (name : String) :
    Option NodeGroup :=
  groups.find? (fun grp => hasPrefix name (groupPrefix clusterName grp))

/-- A group with the given name prefix and role. -/
def namedGroup (namePrefix role : String) : NodeGroup :=
  { NamePrefix := namePrefix, Role := role,
    Instances := [(1, { Enabled := true, Labels := [] })],
    Flavor := { RAM := 4, VCPUs := 2 }, Disks := [],
    ExternalIP := false, StaticIP := "", Labels := [], Taints := [], LBRules := [] }

/-! ## The inventory (`saveToAnsibleInventory`) -/

/-- The `less` function `saveToAnsibleInventory` passes to `sort.Slice`: the
node named `sinkNode` is less than no node, any other node is less than it,
and two other nodes compare by name (the operator `<` of strings, the
lexicographic order of their characters). -/
def inventoryLess (sinkNode : String) (a b : NodeResult) : Bool :=
  if a.Name = sinkNode then false
  else if b.Name = sinkNode then true
  else decide (a.Name.data < b.Name.data)

/-- The contract of `sort.Slice` of the Go standard library, which is not part
of the repository and runs different algorithms on short and on long slices:
when `less` is a strict weak ordering (irreflexive, transitive, and with a
transitive incomparability), the slice after the call is a rearrangement of
the slice before it in which no element is less than an element before it.
Nothing is assumed on the order of elements none of which is less than the
other (the sort is not stable). -/
def SortsSlices
    (sortSlice : (NodeResult → NodeResult → Bool) → List NodeResult → List NodeResult) : Prop :=
  ∀ (less : NodeResult → NodeResult → Bool) (l : List NodeResult),
    (∀ a, less a a = false) →
    (∀ a b c, less a b = true → less b c = true → less a c = true) →
    (∀ a b c, less a b = false → less b c = false → less a c = false) →
    (sortSlice less l).Perm l ∧ (sortSlice less l).Pairwise (fun a b => less b a = false)

/-- The nodes in the order in which `saveToAnsibleInventory` renders them:
the template ranges over the slice after `sort.Slice(nodes, less)`; the
library function is the parameter `sortSlice`. -/
def saveToAnsibleInventory
    (sortSlice : (NodeResult → NodeResult → Bool) → List NodeResult → List NodeResult)
    (nodes : List NodeResult) (sinkNode : String) : List NodeResult :=
  sortSlice (inventoryLess sinkNode) nodes

/-- One round of an insertion sort: the element `x` moves left while it is
less than the element before it.  The sorted part is given, and returned, in
reverse order (last element first). -/
def insertBack {α : Type} (less : α → α → Bool) (x : α) : List α → List α
  | [] => [x]
  | y :: rest => if less x y then y :: insertBack less x rest else x :: y :: rest

/-- Insertion sort by `less`: one function that meets the contract
`SortsSlices` (it is what `sort.Slice` runs on slices of at most 12
elements). -/
def insertionSort {α : Type} (less : α → α → Bool) (l : List α) : List α :=
  (l.foldl (fun sortedRev x => insertBack less x sortedRev) []).reverse

/-- A node result with the given name and server ID. -/
def namedNode (name id : String) : NodeResult :=
  { Name := name, Role := "master", ID := id, IP := "", SSHPort := 0, AddressID := "",
    Err := none, Labels := [], Taints := [], Disks := [], IsNew := false, Created := "" }

/-! ## The provisioning workers and their semaphore -/

/-- Where a provisioning goroutine stands: before `sem <- struct{}{}`; past it
and about to call `createNodeAsync`; inside `createNodeAsync`; returned from
it and about to run the deferred `<-sem`; done. -/
inductive Phase where
  | waiting
  | acquired
  | running
  | returned
  | finished
  deriving DecidableEq, Repr

/-- The goroutines of the provisioning phase, one per queued node, and the
number of values in the buffered channel `sem`. -/
structure Pool where
  phases : List Phase
  sem : Nat
  deriving DecidableEq, Repr

/-- The constant `maxConcurrency`, the capacity of `sem`. -/
def maxConcurrency : Nat := 5

/-- The pool when the goroutines have been started: every goroutine is before
its send, and `sem` is empty. -/
def startPool (n : Nat) : Pool :=
  { phases := List.replicate n Phase.waiting, sem := 0 }

/-- The next step of goroutine `i`, if it can take one: the send on `sem`
goes through while the buffer holds fewer than `cap` values and blocks
otherwise; the receive takes one value out of the buffer. -/
def workerStep (cap : Nat) (s : Pool) (i : Nat) : Pool :=
  match s.phases[i]? with
  | some Phase.waiting =>
    if s.sem < cap then { phases := s.phases.set i Phase.acquired, sem := s.sem + 1 } else s
  | some Phase.acquired => { s with phases := s.phases.set i Phase.running }
  | some Phase.running => { s with phases := s.phases.set i Phase.returned }
  | some Phase.returned =>
    if 0 < s.sem then { phases := s.phases.set i Phase.finished, sem := s.sem - 1 } else s
  | _ => s

/-- The pool after the goroutines took their steps in the order of
`schedule`. -/
def runSchedule (cap : Nat) (s : Pool) (schedule : List Nat) : Pool :=
  schedule.foldl (workerStep cap) s

/-- A goroutine that holds a value of `sem`. -/
def Phase.holding : Phase → Bool
  | Phase.acquired => true
  | Phase.running => true
  | Phase.returned => true
  | _ => false

/-- The number of invocations of `createNodeAsync` that are running. -/
def Pool.runningCount (s : Pool) : Nat :=
  s.phases.countP (fun p => p = Phase.running)

/-! ## The scenario of two data volumes -/

/-- Two non-bootable volumes attached to `srv-a`, of the given sizes. -/
def twinVolumes (size1 size2 : Int) : List DiskResult :=
  [{ ID := "vol-1", Name := "data-1", Size := size1, Status := "IN_USE", Typ := "storage",
     Bootable := false, Created := "t0",
     AttachedToServer := some { ID := "srv-a", Device := "/dev/vdb" } },
   { ID := "vol-2", Name := "data-2", Size := size2, Status := "IN_USE", Typ := "storage",
     Bootable := false, Created := "t0",
     AttachedToServer := some { ID := "srv-a", Device := "/dev/vdc" } }]

/-- The cloud of `criticalClient`, with the two volumes of `twinVolumes` as
its volume listing. -/
def twinClient (size1 size2 : Int) : Client Unit :=
  { criticalClient with GetProjectVolumes := fun w => (Except.ok (twinVolumes size1 size2), w) }

/-- Three configured data disks with the pairwise distinct mount points
`/data1` and `/data2` (both of size 50) and `/data3` (size 100). -/
def twinConfig : List Disk :=
  [{ Size := 50, Bootable := false, Typ := "", MountPoint := "/data1", Owner := "",
     Group := "", Mode := "" },
   { Size := 50, Bootable := false, Typ := "", MountPoint := "/data2", Owner := "",
     Group := "", Mode := "" },
   { Size := 100, Bootable := false, Typ := "", MountPoint := "/data3", Owner := "",
     Group := "", Mode := "" }]

/-! ## Two runs in succession -/

/-- A disk record with its `Updated` stamp replaced. -/
def DiskState.restamp (now : String) (d : DiskState) : DiskState :=
  { d with Updated := now }

/-- A disk record without its `Updated` stamp. -/
def DiskState.unstamped (d : DiskState) : DiskState :=
  d.restamp ""

/-- A record as the second loop of `fetchNodeDetails` appends it for a volume
of the listing: detached, not bootable, with the size, type and creation time
the listing gives for its ID. -/
def DetachedRecord (vols : List DiskResult) (x : DiskState) : Prop :=
  ∃ vol, vols.find? (fun v => v.ID = x.ID) = some vol ∧ x.Bootable = false ∧ x.Device = "" ∧
    x.Size = vol.Size ∧ x.Typ = vol.Typ ∧ x.Owner = "" ∧ x.Group = "" ∧ x.Mode = "" ∧
    x.Created = vol.Created

/-- The address map `fetchNodeDetails` works with when the cloud answers the
address listing with `addrs` (empty when the listing fails). -/
def addrsOf (addrs : Except String (List AddressDetail)) : GoMap AddressDetail :=
  match addrs with
  | Except.ok l => addressesMap l
  | Except.error _ => []

/-- The volume listing `fetchNodeDetails` works with when the cloud answers
the volume listing with `vols` (`none` when the listing fails). -/
def volsOf (vols : Except String (List DiskResult)) : Option (List DiskResult) :=
  match vols with
  | Except.ok l => some l
  | Except.error _ => none

/-- A fixed, deterministic cloud: in every world `GetServerDetail` answers
`detailOf`, the address listing is `addrs` and the volume listing is `vols`,
in which no volume ID occurs twice. -/
def FixedCloud {σ : Type} (c : Client σ) (detailOf : String → Except String ServerDetail)
    (addrs : Except String (List AddressDetail)) (vols : Except String (List DiskResult)) :
    Prop :=
  (∀ id w, (c.GetServerDetail id w).1 = detailOf id) ∧
  (∀ w, (c.GetProjectAddresses w).1 = addrs) ∧
  (∀ w, (c.GetProjectVolumes w).1 = vols) ∧
  (∀ l, vols = Except.ok l → (l.map (fun v => v.ID)).Nodup)

/-- The values `fetchNodeDetails` returns for the server `id` in a fixed
cloud, for some prior disks, configured disks and time: the address ID, the
IP unless a persisted SSH port keeps another one, and the disk list. -/
def Resolved (detailOf : String → Except String ServerDetail)
    (addrs : Except String (List AddressDetail)) (vols : Except String (List DiskResult))
    (id ip addrID : String) (port : Int) (disks : List DiskState) : Prop :=
  ∃ detail, detailOf id = Except.ok detail ∧
    addrID = (resolveAddress (addrsOf addrs) detail.Addresses).2 ∧
    (port = 0 → ip = (resolveAddress (addrsOf addrs) detail.Addresses).1) ∧
    ∃ old cfgD now, disks = resolveDisks id old cfgD now (volsOf vols)

/-- The enabled slots of the configuration, each with its group, in
configuration order. -/
def desiredSlots (groups : List NodeGroup) : List (NodeGroup × (Int × InstanceConfig)) :=
  groups.flatMap (fun g => (g.Instances.filter (fun s => s.2.Enabled)).map (fun s => (g, s)))

/-- The desired names of the enabled slots, in configuration order. -/
def desiredNames (clusterName : String) (groups : List NodeGroup) : List String :=
  (desiredSlots groups).map (fun p => nodeName clusterName p.1.NamePrefix p.2.1)

/-- Two entries of final node lists agree in name, ID, IP, SSH port, address
ID, role, labels, taints and disk records, the `Updated` stamps of the disk
records excepted. -/
def SameNode (n1 n2 : NodeResult) : Prop :=
  n2.Name = n1.Name ∧ n2.ID = n1.ID ∧ n2.IP = n1.IP ∧ n2.SSHPort = n1.SSHPort ∧
  n2.AddressID = n1.AddressID ∧ n2.Role = n1.Role ∧ n2.Labels = n1.Labels ∧
  n2.Taints = n1.Taints ∧
  n2.Disks.map DiskState.unstamped = n1.Disks.map DiskState.unstamped

/-- An entry of a final node list whose values a fixed cloud reports for its
server ID and whose name, role, labels and taints are those of an enabled slot
of the configuration. -/
def Proven (detailOf : String → Except String ServerDetail)
    (addrs : Except String (List AddressDetail)) (vols : Except String (List DiskResult))
    (clusterName : String) (groups : List NodeGroup) (n : NodeResult) : Prop :=
  Resolved detailOf addrs vols n.ID n.IP n.AddressID n.SSHPort n.Disks ∧
  ∃ p ∈ desiredSlots groups, n.Name = nodeName clusterName p.1.NamePrefix p.2.1 ∧
    n.Role = p.1.Role ∧ n.Labels = mergeLabels p.1.Labels p.2.2.Labels ∧
    n.Taints = p.1.Taints

/-- A fixed cloud: the server `srv-a` (named `c1-master-1`, with the boot
volume `vol-a` and the data volume `vol-d`) is listed; `CreateServer` answers
`srv-b`, whose detail resolves with the boot volume `vol-b`. -/
def fixedClient : Client Unit :=
  { criticalClient with
    GetServerDetail := fun id w =>
      if id = "srv-a" then
        (Except.ok { ID := "srv-a", Status := "ACTIVE", Name := "c1-master-1", Created := "t0",
                     Addresses := ["addr-a"], Storages := ["vol-a", "vol-d"] }, w)
      else if id = "srv-b" then
        (Except.ok { ID := "srv-b", Status := "ACTIVE", Name := "c1-master-2", Created := "t1",
                     Addresses := [], Storages := ["vol-b"] }, w)
      else (Except.error "get detail failed. Status: 404", w)
    GetProjectVolumes := fun w =>
      (Except.ok [
        { ID := "vol-a", Name := "boot-a", Size := 20, Status := "IN_USE", Typ := "storage",
          Bootable := true, Created := "t0",
          AttachedToServer := some { ID := "srv-a", Device := "/dev/vda" } },
        { ID := "vol-d", Name := "data-a", Size := 50, Status := "IN_USE", Typ := "storage",
          Bootable := false, Created := "t0",
          AttachedToServer := some { ID := "srv-a", Device := "/dev/vdb" } },
        { ID := "vol-b", Name := "boot-b", Size := 20, Status := "IN_USE", Typ := "storage",
          Bootable := true, Created := "t1",
          AttachedToServer := some { ID := "srv-b", Device := "/dev/vda" } }], w)
    CreateServer := fun _ w => (Except.ok "srv-b", w) }

/-- The first run in the fixed cloud: no state yet, both master slots
enabled. -/
def firstRun : RunResult Unit :=
  handleClusterCreateFromCode fixedClient scenarioEnv (Except.ok (scenarioConfig [1, 2]))
    (some (Except.ok none)) "c1" false "" false ()

/-- The state the first run saved. -/
def firstSaved : ClusterState :=
  match firstRun.saved with
  | some s => s
  | none => { Version := "", LastUpdated := "", SSHUser := "", Nodes := [] }

/-- The second run in the fixed cloud, on the state the first run saved. -/
def secondRun : RunResult Unit :=
  handleClusterCreateFromCode fixedClient scenarioEnv (Except.ok (scenarioConfig [1, 2]))
    (some (Except.ok (some firstSaved))) "c1" false "" false ()

/-! ## The scenario of two master slots, for any persisted record -/

/-- A persisted state holding only `c1-master-1` with ID `srv-a`; the other
fields of its record are those of `prior`. -/
def retainedState (prior : NodeState) : ClusterState :=
  { Version := "1.9", LastUpdated := "t0", SSHUser := "root",
    Nodes := [{ prior with Name := "c1-master-1", ID := "srv-a" }] }

/-- The run of the scenario of two master slots on `retainedState prior`. -/
def retainedRun (slots : List Int) (prior : NodeState) : RunResult Bool :=
  handleClusterCreateFromCode scenarioClient scenarioEnv (Except.ok (scenarioConfig slots))
    (some (Except.ok (some (retainedState prior)))) "c1" false "" false false

/-- A persisted record with the IP `192.0.2.9` and the SSH port 2222. -/
def portedPrior : NodeState :=
  { Name := "c1-master-1", Role := "master", ID := "srv-a", IP := "192.0.2.9",
    SSHPort := 2222, AddressID := "addr-a", Labels := [], Taints := [], Disks := [],
    Created := "t0", Updated := "t0" }

/-! ## The orphans whose deletion is confirmed -/

/-- The server ID of a delete-server request. -/
def Event.deletedServer : Event → Option String
  | Event.DeleteServer serverID _ => some serverID
  | _ => none

/-- The IDs of the orphans of the list whose question is answered `yes`, when
the first orphan of the list is asked at read number `k` of standard input and
each following one at the next read. -/
def confirmedFrom (env : Env) : Nat → List (String × String) → List String
  | _, [] => []
  | k, o :: rest =>
    (if askForConfirmation env k then [o.2] else []) ++ confirmedFrom env (k + 1) rest

/-- The IDs of the reported orphans (name and ID, in the order of the report)
for which `deleteFromCloud` is set and the operator's answer to the question
asked for that orphan is `yes`. -/
def confirmedDeletions (env : Env) (deleteFromCloud : Bool)
    (orphans : List (String × String)) : List String :=
  if deleteFromCloud then confirmedFrom env 0 orphans else []

/-- An environment in which the operator answers `no` to the first question
and `yes` to every later one. -/
def secondYesEnv : Env :=
  { scenarioEnv with stdin := fun k => if k = 0 then "no" else "yes" }

/-- A cloud that lists no server and resolves the detail of every server
ID. -/
def orphanClient : Client Unit :=
  { criticalClient with
    GetServersList := fun w => (Except.ok [], w)
    GetServerDetail := fun id w =>
      (Except.ok { ID := id, Status := "ACTIVE", Name := "", Created := "t0",
                   Addresses := [], Storages := [] }, w) }

/-- A persisted state with the two nodes `c1-old-1` (server `srv-x`) and
`c1-old-2` (server `srv-y`), which no slot of the configuration desires. -/
def orphanState : ClusterState :=
  { Version := "1.9", LastUpdated := "t0", SSHUser := "root",
    Nodes := [{ Name := "c1-old-1", Role := "worker", ID := "srv-x", IP := "10.0.0.8",
                SSHPort := 0, AddressID := "", Labels := [], Taints := [], Disks := [],
                Created := "t0", Updated := "t0" },
              { Name := "c1-old-2", Role := "worker", ID := "srv-y", IP := "10.0.0.9",
                SSHPort := 0, AddressID := "", Labels := [], Taints := [], Disks := [],
                Created := "t0", Updated := "t0" }] }

/-- The run of a configuration without slots on `orphanState`, with deletion
from the cloud switched on. -/
def orphanRun (env : Env) : RunResult Unit :=
  handleClusterCreateFromCode orphanClient env (Except.ok (scenarioConfig []))
    (some (Except.ok (some orphanState))) "c1" false "" true ()

/-- The persisted record of `c1-master-1` in `editedState ip port`. -/
def editedNode (ip : String) (port : Int) : NodeState :=
  { Name := "c1-master-1", Role := "master", ID := "srv-a", IP := ip, SSHPort := port,
    AddressID := "addr-a", Labels := [], Taints := [], Disks := [], Created := "t0",
    Updated := "t0" }

/-- What `fetchNodeDetails` returns for `srv-a` in the cloud of the scenario
before anything is created. -/
def scenarioDetails : NodeDetails :=
  { IP := "10.0.0.1", AddressID := "addr-a", Disks := scenarioAlive.Disks, Created := "t0" }

/-! # Theorems -/

/-! ## Lemmas on the disk matcher -/

theorem matchOldDisk_spec (dConf : Disk) (avail : List DiskResult) (oldDisks : List DiskState) :
    ∀ used : List String,
      ((matchOldDisk dConf avail oldDisks used).1 = "" ∨
        ((matchOldDisk dConf avail oldDisks used).1 ∉ used ∧
          (matchOldDisk dConf avail oldDisks used).1 ∈ (matchOldDisk dConf avail oldDisks used).2 ∧
          ∃ av ∈ avail, av.ID = (matchOldDisk dConf avail oldDisks used).1)) ∧
      ∀ x ∈ used, x ∈ (matchOldDisk dConf avail oldDisks used).2 := by
  induction oldDisks with
  | nil => intro used; simp [matchOldDisk]
  | cons oldD rest ih =>
    intro used
    unfold matchOldDisk
    split
    · exact ih used
    · split
      · rename_i av hfind
        have hmem := List.mem_of_find?_eq_some hfind
        have hp := List.find?_some hfind
        simp at hp
        split
        · refine ⟨Or.inr ⟨hp.2, List.mem_cons_self _ _, av, hmem, rfl⟩, ?_⟩
          intro x hx
          exact List.mem_cons_of_mem _ hx
        · rcases ih (av.ID :: used) with ⟨h1, h2⟩
          refine ⟨?_, fun x hx => h2 x (List.mem_cons_of_mem _ hx)⟩
          rcases h1 with h1 | ⟨h1, h3, h4⟩
          · exact Or.inl h1
          · exact Or.inr ⟨fun h => h1 (List.mem_cons_of_mem _ h), h3, h4⟩
      · exact ih used

theorem matchBySize_spec (dConf : Disk) (avail : List DiskResult) (used : List String) :
    ((matchBySize dConf avail used).1 = "" ∨
      ((matchBySize dConf avail used).1 ∉ used ∧
        (matchBySize dConf avail used).1 ∈ (matchBySize dConf avail used).2 ∧
        ∃ av ∈ avail, av.ID = (matchBySize dConf avail used).1)) ∧
    ∀ x ∈ used, x ∈ (matchBySize dConf avail used).2 := by
  unfold matchBySize
  split
  · rename_i av hfind
    have hmem := List.mem_of_find?_eq_some hfind
    have hp := List.find?_some hfind
    simp at hp
    exact ⟨Or.inr ⟨hp.1, List.mem_cons_self _ _, av, hmem, rfl⟩,
      fun x hx => List.mem_cons_of_mem _ hx⟩
  · simp

theorem findDisk_spec (dConf : Disk) (avail : List DiskResult) (oldDisks : List DiskState)
    (used : List String) :
    ((findDisk dConf avail oldDisks used).1 = "" ∨
      ((findDisk dConf avail oldDisks used).1 ∉ used ∧
        (findDisk dConf avail oldDisks used).1 ∈ (findDisk dConf avail oldDisks used).2 ∧
        ∃ av ∈ avail, av.ID = (findDisk dConf avail oldDisks used).1)) ∧
    ∀ x ∈ used, x ∈ (findDisk dConf avail oldDisks used).2 := by
  have h1 := matchOldDisk_spec dConf avail oldDisks used
  have h2 := matchBySize_spec dConf avail (matchOldDisk dConf avail oldDisks used).2
  unfold findDisk
  by_cases hc : (matchOldDisk dConf avail oldDisks used).1 = ""
  · rw [if_pos hc]
    refine ⟨?_, fun x hx => h2.2 x (h1.2 x hx)⟩
    rcases h2.1 with h | ⟨ha, hb, hc'⟩
    · exact Or.inl h
    · exact Or.inr ⟨fun hx => ha (h1.2 _ hx), hb, hc'⟩
  · rw [if_neg hc]
    exact h1

theorem matchDiskStep_ok (oldDisks : List DiskState) (avail : List DiskResult)
    (plan : DiskPlan) (dConf : Disk) (h : PlanOk avail plan) :
    PlanOk avail (matchDiskStep oldDisks avail plan dConf) := by
  obtain ⟨hnd, hin⟩ := h
  have hk := findDisk_spec dConf avail oldDisks plan.usedVolIDs
  unfold matchDiskStep
  by_cases hb : dConf.Bootable = true
  · rw [if_pos hb]
    exact ⟨hnd, hin⟩
  · rw [if_neg hb]
    by_cases hne : ((findDisk dConf avail oldDisks plan.usedVolIDs).1 != "") = true
    · simp only [hne, if_true]
      simp only [bne_iff_ne, ne_eq] at hne
      rcases hk.1 with h | ⟨ha, hb', hc⟩
      · exact absurd h hne
      · refine ⟨?_, ?_⟩
        · show (plan.disksToAttach ++ [_]).Nodup
          rw [List.nodup_append]
          refine ⟨hnd, List.nodup_singleton _, ?_⟩
          intro x hx hx'
          rw [List.mem_singleton] at hx'
          subst hx'
          exact ha (hin _ hx).1
        · intro id hid
          have hid' : id ∈ plan.disksToAttach ++ [(findDisk dConf avail oldDisks plan.usedVolIDs).1] := hid
          simp only [List.mem_append, List.mem_singleton] at hid'
          rcases hid' with hid' | hid'
          · exact ⟨hk.2 _ (hin id hid').1, (hin id hid').2⟩
          · subst hid'
            exact ⟨hb', hc⟩
    · simp only [hne]
      exact ⟨hnd, fun id hid => ⟨hk.2 _ (hin id hid).1, (hin id hid).2⟩⟩

theorem foldl_matchDiskStep_ok (oldDisks : List DiskState) (avail : List DiskResult)
    (groupDisks : List Disk) :
    ∀ plan : DiskPlan, PlanOk avail plan →
      PlanOk avail (groupDisks.foldl (matchDiskStep oldDisks avail) plan) := by
  induction groupDisks with
  | nil => intro plan h; exact h
  | cons d rest ih =>
    intro plan h
    exact ih _ (matchDiskStep_ok oldDisks avail plan d h)

/-- C3. For every list of configured disk specs, every old-disk list and every
volume listing (repeated IDs allowed), the reattach list of one attempt of
`createNodeAsync` holds no volume ID twice, and each of its IDs is the ID of
a volume of the listing whose status is `AVAILABLE`. -/
theorem reattach_nodup_and_available (groupDisks : List Disk) (oldDisks : List DiskState)
    (allProjectVolumes : List DiskResult) :
    (matchDisks groupDisks oldDisks (availableVolumes allProjectVolumes)).disksToAttach.Nodup ∧
    ∀ id ∈ (matchDisks groupDisks oldDisks (availableVolumes allProjectVolumes)).disksToAttach,
      ∃ v ∈ allProjectVolumes, v.Status = "AVAILABLE" ∧ v.ID = id := by
  have h := foldl_matchDiskStep_ok oldDisks (availableVolumes allProjectVolumes) groupDisks
    { storagesPayload := [], disksToAttach := [], usedVolIDs := [] }
    ⟨List.nodup_nil, fun id hid => absurd hid (List.not_mem_nil id)⟩
  refine ⟨h.1, fun id hid => ?_⟩
  obtain ⟨av, hav, hid'⟩ := (h.2 id hid).2
  unfold availableVolumes at hav
  rw [List.mem_filter] at hav
  exact ⟨av, hav.1, by simpa using hav.2, hid'⟩

theorem matchOldDisk_prefers (dConf : Disk) (avail : List DiskResult) (V1 V2 : String)
    (hV1 : V1 ≠ "") (hpool : ∀ av ∈ avail, av.ID = V1 ∨ av.ID = V2)
    (hin : ∃ av ∈ avail, av.ID = V1) (oldDisks : List DiskState) (used : List String)
    (hused : V1 ∉ used)
    (hold : ∃ d ∈ oldDisks, d.ID = V1 ∧ d.Bootable = false ∧ d.Size = dConf.Size)
    (hno : ∀ d ∈ oldDisks, d.ID ≠ V2) :
    matchOldDisk dConf avail oldDisks used = (V1, V1 :: used) := by
  induction oldDisks with
  | nil =>
    obtain ⟨d, hd, _⟩ := hold
    exact absurd hd (List.not_mem_nil d)
  | cons oldD rest ih =>
    obtain ⟨d, hd, hdID, hdB, hdS⟩ := hold
    have hrest : ∀ d' ∈ rest, d'.ID ≠ V2 := fun d' h => hno d' (List.mem_cons_of_mem _ h)
    unfold matchOldDisk
    by_cases hskip : (oldD.Bootable || oldD.Size != dConf.Size) = true
    · rw [if_pos hskip]
      have hne : d ≠ oldD := by
        intro h
        subst h
        simp [hdB, hdS] at hskip
      have hd' : d ∈ rest := by
        rcases List.mem_cons.mp hd with h | h
        · exact absurd h hne
        · exact h
      exact ih ⟨d, hd', hdID, hdB, hdS⟩ hrest
    · rw [if_neg hskip]
      cases hfind : avail.find? (fun av => av.ID = oldD.ID && !(used.contains av.ID)) with
      | some av =>
        have hmem := List.mem_of_find?_eq_some hfind
        have hp := List.find?_some hfind
        simp at hp
        have hav : av.ID = V1 := by
          rcases hpool av hmem with h | h
          · exact h
          · exact absurd (hp.1 ▸ h) (hno oldD (List.mem_cons_self _ _))
        simp [hav, hV1]
      | none =>
        have hne : d ≠ oldD := by
          intro h
          subst h
          obtain ⟨av, hav, havID⟩ := hin
          have := List.find?_eq_none.mp hfind av hav
          simp [havID, hdID, hused] at this
        have hd' : d ∈ rest := by
          rcases List.mem_cons.mp hd with h | h
          · exact absurd h hne
          · exact h
        exact ih ⟨d, hd', hdID, hdB, hdS⟩ hrest

/-- C2. One configured non-bootable spec; the old-disk list holds a
non-bootable record with ID `V1` (a non-empty ID) and the spec's size, and no
record of `V2`; the pool holds exactly the two volumes `V1` and `V2`, in
either order (whatever sizes the pool reports for them, the spec's size in
particular).  Then the plan reattaches exactly `V1` and requests no new
volume. -/
theorem matcher_prefers_recorded_volume (spec : Disk) (oldDisks : List DiskState)
    (a b : DiskResult) (V1 V2 : String)
    (hspec : spec.Bootable = false) (hV1 : V1 ≠ "")
    (hold : ∃ d ∈ oldDisks, d.ID = V1 ∧ d.Bootable = false ∧ d.Size = spec.Size)
    (hno : ∀ d ∈ oldDisks, d.ID ≠ V2)
    (hpool : (a.ID = V1 ∧ b.ID = V2) ∨ (a.ID = V2 ∧ b.ID = V1)) :
    (matchDisks [spec] oldDisks [a, b]).disksToAttach = [V1] ∧
    (matchDisks [spec] oldDisks [a, b]).storagesPayload = [] := by
  have h1 : matchOldDisk spec [a, b] oldDisks [] = (V1, [V1]) := by
    apply matchOldDisk_prefers spec [a, b] V1 V2 hV1 _ _ oldDisks [] (List.not_mem_nil _) hold hno
    · intro av hav
      simp only [List.mem_cons, List.mem_singleton, List.not_mem_nil, or_false] at hav
      rcases hpool with ⟨h1, h2⟩ | ⟨h1, h2⟩ <;> rcases hav with h | h <;> subst h <;> simp [h1, h2]
    · rcases hpool with ⟨h1, _⟩ | ⟨_, h2⟩
      · exact ⟨a, by simp, h1⟩
      · exact ⟨b, by simp, h2⟩
  simp [matchDisks, matchDiskStep, findDisk, hspec, h1, hV1]

/-- The recorded volume `vol-1` is preferred over `vol-2` of the same size. -/
theorem matcher_prefers_recorded_volume_witness :
    (matchDisks
        [{ Size := 50, Bootable := false, Typ := "", MountPoint := "/data", Owner := "",
           Group := "", Mode := "" }]
        [{ ID := "vol-1", Size := 50, Typ := "storage", Bootable := false, Device := "/dev/vdb",
           MountPoint := "/data", Owner := "", Group := "", Mode := "", Critical := true,
           Created := "", Updated := "" }]
        [{ ID := "vol-2", Name := "", Size := 50, Status := "AVAILABLE", Typ := "storage",
           Bootable := false, Created := "", AttachedToServer := none },
         { ID := "vol-1", Name := "", Size := 50, Status := "AVAILABLE", Typ := "storage",
           Bootable := false, Created := "", AttachedToServer := none }]).disksToAttach
      = ["vol-1"] :=
  (matcher_prefers_recorded_volume _ _ _ _ "vol-1" "vol-2" rfl (by decide)
    ⟨_, List.mem_cons_self _ _, rfl, rfl, rfl⟩
    (by decide) (Or.inr ⟨rfl, rfl⟩)).1

/-! ## Lemmas on the decimal rendering of slot indices -/

theorem digitChar_ne_hyphen (d : Nat) (h : d < 10) : Nat.digitChar d ≠ '-' := by
  interval_cases d <;> decide

theorem digitChar_injective (d e : Nat) (hd : d < 10) (he : e < 10)
    (h : Nat.digitChar d = Nat.digitChar e) : d = e := by
  interval_cases d <;> interval_cases e <;> first | rfl | (exact absurd h (by decide))

theorem toDigitsCore_append (fuel : Nat) :
    ∀ (n : Nat) (ds : List Char),
      Nat.toDigitsCore 10 fuel n ds = Nat.toDigitsCore 10 fuel n [] ++ ds := by
  induction fuel with
  | zero => intro n ds; simp [Nat.toDigitsCore]
  | succ f ih =>
    intro n ds
    simp only [Nat.toDigitsCore]
    by_cases h : n / 10 = 0
    · simp [h]
    · simp only [h, if_false]
      rw [ih (n / 10) (Nat.digitChar (n % 10) :: ds), ih (n / 10) [Nat.digitChar (n % 10)]]
      simp

theorem toDigitsCore_succ (f n : Nat) :
    Nat.toDigitsCore 10 (f + 1) n [] =
      (if n / 10 = 0 then [] else Nat.toDigitsCore 10 f (n / 10) []) ++
        [Nat.digitChar (n % 10)] := by
  simp only [Nat.toDigitsCore]
  by_cases h : n / 10 = 0
  · simp [h]
  · simp only [h, if_false]
    exact toDigitsCore_append f (n / 10) [Nat.digitChar (n % 10)]

theorem toDigitsCore_no_hyphen (fuel : Nat) :
    ∀ n : Nat, '-' ∉ Nat.toDigitsCore 10 fuel n [] := by
  induction fuel with
  | zero => intro n; simp [Nat.toDigitsCore]
  | succ f ih =>
    intro n
    rw [toDigitsCore_succ]
    intro hmem
    rcases List.mem_append.mp hmem with h | h
    · by_cases h0 : n / 10 = 0
      · simp [h0] at h
      · simp only [h0, if_false] at h
        exact ih _ h
    · rw [List.mem_singleton] at h
      exact digitChar_ne_hyphen (n % 10) (Nat.mod_lt _ (by decide)) h.symm

theorem toDigitsCore_ne_nil (f n : Nat) : Nat.toDigitsCore 10 (f + 1) n [] ≠ [] := by
  rw [toDigitsCore_succ]
  simp

theorem toDigitsCore_injective :
    ∀ (n m f g : Nat), n < f → m < g →
      Nat.toDigitsCore 10 f n [] = Nat.toDigitsCore 10 g m [] → n = m := by
  intro n
  induction n using Nat.strong_induction_on with
  | _ n ih =>
    intro m f g hf hg heq
    obtain ⟨f', rfl⟩ : ∃ f', f = f' + 1 := ⟨f - 1, by omega⟩
    obtain ⟨g', rfl⟩ : ∃ g', g = g' + 1 := ⟨g - 1, by omega⟩
    rw [toDigitsCore_succ, toDigitsCore_succ] at heq
    have hlast := List.append_inj_right' heq (by simp)
    have hinit := List.append_inj_left' heq (by simp)
    have hmod : n % 10 = m % 10 :=
      digitChar_injective _ _ (Nat.mod_lt _ (by decide)) (Nat.mod_lt _ (by decide))
        (by simpa using hlast)
    have hdiv : n / 10 = m / 10 := by
      by_cases hn : n / 10 = 0
      · by_cases hm : m / 10 = 0
        · rw [hn, hm]
        · simp only [hn, hm, if_true, if_false] at hinit
          obtain ⟨g'', rfl⟩ : ∃ g'', g' = g'' + 1 := ⟨g' - 1, by omega⟩
          exact absurd hinit.symm (toDigitsCore_ne_nil _ _)
      · by_cases hm : m / 10 = 0
        · simp only [hn, hm, if_true, if_false] at hinit
          obtain ⟨f'', rfl⟩ : ∃ f'', f' = f'' + 1 := ⟨f' - 1, by omega⟩
          exact absurd hinit (toDigitsCore_ne_nil _ _)
        · simp only [hn, hm, if_false] at hinit
          exact ih (n / 10) (by omega) (m / 10) f' g' (by omega) (by omega) hinit
    omega

theorem repr_data (n : Nat) : (Nat.repr n).data = Nat.toDigitsCore 10 (n + 1) n [] := rfl

theorem append_hyphen_inj (xs xs' ys ys' : List Char) (h : xs ++ '-' :: ys = xs' ++ '-' :: ys')
    (hy : '-' ∉ ys) (hy' : '-' ∉ ys') : xs = xs' ∧ ys = ys' := by
  induction xs generalizing xs' with
  | nil =>
    cases xs' with
    | nil => simpa using h
    | cons b t =>
      simp only [List.nil_append, List.cons_append, List.cons.injEq] at h
      exact absurd (h.2 ▸ (by simp : '-' ∈ t ++ '-' :: ys')) hy
  | cons a s ih =>
    cases xs' with
    | nil =>
      simp only [List.nil_append, List.cons_append, List.cons.injEq] at h
      exact absurd (h.2 ▸ (by simp : '-' ∈ s ++ '-' :: ys)) hy'
    | cons b t =>
      simp only [List.cons_append, List.cons.injEq] at h
      obtain ⟨h1, h2⟩ := ih t h.2
      exact ⟨by rw [h.1, h1], h2⟩

theorem nodeName_data (clusterName namePrefix : String) (n : Nat) :
    (nodeName clusterName namePrefix (Int.ofNat n)).data =
      clusterName.data ++ '-' :: (namePrefix.data ++ '-' :: Nat.toDigitsCore 10 (n + 1) n []) := by
  simp [nodeName, formatInt, String.data_append, repr_data]

theorem nodeName_inj_nat (clusterName p p' : String) (n m : Nat)
    (h : nodeName clusterName p (Int.ofNat n) = nodeName clusterName p' (Int.ofNat m)) :
    p = p' ∧ n = m := by
  have hd := congrArg String.data h
  rw [nodeName_data, nodeName_data] at hd
  have h1 := List.append_cancel_left hd
  simp only [List.cons.injEq, true_and] at h1
  obtain ⟨hp, hdig⟩ := append_hyphen_inj _ _ _ _ h1 (toDigitsCore_no_hyphen _ _)
    (toDigitsCore_no_hyphen _ _)
  exact ⟨String.ext hp, toDigitsCore_injective n m _ _ (Nat.lt_succ_self _) (Nat.lt_succ_self _) hdig⟩

/-- C5, the claim as stated fails: the distinct prefixes `a` and `a-` with the
slot indices `-1` and `1` format to the same name `c1-a--1`. -/
theorem nodeName_collision_negative_slot :
    ("a" : String) ≠ "a-" ∧ nodeName "c1" "a" (-1) = nodeName "c1" "a-" 1 := by
  decide

/-- C5, amended. For every cluster name, two different (prefix, slot) pairs
with non-negative slot indices never format to the same name
`<cluster>-<prefix>-<slot>`; so the desired names over groups with pairwise
distinct prefixes and non-negative slot indices are pairwise distinct. -/
theorem nodeName_injective_nonneg (clusterName p p' : String) (i j : Int)
    (hi : 0 ≤ i) (hj : 0 ≤ j) (hne : p ≠ p' ∨ i ≠ j) :
    nodeName clusterName p i ≠ nodeName clusterName p' j := by
  intro h
  obtain ⟨n, rfl⟩ := Int.eq_ofNat_of_zero_le hi
  obtain ⟨m, rfl⟩ := Int.eq_ofNat_of_zero_le hj
  obtain ⟨h1, h2⟩ := nodeName_inj_nat clusterName p p' n m h
  rcases hne with hne | hne
  · exact hne h1
  · exact hne (by rw [h2])

/-- Slot 11 of the prefix `a` and slot 1 of the prefix `a-1` get different
names. -/
theorem nodeName_injective_nonneg_witness :
    (0 : Int) ≤ 11 ∧ (0 : Int) ≤ 1 ∧ nodeName "c1" "a" 11 ≠ nodeName "c1" "a-1" 1 :=
  ⟨by decide, by decide,
    nodeName_injective_nonneg "c1" "a" "a-1" 11 1 (by decide) (by decide) (Or.inl (by decide))⟩

/-! ## Lemmas on Go maps and on nested loops -/

theorem GoMap.get_eq_none_iff {β : Type} (m : GoMap β) (k : String) :
    m.get k = none ↔ k ∉ m.keys := by
  induction m with
  | nil => simp [GoMap.get, GoMap.keys]
  | cons e rest ih =>
    obtain ⟨k', v⟩ := e
    unfold GoMap.get
    by_cases h : k' = k
    · simp [h, GoMap.keys]
    · simp only [h, if_false, ih]
      simp [GoMap.keys, Ne.symm h]

theorem GoMap.mem_of_get_eq_some {β : Type} (m : GoMap β) (k : String) (v : β)
    (h : m.get k = some v) : (k, v) ∈ m := by
  induction m with
  | nil => simp [GoMap.get] at h
  | cons e rest ih =>
    obtain ⟨k', v'⟩ := e
    unfold GoMap.get at h
    by_cases hk : k' = k
    · simp only [hk, if_true, Option.some.injEq] at h
      simp [hk, h]
    · simp only [hk, if_false] at h
      exact List.mem_cons_of_mem _ (ih h)

theorem GoMap.mem_of_mem_set {β : Type} (m : GoMap β) (k : String) (v : β) (x : String × β)
    (h : x ∈ m.set k v) : x = (k, v) ∨ x ∈ m := by
  induction m with
  | nil => simpa [GoMap.set] using h
  | cons e rest ih =>
    obtain ⟨k', v'⟩ := e
    unfold GoMap.set at h
    by_cases hk : k' = k
    · simp only [hk, if_true, List.mem_cons] at h
      rcases h with h | h
      · exact Or.inl h
      · exact Or.inr (List.mem_cons_of_mem _ h)
    · simp only [hk, if_false, List.mem_cons] at h
      rcases h with h | h
      · exact Or.inr (h ▸ List.mem_cons_self _ _)
      · rcases ih h with h' | h'
        · exact Or.inl h'
        · exact Or.inr (List.mem_cons_of_mem _ h')

theorem foldl_inv {S I : Type} (f : S → I → S) (P : S → Prop) (l : List I)
    (hstep : ∀ i ∈ l, ∀ st, P st → P (f st i)) :
    ∀ init, P init → P (l.foldl f init) := by
  induction l with
  | nil => intro init h; exact h
  | cons a rest ih =>
    intro init h
    exact ih (fun i hi => hstep i (List.mem_cons_of_mem _ hi)) _
      (hstep a (List.mem_cons_self _ _) init h)

theorem foldl_nested_inv {S G I : Type} (inst : G → List I) (f : G → S → I → S)
    (P : S → Prop) (groups : List G)
    (hstep : ∀ g ∈ groups, ∀ i ∈ inst g, ∀ st, P st → P (f g st i)) :
    ∀ init, P init → P (groups.foldl (fun st g => (inst g).foldl (f g) st) init) :=
  foldl_inv _ P groups (fun g hg st hst => foldl_inv (f g) P (inst g) (hstep g hg) st hst)

theorem foldl_reach {S I : Type} (f : S → I → S) (Q : S → Prop) (l : List I)
    (hmono : ∀ i st, Q st → Q (f st i)) (i0 : I) (hi : i0 ∈ l) (hQ : ∀ st, Q (f st i0)) :
    ∀ init, Q (l.foldl f init) := by
  intro init
  obtain ⟨pre, post, rfl⟩ := List.append_of_mem hi
  rw [List.foldl_append, List.foldl_cons]
  exact foldl_inv f Q post (fun i _ st h => hmono i st h) _ (hQ _)

theorem foldl_nested_reach {S G I : Type} (inst : G → List I) (f : G → S → I → S)
    (Q : S → Prop) (groups : List G) (hmono : ∀ g i st, Q st → Q (f g st i))
    (g0 : G) (hg : g0 ∈ groups) (i0 : I) (hi : i0 ∈ inst g0) (hQ : ∀ st, Q (f g0 st i0)) :
    ∀ init, Q (groups.foldl (fun st g => (inst g).foldl (f g) st) init) :=
  foldl_reach _ Q groups
    (fun g st h => foldl_inv (f g) Q (inst g) (fun i _ st' h' => hmono g i st' h') st h)
    g0 hg (fun st => foldl_reach (f g0) Q (inst g0) (hmono g0) i0 hi hQ st)

/-! ## Lemmas on the alive index -/

theorem fetchNodeDetails_ok_iff {σ : Type} (c : Client σ) (serverID : String)
    (oldDisks : List DiskState) (configDisks : List Disk) (w : σ) :
    (∃ d, (fetchNodeDetails c serverID oldDisks configDisks w).1 = Except.ok d) ↔
      ∃ detail, (c.GetServerDetail serverID w).1 = Except.ok detail := by
  unfold fetchNodeDetails
  rcases hgd : c.GetServerDetail serverID w with ⟨r, w1⟩
  cases r with
  | error e => simp
  | ok detail => simp

theorem verifyNode_names {σ : Type} (c : Client σ) (st : GoMap NodeState × σ) (n : NodeState)
    (h : ∀ e ∈ st.1, e.2.Name = e.1) : ∀ e ∈ (verifyNode c st n).1, e.2.Name = e.1 := by
  unfold verifyNode
  rcases hf : fetchNodeDetails c n.ID n.Disks [] st.2 with ⟨r, w1⟩
  cases r with
  | error e => exact h
  | ok d =>
    intro e he
    rcases GoMap.mem_of_mem_set _ _ _ _ he with h' | h'
    · rw [h']
    · exact h e h'

theorem verifyState_names {σ : Type} (c : Client σ)
    (s3 : Option (Except String (Option ClusterState))) (force : Bool) (w : σ) :
    ∀ e ∈ (verifyState c s3 force w).1, e.2.Name = e.1 := by
  unfold verifyState
  split
  · split
    · split
      · simp
      · exact foldl_inv (verifyNode c) (fun st => ∀ e ∈ st.1, e.2.Name = e.1) _
          (fun n _ st h => verifyNode_names c st n h) _ (by simp)
    · simp
  · simp

theorem alive_name_of_get {σ : Type} (c : Client σ)
    (s3 : Option (Except String (Option ClusterState))) (force : Bool) (w : σ)
    (k : String) (v : NodeState) (h : (verifyState c s3 force w).1.get k = some v) :
    v.Name = k :=
  verifyState_names c s3 force w (k, v) (GoMap.mem_of_get_eq_some _ _ _ h)

/-! ## Lemmas on the classification loop -/

theorem classifySlot_queue {σ : Type} (c : Client σ) (clusterName : String)
    (alive : GoMap NodeState) (cloud : GoMap String) (ex : Option ClusterState)
    (group : NodeGroup) (st : ClassifyState σ) (slot : Int × InstanceConfig)
    (h : ∀ p ∈ st.nodesToCreate, cloud.get p.Name = none ∧ alive.get p.Name = none) :
    ∀ p ∈ (classifySlot c clusterName alive cloud ex group st slot).nodesToCreate,
      cloud.get p.Name = none ∧ alive.get p.Name = none := by
  unfold classifySlot
  dsimp only
  split
  · exact h
  · split
    · exact h
    · rename_i hA
      split
      · split
        · exact h
        · exact h
      · rename_i hC
        intro p hp
        simp only [List.mem_append, List.mem_singleton] at hp
        rcases hp with hp | hp
        · exact h p hp
        · subst hp
          exact ⟨hC, hA⟩

theorem classifySlot_final {σ : Type} (c : Client σ) (clusterName : String)
    (alive : GoMap NodeState) (cloud : GoMap String) (ex : Option ClusterState)
    (halive : ∀ k v, alive.get k = some v → v.Name = k)
    (group : NodeGroup) (st : ClassifyState σ) (slot : Int × InstanceConfig)
    (P : String → Prop)
    (hP : slot.2.Enabled = true → P (nodeName clusterName group.NamePrefix slot.1))
    (h : ∀ n ∈ st.finalNodes, P n.Name ∧ (alive.get n.Name ≠ none ∨ cloud.get n.Name ≠ none)) :
    ∀ n ∈ (classifySlot c clusterName alive cloud ex group st slot).finalNodes,
      P n.Name ∧ (alive.get n.Name ≠ none ∨ cloud.get n.Name ≠ none) := by
  unfold classifySlot
  dsimp only
  split
  · exact h
  · rename_i hEn
    simp only [Bool.not_eq_true', Bool.not_eq_false] at hEn
    split
    · rename_i existing hA
      intro n hn
      simp only [List.mem_append, List.mem_singleton] at hn
      rcases hn with hn | hn
      · exact h n hn
      · subst hn
        have hname := halive _ _ hA
        simp only [hname]
        exact ⟨hP hEn, Or.inl (by simp [hA])⟩
    · split
      · rename_i realID hC
        split
        · exact h
        · intro n hn
          simp only [List.mem_append, List.mem_singleton] at hn
          rcases hn with hn | hn
          · exact h n hn
          · subst hn
            exact ⟨hP hEn, Or.inr (by simp [hC])⟩
      · exact h

theorem classifySlot_mono {σ : Type} (c : Client σ) (clusterName : String)
    (alive : GoMap NodeState) (cloud : GoMap String) (ex : Option ClusterState)
    (group : NodeGroup) (st : ClassifyState σ) (slot : Int × InstanceConfig) :
    (∀ n ∈ st.finalNodes,
        n ∈ (classifySlot c clusterName alive cloud ex group st slot).finalNodes) ∧
    (∀ p ∈ st.nodesToCreate,
        p ∈ (classifySlot c clusterName alive cloud ex group st slot).nodesToCreate) := by
  unfold classifySlot
  dsimp only
  split
  · exact ⟨fun _ h => h, fun _ h => h⟩
  · split
    · exact ⟨fun _ h => List.mem_append_left _ h, fun _ h => h⟩
    · split
      · split
        · exact ⟨fun _ h => h, fun _ h => h⟩
        · exact ⟨fun _ h => List.mem_append_left _ h, fun _ h => h⟩
      · exact ⟨fun _ h => h, fun _ h => List.mem_append_left _ h⟩

theorem classify_queue {σ : Type} (c : Client σ) (clusterName : String)
    (alive : GoMap NodeState) (cloud : GoMap String) (ex : Option ClusterState)
    (groups : List NodeGroup) (w : σ) :
    ∀ p ∈ (classify c clusterName alive cloud ex groups w).nodesToCreate,
      cloud.get p.Name = none ∧ alive.get p.Name = none := by
  unfold classify
  exact foldl_nested_inv NodeGroup.Instances
    (fun g => classifySlot c clusterName alive cloud ex g)
    (fun st => ∀ p ∈ st.nodesToCreate, cloud.get p.Name = none ∧ alive.get p.Name = none)
    groups (fun g _ i _ st h => classifySlot_queue c clusterName alive cloud ex g st i h)
    _ (by simp)

theorem classify_final {σ : Type} (c : Client σ) (clusterName : String)
    (alive : GoMap NodeState) (cloud : GoMap String) (ex : Option ClusterState)
    (halive : ∀ k v, alive.get k = some v → v.Name = k)
    (groups : List NodeGroup) (w : σ) :
    ∀ n ∈ (classify c clusterName alive cloud ex groups w).finalNodes,
      Desired clusterName groups n.Name ∧
        (alive.get n.Name ≠ none ∨ cloud.get n.Name ≠ none) := by
  unfold classify
  exact foldl_nested_inv NodeGroup.Instances
    (fun g => classifySlot c clusterName alive cloud ex g)
    (fun st => ∀ n ∈ st.finalNodes, Desired clusterName groups n.Name ∧
        (alive.get n.Name ≠ none ∨ cloud.get n.Name ≠ none))
    groups
    (fun g hg i hi st h =>
      classifySlot_final c clusterName alive cloud ex halive g st i
        (Desired clusterName groups) (fun hEn => ⟨g, hg, i, hi, hEn, rfl⟩) h)
    _ (by simp)

/-! ## Lemmas on the provisioning phase and on the orphan loop -/

theorem createNodeAttempts_name {σ : Type} (c : Client σ) (name : String) (group : NodeGroup)
    (oldDisks : List DiskState) (labels : GoMap String) (password : String)
    (avail : List DiskResult) (n : Nat) :
    ∀ (lastErr : Option String) (w : σ) (log : List Event),
      (createNodeAttempts c name group oldDisks labels password avail n lastErr w log).1.Name
        = name := by
  induction n with
  | zero => intro lastErr w log; rfl
  | succ n ih =>
    intro lastErr w log
    unfold createNodeAttempts
    dsimp only
    split
    · exact ih _ _ _
    · split
      · exact ih _ _ _
      · rfl

theorem createNodeAsync_name {σ : Type} (c : Client σ) (name : String) (group : NodeGroup)
    (oldDisks : List DiskState) (labels : GoMap String) (password : String)
    (w : σ) (log : List Event) :
    (createNodeAsync c name group oldDisks labels password w log).1.Name = name := by
  unfold createNodeAsync
  exact createNodeAttempts_name _ _ _ _ _ _ _ _ _ _ _

theorem provision_names {σ : Type} (c : Client σ) (password : String)
    (items : List PendingNode) (arrival : List Nat) :
    ∀ (w : σ) (log : List Event),
      ∀ r ∈ (provision c password items arrival w log).1, ∃ p ∈ items, r.Name = p.Name := by
  induction arrival with
  | nil => intro w log r hr; simp [provision] at hr
  | cons i rest ih =>
    intro w log r hr
    unfold provision at hr
    cases hi : items[i]? with
    | none =>
      simp only [hi] at hr
      exact ih w log r hr
    | some itm =>
      simp only [hi, List.mem_cons] at hr
      rcases hr with hr | hr
      · refine ⟨itm, List.getElem?_mem hi, ?_⟩
        rw [hr]
        exact createNodeAsync_name _ _ _ _ _ _ _ _
      · exact ih _ _ r hr

theorem collectResults_mem (results : List NodeResult) :
    ∀ (finalNodes : List NodeResult) (n : NodeResult),
      n ∈ collectResults finalNodes results ↔
        n ∈ finalNodes ∨ (n ∈ results ∧ n.Err = none) := by
  induction results with
  | nil => intro finalNodes n; simp [collectResults]
  | cons res rest ih =>
    intro finalNodes n
    have ih' := ih (if res.Err.isSome then finalNodes else finalNodes ++ [res]) n
    unfold collectResults at ih' ⊢
    rw [List.foldl_cons, ih']
    by_cases he : res.Err.isSome = true
    · rw [if_pos he]
      simp only [List.mem_cons]
      constructor
      · rintro (h | ⟨h1, h2⟩)
        · exact Or.inl h
        · exact Or.inr ⟨Or.inr h1, h2⟩
      · rintro (h | ⟨h1 | h1, h2⟩)
        · exact Or.inl h
        · subst h1
          simp [h2] at he
        · exact Or.inr ⟨h1, h2⟩
    · rw [if_neg he]
      have he' : res.Err = none := by simpa using he
      have hE : n = res → n.Err = none := fun h => h ▸ he'
      simp only [List.mem_append, List.mem_singleton, List.mem_cons, List.not_mem_nil, or_false]
      tauto

theorem orphanStep_orphans {σ : Type} (c : Client σ) (env : Env) (deleteFromCloud : Bool)
    (finalNodes : List NodeResult) (st : OrphanState σ) (entry : String × NodeState) :
    (orphanStep c env deleteFromCloud finalNodes st entry).orphans =
      if finalNodes.any (fun fn => fn.Name = entry.1) then st.orphans
      else st.orphans ++ [(entry.1, entry.2.ID)] := by
  unfold orphanStep
  dsimp only
  split
  · rfl
  · split
    · split
      · rfl
      · rfl
    · rfl

theorem orphanFold_orphans {σ : Type} (c : Client σ) (env : Env) (deleteFromCloud : Bool)
    (finalNodes : List NodeResult) (name : String) (m : GoMap NodeState) :
    ∀ st : OrphanState σ,
      name ∈ ((m.foldl (orphanStep c env deleteFromCloud finalNodes) st).orphans.map Prod.fst) ↔
        name ∈ st.orphans.map Prod.fst ∨
          (name ∈ m.keys ∧ ∀ fn ∈ finalNodes, fn.Name ≠ name) := by
  induction m with
  | nil => intro st; simp [GoMap.keys]
  | cons e rest ih =>
    intro st
    rw [List.foldl_cons, ih, orphanStep_orphans]
    by_cases hany : finalNodes.any (fun fn => fn.Name = e.1) = true
    · rw [if_pos hany]
      have hex : ∃ fn ∈ finalNodes, fn.Name = e.1 := by simpa using hany
      constructor
      · rintro (h | ⟨h1, h2⟩)
        · exact Or.inl h
        · exact Or.inr ⟨by simp only [GoMap.keys, List.map_cons, List.mem_cons]; exact Or.inr h1, h2⟩
      · rintro (h | ⟨h1, h2⟩)
        · exact Or.inl h
        · simp only [GoMap.keys, List.map_cons, List.mem_cons] at h1
          rcases h1 with h1 | h1
          · obtain ⟨fn, hfn, hname⟩ := hex
            exact absurd (hname.trans h1.symm) (h2 fn hfn)
          · exact Or.inr ⟨h1, h2⟩
    · rw [if_neg hany]
      have hall : ∀ fn ∈ finalNodes, fn.Name ≠ e.1 := by simpa using hany
      have hH : name = e.1 → ∀ fn ∈ finalNodes, fn.Name ≠ name :=
        fun h fn hfn => h ▸ hall fn hfn
      simp only [List.map_append, List.map_cons, List.map_nil, List.mem_append,
        List.mem_singleton, GoMap.keys, List.mem_cons, List.not_mem_nil, or_false]
      tauto

theorem orphanStep_no_delete {σ : Type} (c : Client σ) (env : Env)
    (finalNodes : List NodeResult) (st : OrphanState σ) (entry : String × NodeState) :
    (orphanStep c env false finalNodes st entry).deleted = st.deleted ∧
    (orphanStep c env false finalNodes st entry).log = st.log := by
  unfold orphanStep
  dsimp only
  split
  · exact ⟨rfl, rfl⟩
  · simp

theorem orphanStep_declined {σ : Type} (c : Client σ) (env : Env) (deleteFromCloud : Bool)
    (finalNodes : List NodeResult) (st : OrphanState σ) (entry : String × NodeState)
    (hno : ∀ k, env.TrimSpace (env.ToLower (env.stdin k)) ≠ "yes") :
    (orphanStep c env deleteFromCloud finalNodes st entry).deleted = st.deleted ∧
    (orphanStep c env deleteFromCloud finalNodes st entry).log = st.log := by
  have hask : ∀ k, askForConfirmation env k = false := by
    intro k
    simp [askForConfirmation, hno k]
  unfold orphanStep
  dsimp only
  split
  · exact ⟨rfl, rfl⟩
  · split
    · simp [hask]
    · exact ⟨rfl, rfl⟩

theorem orphanStep_deleted_mem {σ : Type} (c : Client σ) (env : Env) (deleteFromCloud : Bool)
    (finalNodes : List NodeResult) (st : OrphanState σ) (entry : String × NodeState)
    (h : ∀ id ∈ st.deleted, ∃ name, (name, id) ∈ st.orphans) :
    ∀ id ∈ (orphanStep c env deleteFromCloud finalNodes st entry).deleted,
      ∃ name, (name, id) ∈ (orphanStep c env deleteFromCloud finalNodes st entry).orphans := by
  unfold orphanStep
  dsimp only
  split
  · exact h
  · split
    · split
      · intro id hid
        simp only [List.mem_append, List.mem_singleton] at hid
        rcases hid with hid | hid
        · obtain ⟨name, hn⟩ := h id hid
          exact ⟨name, List.mem_append_left _ hn⟩
        · exact ⟨entry.1, by simp [hid]⟩
      · intro id hid
        obtain ⟨name, hn⟩ := h id hid
        exact ⟨name, List.mem_append_left _ hn⟩
    · intro id hid
      obtain ⟨name, hn⟩ := h id hid
      exact ⟨name, List.mem_append_left _ hn⟩

/-! ## Lemmas on written maps -/

theorem GoMap.get_set {β : Type} (m : GoMap β) (k k' : String) (v : β) :
    (m.set k v).get k' = if k = k' then some v else m.get k' := by
  induction m with
  | nil => simp [GoMap.set, GoMap.get]
  | cons e rest ih =>
    obtain ⟨k0, v0⟩ := e
    unfold GoMap.set
    by_cases h0 : k0 = k
    · subst h0
      by_cases h1 : k0 = k'
      · simp [GoMap.get, h1]
      · simp [GoMap.get, h1]
    · simp only [h0, if_false]
      by_cases h1 : k0 = k'
      · subst h1
        simp [GoMap.get, Ne.symm h0]
      · simp only [GoMap.get, h1, if_false]
        exact ih

theorem foldl_set_get_none {α β : Type} (key : α → String) (val : α → β) (k : String)
    (l : List α) :
    ∀ m : GoMap β, (l.foldl (fun m a => GoMap.set m (key a) (val a)) m).get k = none →
      m.get k = none ∧ ∀ a ∈ l, key a ≠ k := by
  induction l with
  | nil => intro m h; exact ⟨h, by simp⟩
  | cons a rest ih =>
    intro m h
    rw [List.foldl_cons] at h
    obtain ⟨h1, h2⟩ := ih _ h
    rw [GoMap.get_set] at h1
    by_cases hk : key a = k
    · simp [hk] at h1
    · simp only [hk, if_false] at h1
      refine ⟨h1, ?_⟩
      intro b hb
      rcases List.mem_cons.mp hb with hb | hb
      · rw [hb]; exact hk
      · exact h2 b hb

theorem foldl_set_get {β : Type} (k : String) (l : GoMap β) :
    l.keys.Nodup → ∀ m : GoMap β,
      (l.foldl (fun m kv => GoMap.set m kv.1 kv.2) m).get k =
        match l.get k with
        | some v => some v
        | none => m.get k := by
  induction l with
  | nil => intro _ m; simp [GoMap.get]
  | cons e rest ih =>
    intro hnd m
    obtain ⟨k0, v0⟩ := e
    have hnd' : k0 ∉ GoMap.keys rest ∧ (GoMap.keys rest).Nodup := by
      simpa [GoMap.keys] using hnd
    rw [List.foldl_cons, ih hnd'.2, GoMap.get_set]
    by_cases h0 : k0 = k
    · subst h0
      have hnone : GoMap.get rest k0 = none := (GoMap.get_eq_none_iff rest k0).mpr hnd'.1
      simp [hnone, GoMap.get]
    · simp [h0, GoMap.get]

theorem mergeLabels_get (groupLabels instLabels : GoMap String) (k : String)
    (hg : groupLabels.keys.Nodup) (hi : instLabels.keys.Nodup) :
    (mergeLabels groupLabels instLabels).get k =
      match instLabels.get k with
      | some v => some v
      | none => groupLabels.get k := by
  unfold mergeLabels
  dsimp only
  rw [foldl_set_get k instLabels hi, foldl_set_get k groupLabels hg]
  cases instLabels.get k with
  | some v => rfl
  | none =>
    cases groupLabels.get k with
    | some v => rfl
    | none => simp [GoMap.get]

/-! ## The shape of a run -/

theorem run_shape {σ : Type} (c : Client σ) (env : Env) (cfg : Config)
    (s3 : Option (Except String (Option ClusterState))) (clusterName : String) (force : Bool)
    (manualPassword : String) (deleteFromCloud : Bool) (w : σ) :
    ∃ (w1 w2 w3 w4 : σ) (password : String),
      (handleClusterCreateFromCode c env (Except.ok cfg) s3 clusterName force manualPassword
          deleteFromCloud w).cloudServerMap = buildCloudServerMap (c.GetServersList w).1 ∧
      (handleClusterCreateFromCode c env (Except.ok cfg) s3 clusterName force manualPassword
          deleteFromCloud w).aliveNodesMap = (verifyState c s3 force w1).1 ∧
      (handleClusterCreateFromCode c env (Except.ok cfg) s3 clusterName force manualPassword
          deleteFromCloud w).classified =
        (classify c clusterName (verifyState c s3 force w1).1
          (buildCloudServerMap (c.GetServersList w).1) (loadedState s3) cfg.Groups w2).finalNodes ∧
      (handleClusterCreateFromCode c env (Except.ok cfg) s3 clusterName force manualPassword
          deleteFromCloud w).nodesToCreate =
        (classify c clusterName (verifyState c s3 force w1).1
          (buildCloudServerMap (c.GetServersList w).1) (loadedState s3) cfg.Groups
          w2).nodesToCreate ∧
      (handleClusterCreateFromCode c env (Except.ok cfg) s3 clusterName force manualPassword
          deleteFromCloud w).finalNodes =
        collectResults
          (handleClusterCreateFromCode c env (Except.ok cfg) s3 clusterName force
            manualPassword deleteFromCloud w).classified
          (provision c password
            (handleClusterCreateFromCode c env (Except.ok cfg) s3 clusterName force
              manualPassword deleteFromCloud w).nodesToCreate env.arrival w3 []).1 ∧
      (handleClusterCreateFromCode c env (Except.ok cfg) s3 clusterName force manualPassword
          deleteFromCloud w).orphans =
        ((verifyState c s3 force w1).1.foldl
          (orphanStep c env deleteFromCloud
            (handleClusterCreateFromCode c env (Except.ok cfg) s3 clusterName force
              manualPassword deleteFromCloud w).finalNodes)
          { orphans := [], deleted := [], reads := 0, world := w4, log := [] }).orphans ∧
      (handleClusterCreateFromCode c env (Except.ok cfg) s3 clusterName force manualPassword
          deleteFromCloud w).deleted =
        ((verifyState c s3 force w1).1.foldl
          (orphanStep c env deleteFromCloud
            (handleClusterCreateFromCode c env (Except.ok cfg) s3 clusterName force
              manualPassword deleteFromCloud w).finalNodes)
          { orphans := [], deleted := [], reads := 0, world := w4, log := [] }).deleted ∧
      (handleClusterCreateFromCode c env (Except.ok cfg) s3 clusterName force manualPassword
          deleteFromCloud w).orphanLog =
        ((verifyState c s3 force w1).1.foldl
          (orphanStep c env deleteFromCloud
            (handleClusterCreateFromCode c env (Except.ok cfg) s3 clusterName force
              manualPassword deleteFromCloud w).finalNodes)
          { orphans := [], deleted := [], reads := 0, world := w4, log := [] }).log :=
  ⟨_, _, _, _, _, rfl, rfl, rfl, rfl, rfl, rfl, rfl, rfl⟩

/-! ## What the classification loop does with one slot -/

theorem classifySlot_retained {σ : Type} (c : Client σ) (clusterName : String)
    (alive : GoMap NodeState) (cloud : GoMap String) (ex : Option ClusterState)
    (group : NodeGroup) (slot : Int × InstanceConfig) (existing : NodeState)
    (hEn : slot.2.Enabled = true)
    (hA : alive.get (nodeName clusterName group.NamePrefix slot.1) = some existing)
    (st : ClassifyState σ) :
    ∃ n ∈ (classifySlot c clusterName alive cloud ex group st slot).finalNodes,
      n.Name = existing.Name ∧ n.ID = existing.ID ∧
      n.IP = existing.IP ∧ n.SSHPort = existing.SSHPort ∧ n.AddressID = existing.AddressID ∧
      n.Disks = existing.Disks ∧ n.Created = existing.Created ∧ n.Role = group.Role ∧
      n.Taints = group.Taints ∧ n.Labels = mergeLabels group.Labels slot.2.Labels ∧
      n.IsNew = false ∧ n.Err = none := by
  unfold classifySlot
  simp only [hEn, hA, Bool.not_true, Bool.false_eq_true, if_false]
  exact ⟨_, List.mem_append_right _ (List.mem_singleton_self _),
    rfl, rfl, rfl, rfl, rfl, rfl, rfl, rfl, rfl, rfl, rfl, rfl⟩

theorem classifySlot_queued {σ : Type} (c : Client σ) (clusterName : String)
    (alive : GoMap NodeState) (cloud : GoMap String) (ex : Option ClusterState)
    (group : NodeGroup) (slot : Int × InstanceConfig)
    (hEn : slot.2.Enabled = true)
    (hA : alive.get (nodeName clusterName group.NamePrefix slot.1) = none)
    (hC : cloud.get (nodeName clusterName group.NamePrefix slot.1) = none)
    (st : ClassifyState σ) :
    ∃ p ∈ (classifySlot c clusterName alive cloud ex group st slot).nodesToCreate,
      p.Name = nodeName clusterName group.NamePrefix slot.1 := by
  unfold classifySlot
  simp only [hEn, hA, hC, Bool.not_true, Bool.false_eq_true, if_false]
  exact ⟨_, List.mem_append_right _ (List.mem_singleton_self _), rfl⟩

theorem classifySlot_adopted {σ : Type} (c : Client σ) (clusterName : String)
    (alive : GoMap NodeState) (cloud : GoMap String) (ex : Option ClusterState)
    (group : NodeGroup) (slot : Int × InstanceConfig) (realID : String)
    (hEn : slot.2.Enabled = true)
    (hA : alive.get (nodeName clusterName group.NamePrefix slot.1) = none)
    (hC : cloud.get (nodeName clusterName group.NamePrefix slot.1) = some realID)
    (hres : ∀ w, ∃ detail, (c.GetServerDetail realID w).1 = Except.ok detail)
    (st : ClassifyState σ) :
    ∃ n ∈ (classifySlot c clusterName alive cloud ex group st slot).finalNodes,
      n.Name = nodeName clusterName group.NamePrefix slot.1 ∧ n.ID = realID := by
  obtain ⟨d, hd⟩ := (fetchNodeDetails_ok_iff c realID [] group.Disks st.world).mpr (hres st.world)
  unfold classifySlot
  simp only [hEn, hA, hC, Bool.not_true, Bool.false_eq_true, if_false]
  rcases hf : fetchNodeDetails c realID [] group.Disks st.world with ⟨r, w1⟩
  rw [hf] at hd
  simp only at hd
  subst hd
  exact ⟨_, List.mem_append_right _ (List.mem_singleton_self _), rfl, rfl⟩

theorem classify_reach {σ : Type} (c : Client σ) (clusterName : String)
    (alive : GoMap NodeState) (cloud : GoMap String) (ex : Option ClusterState)
    (groups : List NodeGroup) (w : σ) (Q : ClassifyState σ → Prop)
    (hmono : ∀ g i st, Q st → Q (classifySlot c clusterName alive cloud ex g st i))
    (g : NodeGroup) (hg : g ∈ groups) (slot : Int × InstanceConfig) (hs : slot ∈ g.Instances)
    (hQ : ∀ st, Q (classifySlot c clusterName alive cloud ex g st slot)) :
    Q (classify c clusterName alive cloud ex groups w) := by
  unfold classify
  exact foldl_nested_reach NodeGroup.Instances
    (fun g => classifySlot c clusterName alive cloud ex g) Q groups hmono g hg slot hs hQ _

theorem classify_reach_final {σ : Type} (c : Client σ) (clusterName : String)
    (alive : GoMap NodeState) (cloud : GoMap String) (ex : Option ClusterState)
    (groups : List NodeGroup) (w : σ) (R : NodeResult → Prop)
    (g : NodeGroup) (hg : g ∈ groups) (slot : Int × InstanceConfig) (hs : slot ∈ g.Instances)
    (hQ : ∀ st, ∃ n ∈ (classifySlot c clusterName alive cloud ex g st slot).finalNodes, R n) :
    ∃ n ∈ (classify c clusterName alive cloud ex groups w).finalNodes, R n :=
  classify_reach c clusterName alive cloud ex groups w (fun st => ∃ n ∈ st.finalNodes, R n)
    (fun g' i st ⟨n, hn, hR⟩ =>
      ⟨n, (classifySlot_mono c clusterName alive cloud ex g' st i).1 n hn, hR⟩)
    g hg slot hs hQ

theorem classify_reach_queue {σ : Type} (c : Client σ) (clusterName : String)
    (alive : GoMap NodeState) (cloud : GoMap String) (ex : Option ClusterState)
    (groups : List NodeGroup) (w : σ) (R : PendingNode → Prop)
    (g : NodeGroup) (hg : g ∈ groups) (slot : Int × InstanceConfig) (hs : slot ∈ g.Instances)
    (hQ : ∀ st, ∃ p ∈ (classifySlot c clusterName alive cloud ex g st slot).nodesToCreate, R p) :
    ∃ p ∈ (classify c clusterName alive cloud ex groups w).nodesToCreate, R p :=
  classify_reach c clusterName alive cloud ex groups w (fun st => ∃ p ∈ st.nodesToCreate, R p)
    (fun g' i st ⟨p, hp, hR⟩ =>
      ⟨p, (classifySlot_mono c clusterName alive cloud ex g' st i).2 p hp, hR⟩)
    g hg slot hs hQ

/-! ## The claims on the reconciler -/

/-- C4. For every configuration, persisted state and server listing, no name
in the pending-create queue of `handleClusterCreateFromCode` is a key of the
cloud server map or of the alive index, and no server of the listing bears
it. -/
theorem pending_not_in_cloud_nor_alive {σ : Type} (c : Client σ) (env : Env)
    (cfg : Except String Config) (s3 : Option (Except String (Option ClusterState)))
    (clusterName : String) (force : Bool) (manualPassword : String) (deleteFromCloud : Bool)
    (w : σ) :
    ∀ p ∈ (handleClusterCreateFromCode c env cfg s3 clusterName force manualPassword
        deleteFromCloud w).nodesToCreate,
      (handleClusterCreateFromCode c env cfg s3 clusterName force manualPassword
        deleteFromCloud w).cloudServerMap.get p.Name = none ∧
      (handleClusterCreateFromCode c env cfg s3 clusterName force manualPassword
        deleteFromCloud w).aliveNodesMap.get p.Name = none ∧
      ∀ servers, (c.GetServersList w).1 = Except.ok servers →
        ∀ srv ∈ servers, srv.Name ≠ p.Name := by
  cases cfg with
  | error e => intro p hp; simp [handleClusterCreateFromCode] at hp
  | ok cfg =>
    obtain ⟨w1, w2, w3, w4, pw, hC, hA, _, hQ, _⟩ :=
      run_shape c env cfg s3 clusterName force manualPassword deleteFromCloud w
    intro p hp
    rw [hQ] at hp
    have h := classify_queue c clusterName _ _ (loadedState s3) cfg.Groups w2 p hp
    rw [hC, hA]
    refine ⟨h.1, h.2, ?_⟩
    intro servers hs srv hsrv
    have h1 := h.1
    rw [hs] at h1
    exact (foldl_set_get_none ServerListEntry.Name ServerListEntry.ID p.Name servers [] h1).2
      srv hsrv

/-- C7. An enabled slot whose desired name is a key of the alive index has an
entry in the final node list with that name, the ID, IP, SSH port, address ID,
disks and creation date of the alive-index record, the role and taints of the
group, the merged labels and `IsNew = false`; the name is not queued.  The
merged labels are the group's labels overridden key by key by the slot's
labels. -/
theorem retained_slot_carried_forward {σ : Type} (c : Client σ) (env : Env) (cfg : Config)
    (s3 : Option (Except String (Option ClusterState))) (clusterName : String) (force : Bool)
    (manualPassword : String) (deleteFromCloud : Bool) (w : σ)
    (g : NodeGroup) (slot : Int × InstanceConfig) (existing : NodeState)
    (hg : g ∈ cfg.Groups) (hs : slot ∈ g.Instances) (hEn : slot.2.Enabled = true)
    (hA : (handleClusterCreateFromCode c env (Except.ok cfg) s3 clusterName force
        manualPassword deleteFromCloud w).aliveNodesMap.get
          (nodeName clusterName g.NamePrefix slot.1) = some existing) :
    (∃ n ∈ (handleClusterCreateFromCode c env (Except.ok cfg) s3 clusterName force
        manualPassword deleteFromCloud w).finalNodes,
      n.Name = nodeName clusterName g.NamePrefix slot.1 ∧ n.ID = existing.ID ∧
      n.IP = existing.IP ∧ n.SSHPort = existing.SSHPort ∧ n.AddressID = existing.AddressID ∧
      n.Disks = existing.Disks ∧ n.Created = existing.Created ∧ n.Role = g.Role ∧
      n.Taints = g.Taints ∧ n.Labels = mergeLabels g.Labels slot.2.Labels ∧ n.IsNew = false ∧
      n.Err = none) ∧
    (∀ p ∈ (handleClusterCreateFromCode c env (Except.ok cfg) s3 clusterName force
        manualPassword deleteFromCloud w).nodesToCreate,
      p.Name ≠ nodeName clusterName g.NamePrefix slot.1) ∧
    (g.Labels.keys.Nodup → slot.2.Labels.keys.Nodup → ∀ k,
      (mergeLabels g.Labels slot.2.Labels).get k =
        match slot.2.Labels.get k with
        | some v => some v
        | none => g.Labels.get k) := by
  obtain ⟨w1, w2, w3, w4, pw, hC, hAl, hCl, hQ, hF, _⟩ :=
    run_shape c env cfg s3 clusterName force manualPassword deleteFromCloud w
  rw [hAl] at hA
  have hname : existing.Name = nodeName clusterName g.NamePrefix slot.1 :=
    alive_name_of_get c s3 force w1 _ _ hA
  refine ⟨?_, ?_, fun h1 h2 k => mergeLabels_get _ _ k h1 h2⟩
  · obtain ⟨n, hn, hR⟩ := classify_reach_final c clusterName (verifyState c s3 force w1).1
      (buildCloudServerMap (c.GetServersList w).1) (loadedState s3) cfg.Groups w2 _
      g hg slot hs (classifySlot_retained c clusterName _ _ _ g slot existing hEn hA)
    refine ⟨n, ?_, ?_⟩
    · rw [hF, collectResults_mem, hCl]
      exact Or.inl hn
    · rw [← hname]
      exact hR
  · intro p hp hpn
    rw [hQ] at hp
    have h := (classify_queue c clusterName _ _ (loadedState s3) cfg.Groups w2 p hp).2
    rw [hpn, hA] at h
    exact absurd h (by simp)

theorem orphanFold_no_delete {σ : Type} (c : Client σ) (env : Env)
    (finalNodes : List NodeResult) (m : GoMap NodeState) (st : OrphanState σ)
    (h : st.deleted = [] ∧ st.log = []) :
    (m.foldl (orphanStep c env false finalNodes) st).deleted = [] ∧
    (m.foldl (orphanStep c env false finalNodes) st).log = [] :=
  foldl_inv (orphanStep c env false finalNodes)
    (fun st : OrphanState σ => st.deleted = [] ∧ st.log = []) m
    (fun e _ st h =>
      ⟨(orphanStep_no_delete c env finalNodes st e).1.trans h.1,
       (orphanStep_no_delete c env finalNodes st e).2.trans h.2⟩) st h

theorem orphanFold_declined {σ : Type} (c : Client σ) (env : Env) (deleteFromCloud : Bool)
    (finalNodes : List NodeResult) (m : GoMap NodeState) (st : OrphanState σ)
    (hno : ∀ k, env.TrimSpace (env.ToLower (env.stdin k)) ≠ "yes")
    (h : st.deleted = [] ∧ st.log = []) :
    (m.foldl (orphanStep c env deleteFromCloud finalNodes) st).deleted = [] ∧
    (m.foldl (orphanStep c env deleteFromCloud finalNodes) st).log = [] :=
  foldl_inv (orphanStep c env deleteFromCloud finalNodes)
    (fun st : OrphanState σ => st.deleted = [] ∧ st.log = []) m
    (fun e _ st h =>
      ⟨(orphanStep_declined c env deleteFromCloud finalNodes st e hno).1.trans h.1,
       (orphanStep_declined c env deleteFromCloud finalNodes st e hno).2.trans h.2⟩) st h

theorem orphanFold_deleted_mem {σ : Type} (c : Client σ) (env : Env) (deleteFromCloud : Bool)
    (finalNodes : List NodeResult) (m : GoMap NodeState) (st : OrphanState σ)
    (h : ∀ id ∈ st.deleted, ∃ name, (name, id) ∈ st.orphans) :
    ∀ id ∈ (m.foldl (orphanStep c env deleteFromCloud finalNodes) st).deleted,
      ∃ name, (name, id) ∈ (m.foldl (orphanStep c env deleteFromCloud finalNodes) st).orphans :=
  foldl_inv (orphanStep c env deleteFromCloud finalNodes)
    (fun st : OrphanState σ => ∀ id ∈ st.deleted, ∃ name, (name, id) ∈ st.orphans) m
    (fun e _ st h => orphanStep_deleted_mem c env deleteFromCloud finalNodes st e h) st h

theorem confirmedFrom_append (env : Env) (o : String × String) (l : List (String × String)) :
    ∀ k, confirmedFrom env k (l ++ [o]) =
      confirmedFrom env k l ++ (if askForConfirmation env (k + l.length) then [o.2] else []) := by
  induction l with
  | nil => intro k; simp [confirmedFrom]
  | cons a rest ih =>
    intro k
    have h := ih (k + 1)
    rw [show k + 1 + rest.length = k + (rest.length + 1) by omega] at h
    show (if askForConfirmation env k then [a.2] else []) ++
        confirmedFrom env (k + 1) (rest ++ [o]) = _
    rw [h]
    simp only [confirmedFrom, List.length_cons, List.append_assoc]

theorem handleDelete_log {σ : Type} (c : Client σ) (serverID : String) (w : σ)
    (log : List Event) :
    ∃ payload, (handleDelete c serverID w log).2 = log ++ [Event.DeleteServer serverID payload] := by
  unfold handleDelete
  rcases c.GetServerDetail serverID w with ⟨r, w1⟩
  cases r with
  | error e => exact ⟨_, rfl⟩
  | ok detail => exact ⟨_, rfl⟩

theorem orphanStep_confirmed {σ : Type} (c : Client σ) (env : Env) (deleteFromCloud : Bool)
    (finalNodes : List NodeResult) (st : OrphanState σ) (entry : String × NodeState)
    (h : (deleteFromCloud = true → st.reads = st.orphans.length) ∧
      st.deleted = confirmedDeletions env deleteFromCloud st.orphans ∧
      st.log.map Event.deletedServer = st.deleted.map some) :
    (deleteFromCloud = true →
      (orphanStep c env deleteFromCloud finalNodes st entry).reads =
        (orphanStep c env deleteFromCloud finalNodes st entry).orphans.length) ∧
    (orphanStep c env deleteFromCloud finalNodes st entry).deleted =
      confirmedDeletions env deleteFromCloud
        (orphanStep c env deleteFromCloud finalNodes st entry).orphans ∧
    (orphanStep c env deleteFromCloud finalNodes st entry).log.map Event.deletedServer =
      (orphanStep c env deleteFromCloud finalNodes st entry).deleted.map some := by
  obtain ⟨hr, hd, hl⟩ := h
  unfold orphanStep
  dsimp only
  by_cases hany : finalNodes.any (fun fn => fn.Name = entry.1) = true
  · rw [if_pos hany]; exact ⟨hr, hd, hl⟩
  · rw [if_neg hany]
    cases deleteFromCloud with
    | false =>
      simp only [Bool.false_eq_true, if_false]
      refine ⟨fun h => absurd h (by simp), ?_, hl⟩
      rw [hd]
      simp [confirmedDeletions]
    | true =>
      have hk := hr rfl
      simp only [if_true]
      by_cases hask : askForConfirmation env st.reads = true
      · rw [if_pos hask]
        obtain ⟨payload, hlog⟩ := handleDelete_log c entry.2.ID st.world st.log
        rcases hH : handleDelete c entry.2.ID st.world st.log with ⟨w1, log1⟩
        rw [hH] at hlog
        simp only at hlog
        dsimp only
        refine ⟨fun _ => by simp [hk], ?_, ?_⟩
        · rw [hd]
          simp only [confirmedDeletions, if_true]
          rw [confirmedFrom_append, Nat.zero_add, ← hk, if_pos hask]
        · rw [hlog, List.map_append, List.map_append, hl]
          rfl
      · rw [if_neg hask]
        dsimp only
        refine ⟨fun _ => by simp [hk], ?_, hl⟩
        rw [hd]
        simp only [confirmedDeletions, if_true]
        rw [confirmedFrom_append, Nat.zero_add, ← hk, if_neg hask, List.append_nil]

theorem orphanFold_confirmed {σ : Type} (c : Client σ) (env : Env) (deleteFromCloud : Bool)
    (finalNodes : List NodeResult) (m : GoMap NodeState) (st : OrphanState σ)
    (h : (deleteFromCloud = true → st.reads = st.orphans.length) ∧
      st.deleted = confirmedDeletions env deleteFromCloud st.orphans ∧
      st.log.map Event.deletedServer = st.deleted.map some) :
    (m.foldl (orphanStep c env deleteFromCloud finalNodes) st).deleted =
      confirmedDeletions env deleteFromCloud
        (m.foldl (orphanStep c env deleteFromCloud finalNodes) st).orphans ∧
    (m.foldl (orphanStep c env deleteFromCloud finalNodes) st).log.map Event.deletedServer =
      (m.foldl (orphanStep c env deleteFromCloud finalNodes) st).deleted.map some :=
  (foldl_inv (orphanStep c env deleteFromCloud finalNodes)
    (fun st : OrphanState σ => (deleteFromCloud = true → st.reads = st.orphans.length) ∧
      st.deleted = confirmedDeletions env deleteFromCloud st.orphans ∧
      st.log.map Event.deletedServer = st.deleted.map some) m
    (fun e _ st h => orphanStep_confirmed c env deleteFromCloud finalNodes st e h) st h).2

/-- C9. For every run of `handleClusterCreateFromCode`, whatever the
provisioning phase delivers, the names reported as extra nodes are exactly the
keys of the alive index that are not the desired name of an enabled slot of a
group. -/
theorem orphans_are_undesired_alive {σ : Type} (c : Client σ) (env : Env) (cfg : Config)
    (s3 : Option (Except String (Option ClusterState))) (clusterName : String) (force : Bool)
    (manualPassword : String) (deleteFromCloud : Bool) (w : σ) (name : String) :
    name ∈ (handleClusterCreateFromCode c env (Except.ok cfg) s3 clusterName force
        manualPassword deleteFromCloud w).orphans.map Prod.fst ↔
      (name ∈ (handleClusterCreateFromCode c env (Except.ok cfg) s3 clusterName force
          manualPassword deleteFromCloud w).aliveNodesMap.keys ∧
        ¬ Desired clusterName cfg.Groups name) := by
  obtain ⟨w1, w2, w3, w4, pw, hC, hAl, hCl, hQ, hF, hO, _⟩ :=
    run_shape c env cfg s3 clusterName force manualPassword deleteFromCloud w
  have halive : ∀ k v, (verifyState c s3 force w1).1.get k = some v → v.Name = k :=
    fun k v h => alive_name_of_get c s3 force w1 k v h
  rw [hO, orphanFold_orphans, hAl]
  simp only [List.map_nil, List.not_mem_nil, false_or]
  constructor
  · rintro ⟨hk, hfn⟩
    refine ⟨hk, ?_⟩
    rintro ⟨g, hg, slot, hs, hEn, hname⟩
    have hsome : (verifyState c s3 force w1).1.get name ≠ none := by
      intro h
      exact ((GoMap.get_eq_none_iff _ _).mp h) hk
    obtain ⟨existing, hex⟩ := Option.ne_none_iff_exists'.mp hsome
    rw [← hname] at hex
    obtain ⟨n, hn, hR⟩ := classify_reach_final c clusterName (verifyState c s3 force w1).1
      (buildCloudServerMap (c.GetServersList w).1) (loadedState s3) cfg.Groups w2 _
      g hg slot hs (classifySlot_retained c clusterName _ _ _ g slot existing hEn hex)
    have hn' : n ∈ (handleClusterCreateFromCode c env (Except.ok cfg) s3 clusterName force
        manualPassword deleteFromCloud w).finalNodes := by
      rw [hF, collectResults_mem, hCl]
      exact Or.inl hn
    apply hfn n hn'
    rw [hR.1, halive _ _ hex, hname]
  · rintro ⟨hk, hnd⟩
    refine ⟨hk, ?_⟩
    intro fn hfn hname
    rw [hF, collectResults_mem, hCl] at hfn
    rcases hfn with hfn | ⟨hfn, _⟩
    · have h := (classify_final c clusterName _ _ (loadedState s3) halive cfg.Groups w2 fn hfn).1
      rw [hname] at h
      exact hnd h
    · obtain ⟨p, hp, hpn⟩ := provision_names c pw _ env.arrival w3 [] fn hfn
      rw [hQ] at hp
      have h := (classify_queue c clusterName _ _ (loadedState s3) cfg.Groups w2 p hp).2
      rw [← hpn, hname] at h
      exact ((GoMap.get_eq_none_iff _ _).mp h) hk

/-- C10. In the orphan loop of `handleClusterCreateFromCode`, `handleDelete` is
invoked for a reported orphan exactly when `deleteFromCloud` is set and the
answer to the question asked for that orphan is `yes` after lower-casing and
trimming: the IDs passed to `handleDelete` are, in order, the IDs of the
orphans so confirmed, and the requests of the loop are one delete-server
request for each of them and nothing else.  Hence with `deleteFromCloud =
false` nothing is deleted and no request is issued, the same holds when no
answer is `yes`, and every deleted ID is that of a reported orphan.  With two
orphans and the answers `no` and `yes`, only the second one is deleted. -/
theorem orphan_deletion_is_gated {σ : Type} (c : Client σ) (env : Env) (cfg : Config)
    (s3 : Option (Except String (Option ClusterState))) (clusterName : String) (force : Bool)
    (manualPassword : String) (deleteFromCloud : Bool) (w : σ) :
    ((handleClusterCreateFromCode c env (Except.ok cfg) s3 clusterName force manualPassword
        deleteFromCloud w).deleted =
      confirmedDeletions env deleteFromCloud
        (handleClusterCreateFromCode c env (Except.ok cfg) s3 clusterName force manualPassword
          deleteFromCloud w).orphans ∧
      (handleClusterCreateFromCode c env (Except.ok cfg) s3 clusterName force manualPassword
        deleteFromCloud w).orphanLog.map Event.deletedServer =
      (handleClusterCreateFromCode c env (Except.ok cfg) s3 clusterName force manualPassword
        deleteFromCloud w).deleted.map some) ∧
    ((handleClusterCreateFromCode c env (Except.ok cfg) s3 clusterName force manualPassword
        false w).deleted = [] ∧
      (handleClusterCreateFromCode c env (Except.ok cfg) s3 clusterName force manualPassword
        false w).orphanLog = []) ∧
    ((∀ k, env.TrimSpace (env.ToLower (env.stdin k)) ≠ "yes") →
      (handleClusterCreateFromCode c env (Except.ok cfg) s3 clusterName force manualPassword
        deleteFromCloud w).deleted = [] ∧
      (handleClusterCreateFromCode c env (Except.ok cfg) s3 clusterName force manualPassword
        deleteFromCloud w).orphanLog = []) ∧
    (∀ id ∈ (handleClusterCreateFromCode c env (Except.ok cfg) s3 clusterName force
        manualPassword deleteFromCloud w).deleted,
      deleteFromCloud = true ∧
      (∃ k, env.TrimSpace (env.ToLower (env.stdin k)) = "yes") ∧
      ∃ name, (name, id) ∈ (handleClusterCreateFromCode c env (Except.ok cfg) s3 clusterName
        force manualPassword deleteFromCloud w).orphans) ∧
    ((orphanRun secondYesEnv).orphans = [("c1-old-1", "srv-x"), ("c1-old-2", "srv-y")] ∧
      (orphanRun secondYesEnv).deleted = ["srv-y"] ∧
      (orphanRun secondYesEnv).orphanLog.map Event.deletedServer = [some "srv-y"]) := by
  have hconf : (handleClusterCreateFromCode c env (Except.ok cfg) s3 clusterName force
        manualPassword deleteFromCloud w).deleted =
      confirmedDeletions env deleteFromCloud
        (handleClusterCreateFromCode c env (Except.ok cfg) s3 clusterName force manualPassword
          deleteFromCloud w).orphans ∧
      (handleClusterCreateFromCode c env (Except.ok cfg) s3 clusterName force manualPassword
        deleteFromCloud w).orphanLog.map Event.deletedServer =
      (handleClusterCreateFromCode c env (Except.ok cfg) s3 clusterName force manualPassword
        deleteFromCloud w).deleted.map some := by
    obtain ⟨w1, w2, w3, w4, pw, _, _, _, _, _, hO, hD, hL⟩ :=
      run_shape c env cfg s3 clusterName force manualPassword deleteFromCloud w
    rw [hD, hL, hO]
    exact orphanFold_confirmed c env deleteFromCloud _ _ _
      ⟨fun _ => rfl, by cases deleteFromCloud <;> rfl, rfl⟩
  have hfalse : (handleClusterCreateFromCode c env (Except.ok cfg) s3 clusterName force
        manualPassword false w).deleted = [] ∧
      (handleClusterCreateFromCode c env (Except.ok cfg) s3 clusterName force manualPassword
        false w).orphanLog = [] := by
    obtain ⟨w1, w2, w3, w4, pw, _, _, _, _, _, _, hD, hL⟩ :=
      run_shape c env cfg s3 clusterName force manualPassword false w
    rw [hD, hL]
    exact orphanFold_no_delete c env _ _ _ ⟨rfl, rfl⟩
  have hdecl : (∀ k, env.TrimSpace (env.ToLower (env.stdin k)) ≠ "yes") →
      (handleClusterCreateFromCode c env (Except.ok cfg) s3 clusterName force manualPassword
        deleteFromCloud w).deleted = [] ∧
      (handleClusterCreateFromCode c env (Except.ok cfg) s3 clusterName force manualPassword
        deleteFromCloud w).orphanLog = [] := by
    intro hno
    obtain ⟨w1, w2, w3, w4, pw, _, _, _, _, _, _, hD, hL⟩ :=
      run_shape c env cfg s3 clusterName force manualPassword deleteFromCloud w
    rw [hD, hL]
    exact orphanFold_declined c env deleteFromCloud _ _ _ hno ⟨rfl, rfl⟩
  refine ⟨hconf, hfalse, hdecl, ?_, by decide⟩
  intro id hid
  refine ⟨?_, ?_, ?_⟩
  · cases deleteFromCloud with
    | true => rfl
    | false => rw [hfalse.1] at hid; exact absurd hid (List.not_mem_nil _)
  · by_contra hcon
    have hno : ∀ k, env.TrimSpace (env.ToLower (env.stdin k)) ≠ "yes" :=
      fun k h => hcon ⟨k, h⟩
    rw [(hdecl hno).1] at hid
    exact absurd hid (List.not_mem_nil _)
  · obtain ⟨w1, w2, w3, w4, pw, _, _, _, _, _, hO, hD, _⟩ :=
      run_shape c env cfg s3 clusterName force manualPassword deleteFromCloud w
    rw [hD] at hid
    rw [hO]
    exact orphanFold_deleted_mem c env deleteFromCloud _ _ _ (by simp) id hid

/-! ## The scenarios -/

/-- C1, evaluated on the failing inputs. The persisted state records the
non-bootable disk `vol-d` of `c1-master-1` with `critical = true`, and the
cloud reports the server with `vol-d` attached.  A run without `force` against
the recorded server ID keeps the flag; a run with `force = true`, and a run
without `force` whose recorded server ID no longer resolves, both adopt the
server with no prior disks and hand `SaveState` a record of `vol-d` with
`critical = false`. -/
theorem critical_flag_cleared_by_adoption :
    criticalFlags (some (criticalState "srv-a"))
      = [("c1-master-1", [("vol-a", false), ("vol-d", true)])] ∧
    criticalFlags (criticalRun "srv-a" false).saved
      = [("c1-master-1", [("vol-a", false), ("vol-d", true)])] ∧
    criticalFlags (criticalRun "srv-a" true).saved
      = [("c1-master-1", [("vol-a", false), ("vol-d", false)])] ∧
    criticalFlags (criticalRun "srv-old" false).saved
      = [("c1-master-1", [("vol-a", false), ("vol-d", false)])] := by
  decide

/-- C6. Cluster `c1`, one group `master` with the enabled slots 1 and 2 (in
either iteration order), a state holding only `c1-master-1` with ID `srv-a`
(whatever the other fields of its record), a cloud that lists and resolves
`srv-a`, `force = false`, and a creation that succeeds with ID `srv-b`.
Alive-verification records `c1-master-1` with ID `srv-a` in the alive index,
with the persisted SSH port and the IP of the retention rule; the slot of
`c1-master-1` is retained from that record (ID `srv-a`, the persisted SSH
port, not new); exactly `c1-master-2` is queued, one `CreateServer` request is
issued and the one result received is `c1-master-2` with ID `srv-b`; the
state passed to `SaveState` has exactly the two nodes `c1-master-1`/`srv-a`
and `c1-master-2`/`srv-b`; no orphan is reported and nothing is deleted. -/
theorem scenario_two_masters :
    ∀ slots ∈ [[(1 : Int), 2], [2, 1]], ∀ prior : NodeState,
      (retainedRun slots prior).aliveNodesMap.map
          (fun e => (e.1, e.2.Name, e.2.ID, e.2.IP, e.2.SSHPort))
        = [("c1-master-1", "c1-master-1", "srv-a",
            (if prior.SSHPort != 0 && prior.IP != "10.0.0.1" then prior.IP else "10.0.0.1"),
            prior.SSHPort)] ∧
      (retainedRun slots prior).classified.map
          (fun n => (n.Name, n.ID, n.IP, n.SSHPort, n.IsNew))
        = [("c1-master-1", "srv-a",
            (if prior.SSHPort != 0 && prior.IP != "10.0.0.1" then prior.IP else "10.0.0.1"),
            prior.SSHPort, false)] ∧
      (retainedRun slots prior).nodesToCreate.map (fun p => p.Name) = ["c1-master-2"] ∧
      ((retainedRun slots prior).provisionLog.filter Event.isCreateServer).length = 1 ∧
      (retainedRun slots prior).results.map (fun r => (r.Name, r.ID, r.Err, r.IsNew))
        = [("c1-master-2", "srv-b", none, true)] ∧
      (retainedRun slots prior).finalNodes.map (fun n => (n.Name, n.ID, n.SSHPort, n.IsNew))
        = [("c1-master-1", "srv-a", prior.SSHPort, false), ("c1-master-2", "srv-b", 0, true)] ∧
      (retainedRun slots prior).saved.map
          (fun s => s.Nodes.map (fun n => (n.Name, n.ID, n.SSHPort)))
        = some [("c1-master-1", "srv-a", prior.SSHPort), ("c1-master-2", "srv-b", 0)] ∧
      (retainedRun slots prior).orphans = [] ∧
      (retainedRun slots prior).deleted = [] := by
  intro slots hs prior
  simp only [List.mem_cons, List.mem_singleton, List.not_mem_nil, or_false] at hs
  rcases hs with rfl | rfl
  · exact ⟨rfl, rfl, rfl, rfl, rfl, rfl, rfl, rfl, rfl⟩
  · exact ⟨rfl, rfl, rfl, rfl, rfl, rfl, rfl, rfl, rfl⟩

/-- The scenario with the slots visited in the order 1, 2 and a persisted
record with the SSH port 2222 and the IP `192.0.2.9`: the retained entry keeps
both, which an adopted entry would not. -/
theorem scenario_two_masters_witness :
    [(1 : Int), 2] ∈ [[(1 : Int), 2], [2, 1]] ∧
      (retainedRun [1, 2] portedPrior).classified.map
          (fun n => (n.Name, n.ID, n.IP, n.SSHPort, n.IsNew))
        = [("c1-master-1", "srv-a", "192.0.2.9", 2222, false)] ∧
      (retainedRun [1, 2] portedPrior).saved.map
          (fun s => s.Nodes.map (fun n => (n.Name, n.ID, n.SSHPort)))
        = some [("c1-master-1", "srv-a", 2222), ("c1-master-2", "srv-b", 0)] :=
  ⟨by decide, (scenario_two_masters [1, 2] (by decide) portedPrior).2.1,
   (scenario_two_masters [1, 2] (by decide) portedPrior).2.2.2.2.2.2.1⟩

/-- C8, the claim as stated fails: the cloud lists a server named
`c1-master-1` whose detail does not resolve; the enabled slot 1 of the group
`master` then ends the classification loop neither in the final list nor in
the pending-create queue. -/
theorem slot_left_in_neither_place :
    ((1 : Int), ({ Enabled := true, Labels := [] } : InstanceConfig))
        ∈ (scenarioGroup [1]).Instances ∧
    scenarioGroup [1] ∈ (scenarioConfig [1]).Groups ∧
    nodeName "c1" (scenarioGroup [1]).NamePrefix 1 ∉
      unresolvedRun.classified.map (fun n => n.Name) ∧
    nodeName "c1" (scenarioGroup [1]).NamePrefix 1 ∉
      unresolvedRun.nodesToCreate.map (fun p => p.Name) ∧
    unresolvedRun.finalNodes = [] := by
  decide

/-- C8, amended. For every configuration and every cloud and state input, the
desired name of an enabled slot ends the classification loop in the final list
when it is a key of the alive index (retained), in the pending-create queue
when it is a key of neither the alive index nor the cloud server map, and in
the final list when it is a key of the cloud server map only and the detail
of the listed server resolves (adopted); it is never in both places. -/
theorem slot_classification {σ : Type} (c : Client σ) (env : Env) (cfg : Config)
    (s3 : Option (Except String (Option ClusterState))) (clusterName : String) (force : Bool)
    (manualPassword : String) (deleteFromCloud : Bool) (w : σ)
    (g : NodeGroup) (slot : Int × InstanceConfig)
    (hg : g ∈ cfg.Groups) (hs : slot ∈ g.Instances) (hEn : slot.2.Enabled = true) :
    ((handleClusterCreateFromCode c env (Except.ok cfg) s3 clusterName force manualPassword
        deleteFromCloud w).aliveNodesMap.get (nodeName clusterName g.NamePrefix slot.1) ≠ none →
      ∃ n ∈ (handleClusterCreateFromCode c env (Except.ok cfg) s3 clusterName force
          manualPassword deleteFromCloud w).classified,
        n.Name = nodeName clusterName g.NamePrefix slot.1) ∧
    ((handleClusterCreateFromCode c env (Except.ok cfg) s3 clusterName force manualPassword
        deleteFromCloud w).aliveNodesMap.get (nodeName clusterName g.NamePrefix slot.1) = none →
      (handleClusterCreateFromCode c env (Except.ok cfg) s3 clusterName force manualPassword
        deleteFromCloud w).cloudServerMap.get (nodeName clusterName g.NamePrefix slot.1) = none →
      ∃ p ∈ (handleClusterCreateFromCode c env (Except.ok cfg) s3 clusterName force
          manualPassword deleteFromCloud w).nodesToCreate,
        p.Name = nodeName clusterName g.NamePrefix slot.1) ∧
    (∀ realID,
      (handleClusterCreateFromCode c env (Except.ok cfg) s3 clusterName force manualPassword
        deleteFromCloud w).aliveNodesMap.get (nodeName clusterName g.NamePrefix slot.1) = none →
      (handleClusterCreateFromCode c env (Except.ok cfg) s3 clusterName force manualPassword
        deleteFromCloud w).cloudServerMap.get (nodeName clusterName g.NamePrefix slot.1)
          = some realID →
      (∀ w', ∃ detail, (c.GetServerDetail realID w').1 = Except.ok detail) →
      ∃ n ∈ (handleClusterCreateFromCode c env (Except.ok cfg) s3 clusterName force
          manualPassword deleteFromCloud w).classified,
        n.Name = nodeName clusterName g.NamePrefix slot.1 ∧ n.ID = realID) ∧
    ¬ ((∃ n ∈ (handleClusterCreateFromCode c env (Except.ok cfg) s3 clusterName force
          manualPassword deleteFromCloud w).classified,
        n.Name = nodeName clusterName g.NamePrefix slot.1) ∧
      (∃ p ∈ (handleClusterCreateFromCode c env (Except.ok cfg) s3 clusterName force
          manualPassword deleteFromCloud w).nodesToCreate,
        p.Name = nodeName clusterName g.NamePrefix slot.1)) := by
  obtain ⟨w1, w2, w3, w4, pw, hC, hAl, hCl, hQ, _⟩ :=
    run_shape c env cfg s3 clusterName force manualPassword deleteFromCloud w
  have halive : ∀ k v, (verifyState c s3 force w1).1.get k = some v → v.Name = k :=
    fun k v h => alive_name_of_get c s3 force w1 k v h
  rw [hC, hAl, hCl, hQ]
  refine ⟨?_, ?_, ?_, ?_⟩
  · intro hne
    obtain ⟨existing, hex⟩ := Option.ne_none_iff_exists'.mp hne
    obtain ⟨n, hn, hR⟩ := classify_reach_final c clusterName (verifyState c s3 force w1).1
      (buildCloudServerMap (c.GetServersList w).1) (loadedState s3) cfg.Groups w2 _
      g hg slot hs (classifySlot_retained c clusterName _ _ _ g slot existing hEn hex)
    exact ⟨n, hn, hR.1.trans (halive _ _ hex)⟩
  · intro hA hCn
    exact classify_reach_queue c clusterName _ _ (loadedState s3) cfg.Groups w2 _
      g hg slot hs (classifySlot_queued c clusterName _ _ _ g slot hEn hA hCn)
  · intro realID hA hCs hres
    exact classify_reach_final c clusterName _ _ (loadedState s3) cfg.Groups w2 _
      g hg slot hs (classifySlot_adopted c clusterName _ _ _ g slot realID hEn hA hCs hres)
  · rintro ⟨⟨n, hn, hnn⟩, ⟨p, hp, hpn⟩⟩
    have h1 := (classify_final c clusterName _ _ (loadedState s3) halive cfg.Groups w2 n hn).2
    have h2 := classify_queue c clusterName _ _ (loadedState s3) cfg.Groups w2 p hp
    rw [hnn] at h1
    rw [hpn] at h2
    rcases h1 with h1 | h1
    · exact h1 h2.2
    · exact h1 h2.1

/-- In the scenario of two master slots, slot 1 is retained and slot 2 is
queued. -/
theorem slot_classification_witness :
    scenarioGroup [1, 2] ∈ (scenarioConfig [1, 2]).Groups ∧
    (∃ n ∈ (scenarioRun [1, 2]).classified, n.Name = nodeName "c1" "master" 1) ∧
    (∃ p ∈ (scenarioRun [1, 2]).nodesToCreate, p.Name = nodeName "c1" "master" 2) :=
  ⟨by decide,
   (slot_classification scenarioClient scenarioEnv (scenarioConfig [1, 2])
      (some (Except.ok (some scenarioState))) "c1" false "" false false
      (scenarioGroup [1, 2]) (1, { Enabled := true, Labels := [] })
      (by decide) (by decide) rfl).1 (by decide),
   (slot_classification scenarioClient scenarioEnv (scenarioConfig [1, 2])
      (some (Except.ok (some scenarioState))) "c1" false "" false false
      (scenarioGroup [1, 2]) (2, { Enabled := true, Labels := [] })
      (by decide) (by decide) rfl).2.1 (by decide) (by decide)⟩

/-- In the scenario of two master slots, the queued `c1-master-2` is a key of
neither index. -/
theorem pending_not_in_cloud_nor_alive_witness :
    scenarioPending ∈ (scenarioRun [1, 2]).nodesToCreate ∧
    (scenarioRun [1, 2]).cloudServerMap.get scenarioPending.Name = none ∧
    (scenarioRun [1, 2]).aliveNodesMap.get scenarioPending.Name = none :=
  ⟨by decide,
   (pending_not_in_cloud_nor_alive scenarioClient scenarioEnv (Except.ok (scenarioConfig [1, 2]))
      (some (Except.ok (some scenarioState))) "c1" false "" false false
      scenarioPending (by decide)).1,
   (pending_not_in_cloud_nor_alive scenarioClient scenarioEnv (Except.ok (scenarioConfig [1, 2]))
      (some (Except.ok (some scenarioState))) "c1" false "" false false
      scenarioPending (by decide)).2.1⟩

/-- In the scenario of two master slots, the alive `c1-master-1` is carried
into the final list. -/
theorem retained_slot_carried_forward_witness :
    (scenarioRun [1, 2]).aliveNodesMap.get (nodeName "c1" "master" 1) = some scenarioAlive ∧
    (∃ n ∈ (scenarioRun [1, 2]).finalNodes,
      n.Name = nodeName "c1" "master" 1 ∧ n.ID = "srv-a" ∧ n.IP = "10.0.0.1") :=
  ⟨by decide,
   match (retained_slot_carried_forward scenarioClient scenarioEnv (scenarioConfig [1, 2])
      (some (Except.ok (some scenarioState))) "c1" false "" false false
      (scenarioGroup [1, 2]) (1, { Enabled := true, Labels := [] }) scenarioAlive
      (by decide) (by decide) rfl (by decide)).1 with
   | ⟨n, hn, h1, h2, h3, _⟩ => ⟨n, hn, h1, h2, h3⟩⟩

/-! ## The merge of the provisioning results -/

theorem collectResults_eq_append (results : List NodeResult) :
    ∀ finalNodes : List NodeResult,
      collectResults finalNodes results =
        finalNodes ++ results.filter (fun res => res.Err.isNone) := by
  induction results with
  | nil => intro finalNodes; simp [collectResults]
  | cons res rest ih =>
    intro finalNodes
    have ih' := ih (if res.Err.isSome then finalNodes else finalNodes ++ [res])
    unfold collectResults at ih' ⊢
    rw [List.foldl_cons, ih']
    cases hE : res.Err with
    | none => simp [List.filter_cons, hE]
    | some e => simp [List.filter_cons, hE]

theorem filter_ok_length (results : List NodeResult) :
    (results.filter (fun res => res.Err.isNone)).length +
      (results.filter (fun res => res.Err.isSome)).length = results.length := by
  induction results with
  | nil => rfl
  | cons res rest ih =>
    cases hE : res.Err with
    | none => simp [List.filter_cons, hE]; omega
    | some e => simp [List.filter_cons, hE]; omega

theorem provision_length {σ : Type} (c : Client σ) (password : String)
    (items : List PendingNode) (arrival : List Nat) :
    ∀ (w : σ) (log : List Event),
      (provision c password items arrival w log).1.length =
        (arrival.filter (fun i => decide (i < items.length))).length := by
  induction arrival with
  | nil => intro w log; simp [provision]
  | cons i rest ih =>
    intro w log
    unfold provision
    cases hi : items[i]? with
    | none =>
      have hlt : ¬ i < items.length := by
        intro h
        have := List.getElem?_eq_getElem h
        rw [hi] at this
        exact absurd this (by simp)
      simp only [List.filter_cons, hlt, decide_False, Bool.false_eq_true, if_false]
      exact ih w log
    | some itm =>
      have hlt : i < items.length := by
        by_contra h
        have := List.getElem?_eq_none (Nat.le_of_not_lt h)
        rw [hi] at this
        exact absurd this (by simp)
      simp only [List.filter_cons, hlt, decide_True, if_true, List.length_cons]
      rw [ih]

theorem provision_length_of_perm {σ : Type} (c : Client σ) (password : String)
    (items : List PendingNode) (arrival : List Nat) (w : σ) (log : List Event)
    (h : arrival.Perm (List.range items.length)) :
    (provision c password items arrival w log).1.length = items.length := by
  rw [provision_length]
  have hall : ∀ i ∈ arrival, decide (i < items.length) = true := by
    intro i hi
    have := (h.mem_iff).mp hi
    simpa using List.mem_range.mp this
  rw [List.filter_eq_self.mpr hall, h.length_eq, List.length_range]

theorem run_final_shape {σ : Type} (c : Client σ) (env : Env) (cfg : Config)
    (s3 : Option (Except String (Option ClusterState))) (clusterName : String) (force : Bool)
    (manualPassword : String) (deleteFromCloud : Bool) (w : σ) :
    ∃ (w3 : σ) (password now : String),
      (handleClusterCreateFromCode c env (Except.ok cfg) s3 clusterName force manualPassword
          deleteFromCloud w).finalNodes =
        collectResults
          (handleClusterCreateFromCode c env (Except.ok cfg) s3 clusterName force
            manualPassword deleteFromCloud w).classified
          (provision c password
            (handleClusterCreateFromCode c env (Except.ok cfg) s3 clusterName force
              manualPassword deleteFromCloud w).nodesToCreate env.arrival w3 []).1 ∧
      (handleClusterCreateFromCode c env (Except.ok cfg) s3 clusterName force manualPassword
          deleteFromCloud w).saved =
        runPostActions s3.isSome cfg.SSHUser
          (handleClusterCreateFromCode c env (Except.ok cfg) s3 clusterName force
            manualPassword deleteFromCloud w).finalNodes now :=
  ⟨_, _, _, rfl, rfl⟩

theorem provision_names_order {σ : Type} (c : Client σ) (password : String)
    (items : List PendingNode) (arrival : List Nat) :
    ∀ (w : σ) (log : List Event),
      (provision c password items arrival w log).1.map (fun r => r.Name) =
        arrival.filterMap (fun i => items[i]?.map (fun p => p.Name)) := by
  induction arrival with
  | nil => intro w log; simp [provision]
  | cons i rest ih =>
    intro w log
    unfold provision
    rw [List.filterMap_cons]
    cases hi : items[i]? with
    | none =>
      simp only [Option.map_none']
      exact ih w log
    | some itm =>
      simp only [Option.map_some', List.map_cons]
      rw [ih, createNodeAsync_name]

/-- C11. For every sequence of results received from the channel, the final
node list is the retained/adopted list followed by exactly the results whose
`Err` is nil, in arrival order; a result with an error adds nothing and
changes no other entry.  In a run, the results received are those the
provisioning phase produces for the queue: one per delivered worker, in
arrival order, each bearing the name of the queued node at that position, and
as many as queued nodes when every worker delivers; the final list is the
retained/adopted list followed by the received results without error, so it
grows by the number of results minus the number of failed ones; and the nodes
passed to `SaveState` are the nodes of the final list, in order. -/
theorem failed_results_are_left_out {σ : Type} (c : Client σ) (env : Env) (cfg : Config)
    (s3 : Option (Except String (Option ClusterState))) (clusterName : String) (force : Bool)
    (manualPassword : String) (deleteFromCloud : Bool) (w : σ) :
    (∀ finalNodes results : List NodeResult,
      collectResults finalNodes results =
        finalNodes ++ results.filter (fun res => res.Err.isNone)) ∧
    (∃ w3, (handleClusterCreateFromCode c env (Except.ok cfg) s3 clusterName force
        manualPassword deleteFromCloud w).results =
      (provision c (choosePassword env manualPassword)
        (handleClusterCreateFromCode c env (Except.ok cfg) s3 clusterName force
          manualPassword deleteFromCloud w).nodesToCreate env.arrival w3 []).1) ∧
    (handleClusterCreateFromCode c env (Except.ok cfg) s3 clusterName force manualPassword
        deleteFromCloud w).results.map (fun r => r.Name) =
      env.arrival.filterMap (fun i =>
        (handleClusterCreateFromCode c env (Except.ok cfg) s3 clusterName force
          manualPassword deleteFromCloud w).nodesToCreate[i]?.map (fun p => p.Name)) ∧
    (env.arrival.Perm (List.range (handleClusterCreateFromCode c env (Except.ok cfg) s3
        clusterName force manualPassword deleteFromCloud w).nodesToCreate.length) →
      (handleClusterCreateFromCode c env (Except.ok cfg) s3 clusterName force manualPassword
        deleteFromCloud w).results.length =
      (handleClusterCreateFromCode c env (Except.ok cfg) s3 clusterName force manualPassword
        deleteFromCloud w).nodesToCreate.length) ∧
    (handleClusterCreateFromCode c env (Except.ok cfg) s3 clusterName force manualPassword
        deleteFromCloud w).finalNodes =
      (handleClusterCreateFromCode c env (Except.ok cfg) s3 clusterName force
        manualPassword deleteFromCloud w).classified ++
        (handleClusterCreateFromCode c env (Except.ok cfg) s3 clusterName force
          manualPassword deleteFromCloud w).results.filter (fun res => res.Err.isNone) ∧
    (handleClusterCreateFromCode c env (Except.ok cfg) s3 clusterName force manualPassword
        deleteFromCloud w).finalNodes.length +
        ((handleClusterCreateFromCode c env (Except.ok cfg) s3 clusterName force
          manualPassword deleteFromCloud w).results.filter (fun res => res.Err.isSome)).length =
      (handleClusterCreateFromCode c env (Except.ok cfg) s3 clusterName force
        manualPassword deleteFromCloud w).classified.length +
        (handleClusterCreateFromCode c env (Except.ok cfg) s3 clusterName force
          manualPassword deleteFromCloud w).results.length ∧
    (s3.isSome = true →
      ∃ st, (handleClusterCreateFromCode c env (Except.ok cfg) s3 clusterName force
          manualPassword deleteFromCloud w).saved = some st ∧
        st.Nodes.map (fun n => (n.Name, n.Role, n.ID, n.IP, n.SSHPort, n.AddressID,
            n.Labels, n.Taints, n.Disks)) =
          (handleClusterCreateFromCode c env (Except.ok cfg) s3 clusterName force
            manualPassword deleteFromCloud w).finalNodes.map
            (fun n => (n.Name, n.Role, n.ID, n.IP, n.SSHPort, n.AddressID,
              n.Labels, n.Taints, n.Disks))) := by
  have hR : ∃ w3, (handleClusterCreateFromCode c env (Except.ok cfg) s3 clusterName force
        manualPassword deleteFromCloud w).results =
      (provision c (choosePassword env manualPassword)
        (handleClusterCreateFromCode c env (Except.ok cfg) s3 clusterName force
          manualPassword deleteFromCloud w).nodesToCreate env.arrival w3 []).1 := ⟨_, rfl⟩
  have hF : (handleClusterCreateFromCode c env (Except.ok cfg) s3 clusterName force
        manualPassword deleteFromCloud w).finalNodes =
      collectResults
        (handleClusterCreateFromCode c env (Except.ok cfg) s3 clusterName force
          manualPassword deleteFromCloud w).classified
        (handleClusterCreateFromCode c env (Except.ok cfg) s3 clusterName force
          manualPassword deleteFromCloud w).results := rfl
  obtain ⟨_, _, now, _, hS⟩ :=
    run_final_shape c env cfg s3 clusterName force manualPassword deleteFromCloud w
  obtain ⟨w3, hres⟩ := hR
  refine ⟨fun finalNodes results => collectResults_eq_append results finalNodes,
    ⟨w3, hres⟩, ?_, ?_, ?_, ?_, ?_⟩
  · rw [hres]
    exact provision_names_order c _ _ env.arrival w3 []
  · intro h
    rw [hres]
    exact provision_length_of_perm c _ _ env.arrival w3 [] h
  · rw [hF, collectResults_eq_append]
  · rw [hF, collectResults_eq_append, List.length_append]
    have := filter_ok_length (handleClusterCreateFromCode c env (Except.ok cfg)
      s3 clusterName force manualPassword deleteFromCloud w).results
    omega
  · intro hs3
    rw [hS]
    simp only [runPostActions, hs3, if_true]
    exact ⟨_, rfl, by simp [List.map_map, Function.comp_def]⟩

/-! ## The retry loop of `createNodeAsync` -/

theorem attachAll_log {σ : Type} (c : Client σ) (id : String) (vols : List String) :
    ∀ (w : σ) (log extra : List Event),
      attachAll c id vols w (log ++ extra) =
        ((attachAll c id vols w extra).1, log ++ (attachAll c id vols w extra).2) := by
  induction vols with
  | nil => intro w log extra; rfl
  | cons v rest ih =>
    intro w log extra
    unfold attachAll
    rw [List.append_assoc, ih]

theorem attachAll_no_create {σ : Type} (c : Client σ) (id : String) (vols : List String) :
    ∀ (w : σ) (log : List Event),
      ((attachAll c id vols w log).2.filter Event.isCreateServer).length =
        (log.filter Event.isCreateServer).length := by
  induction vols with
  | nil => intro w log; rfl
  | cons v rest ih =>
    intro w log
    unfold attachAll
    rw [ih]
    simp [List.filter_append, Event.isCreateServer]

theorem createNodeAttempts_succ {σ : Type} (c : Client σ) (name : String) (group : NodeGroup)
    (oldDisks : List DiskState) (labels : GoMap String) (password : String)
    (avail : List DiskResult) (n : Nat) (lastErr : Option String) (w : σ) (log : List Event) :
    createNodeAttempts c name group oldDisks labels password avail (n + 1) lastErr w log =
      match createAttempt c name group oldDisks labels password avail w with
      | (Except.error e, w', events) =>
        createNodeAttempts c name group oldDisks labels password avail n (some e) w'
          (log ++ events)
      | (Except.ok res, w', events) => (res, w', log ++ events) := by
  rw [createNodeAttempts]
  unfold createAttempt
  dsimp only
  rcases hC : c.CreateServer _ _ with ⟨r, w2⟩
  cases r with
  | error e => rfl
  | ok id =>
    dsimp only
    cases hE : (WaitForStatus c id ["ACTIVE", "RUNNING"] 60 w2).1.err with
    | some e => simp [List.append_assoc]
    | none =>
      dsimp only
      rw [attachAll_log c id _ _ log [Event.CreateServer _]]
      simp [List.append_assoc]

theorem createAttempt_one_create {σ : Type} (c : Client σ) (name : String) (group : NodeGroup)
    (oldDisks : List DiskState) (labels : GoMap String) (password : String)
    (avail : List DiskResult) (w : σ) :
    ((createAttempt c name group oldDisks labels password avail w).2.2.filter
      Event.isCreateServer).length = 1 := by
  unfold createAttempt
  dsimp only
  rcases hC : c.CreateServer _ _ with ⟨r, w2⟩
  cases r with
  | error e => simp [Event.isCreateServer]
  | ok id =>
    dsimp only
    cases hE : (WaitForStatus c id ["ACTIVE", "RUNNING"] 60 w2).1.err with
    | some e => simp [Event.isCreateServer]
    | none =>
      dsimp only
      rw [List.filter_append, List.length_append, attachAll_no_create]
      simp [Event.isCreateServer]

theorem createAttempt_ok_err {σ : Type} (c : Client σ) (name : String) (group : NodeGroup)
    (oldDisks : List DiskState) (labels : GoMap String) (password : String)
    (avail : List DiskResult) (w : σ) (res : NodeResult)
    (h : (createAttempt c name group oldDisks labels password avail w).1 = Except.ok res) :
    res.Err = none ∧ res.Name = name ∧ res.IsNew = true := by
  unfold createAttempt at h
  dsimp only at h
  rcases hC : c.CreateServer _ _ with ⟨r, w2⟩
  rw [hC] at h
  cases r with
  | error e => simp at h
  | ok id =>
    dsimp only at h
    cases hE : (WaitForStatus c id ["ACTIVE", "RUNNING"] 60 w2).1.err with
    | some e => rw [hE] at h; simp at h
    | none =>
      rw [hE] at h
      simp only [Except.ok.injEq] at h
      subst h
      exact ⟨rfl, rfl, rfl⟩

theorem createAttempt_error_iff {σ : Type} (c : Client σ) (name : String) (group : NodeGroup)
    (oldDisks : List DiskState) (labels : GoMap String) (password : String)
    (avail : List DiskResult) (w : σ) :
    (∃ e, (createAttempt c name group oldDisks labels password avail w).1 = Except.error e) ↔
      ((∃ e, (c.CreateServer
          (createPayload name group (matchDisks group.Disks oldDisks avail).storagesPayload
            (addressesPayload c group w).1) (addressesPayload c group w).2).1 = Except.error e) ∨
        ∃ id, (c.CreateServer
          (createPayload name group (matchDisks group.Disks oldDisks avail).storagesPayload
            (addressesPayload c group w).1) (addressesPayload c group w).2).1 = Except.ok id ∧
          (WaitForStatus c id ["ACTIVE", "RUNNING"] 60 (c.CreateServer
            (createPayload name group (matchDisks group.Disks oldDisks avail).storagesPayload
              (addressesPayload c group w).1) (addressesPayload c group w).2).2).1.err ≠ none) := by
  unfold createAttempt
  dsimp only
  rcases hC : c.CreateServer _ _ with ⟨r, w2⟩
  cases r with
  | error e => simp
  | ok id =>
    dsimp only
    cases hE : (WaitForStatus c id ["ACTIVE", "RUNNING"] 60 w2).1.err with
    | some e => simp [hE]
    | none => simp [hE]

theorem createNodeAttempts_spec {σ : Type} (c : Client σ) (name : String) (group : NodeGroup)
    (oldDisks : List DiskState) (labels : GoMap String) (password : String)
    (avail : List DiskResult) (n : Nat) :
    ∀ (lastErr : Option String) (w : σ) (log : List Event),
      (((createNodeAttempts c name group oldDisks labels password avail n lastErr w log).2.2.filter
          Event.isCreateServer).length ≤ (log.filter Event.isCreateServer).length + n) ∧
      ((createNodeAttempts c name group oldDisks labels password avail n lastErr w log).1.Err
          ≠ none ↔
        ∀ a ∈ attemptsFrom c name group oldDisks labels password avail n w,
          ∃ e, a.1 = Except.error e) ∧
      ((createNodeAttempts c name group oldDisks labels password avail n lastErr w log).1.Err
          = none →
        ∃ pre a post,
          attemptsFrom c name group oldDisks labels password avail n w = pre ++ a :: post ∧
          (∀ b ∈ pre, ∃ e, b.1 = Except.error e) ∧
          a.1 = Except.ok
            (createNodeAttempts c name group oldDisks labels password avail n lastErr w log).1) := by
  induction n with
  | zero =>
    intro lastErr w log
    simp [createNodeAttempts, attemptsFrom]
  | succ n ih =>
    intro lastErr w log
    rw [createNodeAttempts_succ]
    have hone := createAttempt_one_create c name group oldDisks labels password avail w
    have hok := createAttempt_ok_err c name group oldDisks labels password avail w
    rcases hA : createAttempt c name group oldDisks labels password avail w with ⟨r, w', events⟩
    rw [hA] at hone hok
    simp only [attemptsFrom, hA]
    cases r with
    | error e =>
      dsimp only
      obtain ⟨h1, h2, h3⟩ := ih (some e) w' (log ++ events)
      refine ⟨?_, ?_, ?_⟩
      · rw [List.filter_append, List.length_append] at h1
        simp only at hone
        omega
      · rw [h2]
        simp
      · intro hnone
        obtain ⟨pre, a, post, hsplit, hpre, ha⟩ := h3 hnone
        refine ⟨(Except.error e, w', events) :: pre, a, post, ?_, ?_, ha⟩
        · rw [hsplit]; rfl
        · intro b hb
          rcases List.mem_cons.mp hb with hb | hb
          · exact ⟨e, by rw [hb]⟩
          · exact hpre b hb
    | ok res =>
      dsimp only
      have hres := hok res rfl
      refine ⟨?_, ?_, ?_⟩
      · rw [List.filter_append, List.length_append]
        simp only at hone
        omega
      · simp [hres.1]
      · intro _
        exact ⟨[], (Except.ok res, w', events), _, rfl, by simp, rfl⟩

/-- C12. For every behaviour of the cloud API, `createNodeAsync` returns one
`NodeResult` (the one it sends on the channel) and issues at most 3
create-server requests.  The result carries an error if and only if each of
the 3 attempts was abandoned, and otherwise it is the result of the first
attempt that was not; an attempt is abandoned exactly when `CreateServer`
fails or `WaitForStatus` returns an error. -/
theorem createNodeAsync_three_attempts {σ : Type} (c : Client σ) (name : String)
    (group : NodeGroup) (oldDisks : List DiskState) (labels : GoMap String)
    (password : String) (w : σ) (log : List Event) :
    (((createNodeAsync c name group oldDisks labels password w log).2.2.filter
        Event.isCreateServer).length ≤ (log.filter Event.isCreateServer).length + 3) ∧
    ((createNodeAsync c name group oldDisks labels password w log).1.Err ≠ none ↔
      ∀ a ∈ attemptsFrom c name group oldDisks labels password (fetchedPool c w) 3
          (c.GetProjectVolumes w).2,
        ∃ e, a.1 = Except.error e) ∧
    ((createNodeAsync c name group oldDisks labels password w log).1.Err = none →
      ∃ pre a post,
        attemptsFrom c name group oldDisks labels password (fetchedPool c w) 3
          (c.GetProjectVolumes w).2 = pre ++ a :: post ∧
        (∀ b ∈ pre, ∃ e, b.1 = Except.error e) ∧
        a.1 = Except.ok (createNodeAsync c name group oldDisks labels password w log).1) ∧
    (∀ (avail : List DiskResult) (w' : σ),
      (∃ e, (createAttempt c name group oldDisks labels password avail w').1 = Except.error e) ↔
      ((∃ e, (c.CreateServer
          (createPayload name group (matchDisks group.Disks oldDisks avail).storagesPayload
            (addressesPayload c group w').1) (addressesPayload c group w').2).1
            = Except.error e) ∨
        ∃ id, (c.CreateServer
          (createPayload name group (matchDisks group.Disks oldDisks avail).storagesPayload
            (addressesPayload c group w').1) (addressesPayload c group w').2).1 = Except.ok id ∧
          (WaitForStatus c id ["ACTIVE", "RUNNING"] 60 (c.CreateServer
            (createPayload name group (matchDisks group.Disks oldDisks avail).storagesPayload
              (addressesPayload c group w').1) (addressesPayload c group w').2).2).1.err
            ≠ none)) := by
  have heq : createNodeAsync c name group oldDisks labels password w log =
      createNodeAttempts c name group oldDisks labels password (fetchedPool c w) 3 none
        (c.GetProjectVolumes w).2 log := rfl
  rw [heq]
  obtain ⟨h1, h2, h3⟩ := createNodeAttempts_spec c name group oldDisks labels password
    (fetchedPool c w) 3 none (c.GetProjectVolumes w).2 log
  exact ⟨h1, h2, h3, fun avail w' =>
    createAttempt_error_iff c name group oldDisks labels password avail w'⟩

/-! ## Cleanup after an abandoned attempt, and the alive index -/

/-- C13, evaluated on the failing input. The created server `srv-n` reports
the volume `vol-n` in its storages.  When it enters `ERROR`, each of the three
delete-server requests lists `vol-n`; when it stays in `BUILD` until the 60
polls of `WaitForStatus` are used up, each of the three delete-server requests
lists no volume. -/
theorem timeout_cleanup_lists_no_volume :
    deletedVolumes
        (createNodeAsync erroredClient "c1-master-1" (scenarioGroup [1]) [] [] "pw" () []).2.2
      = [("srv-n", ["vol-n"]), ("srv-n", ["vol-n"]), ("srv-n", ["vol-n"])] ∧
    deletedVolumes
        (createNodeAsync stuckClient "c1-master-1" (scenarioGroup [1]) [] [] "pw" () []).2.2
      = [("srv-n", []), ("srv-n", []), ("srv-n", [])] := by
  decide

theorem verifyNode_entries {σ : Type} (c : Client σ) (nodes : List NodeState)
    (st : GoMap NodeState × σ) (n : NodeState) (hn : n ∈ nodes)
    (h : ∀ e ∈ st.1, ∃ m ∈ nodes, ∃ w' d,
      (fetchNodeDetails c m.ID m.Disks [] w').1 = Except.ok d ∧ m.Name = e.1 ∧
      e.2.SSHPort = m.SSHPort ∧ e.2.IP = (if m.SSHPort ≠ 0 then m.IP else d.IP)) :
    ∀ e ∈ (verifyNode c st n).1, ∃ m ∈ nodes, ∃ w' d,
      (fetchNodeDetails c m.ID m.Disks [] w').1 = Except.ok d ∧ m.Name = e.1 ∧
      e.2.SSHPort = m.SSHPort ∧ e.2.IP = (if m.SSHPort ≠ 0 then m.IP else d.IP) := by
  unfold verifyNode
  rcases hf : fetchNodeDetails c n.ID n.Disks [] st.2 with ⟨r, w1⟩
  cases r with
  | error e => exact h
  | ok d =>
    intro e he
    rcases GoMap.mem_of_mem_set _ _ _ _ he with h' | h'
    · refine ⟨n, hn, st.2, d, by rw [hf], by rw [h'], by rw [h'], ?_⟩
      rw [h']
      by_cases hp : n.SSHPort = 0
      · simp [hp]
      · by_cases hip : n.IP = d.IP
        · simp [hp, hip]
        · simp [hp, hip]
    · exact h e h'

theorem verifyState_entries {σ : Type} (c : Client σ)
    (s3 : Option (Except String (Option ClusterState))) (force : Bool) (w : σ) :
    ∀ e ∈ (verifyState c s3 force w).1,
      ∃ existingState, s3 = some (Except.ok (some existingState)) ∧ force = false ∧
        ∃ m ∈ existingState.Nodes, ∃ w' d,
          (fetchNodeDetails c m.ID m.Disks [] w').1 = Except.ok d ∧ m.Name = e.1 ∧
          e.2.SSHPort = m.SSHPort ∧ e.2.IP = (if m.SSHPort ≠ 0 then m.IP else d.IP) := by
  unfold verifyState
  split
  · rename_i existingState
    split
    · split
      · simp
      · rename_i hforce
        intro e he
        refine ⟨existingState, rfl, by simpa using hforce, ?_⟩
        exact foldl_inv (verifyNode c)
          (fun st => ∀ e ∈ st.1, ∃ m ∈ existingState.Nodes, ∃ w' d,
            (fetchNodeDetails c m.ID m.Disks [] w').1 = Except.ok d ∧ m.Name = e.1 ∧
            e.2.SSHPort = m.SSHPort ∧ e.2.IP = (if m.SSHPort ≠ 0 then m.IP else d.IP))
          existingState.Nodes
          (fun n hn st h => verifyNode_entries c existingState.Nodes st n hn h)
          _ (by simp) e he
    · simp
  · simp

theorem verifyState_loaded {σ : Type} (c : Client σ) (st : ClusterState) (w : σ) :
    verifyState c (some (Except.ok (some st))) false w
      = st.Nodes.foldl (verifyNode c) ([], w) := by
  unfold verifyState
  cases hn : st.Nodes with
  | nil => simp [hn]
  | cons a rest => simp [hn]

theorem verifyFold_keeps {σ : Type} (c : Client σ) (k : String) (v : NodeState)
    (post : List NodeState) (hpost : ∀ m ∈ post, m.Name ≠ k) :
    ∀ st : GoMap NodeState × σ, st.1.get k = some v →
      (post.foldl (verifyNode c) st).1.get k = some v :=
  foldl_inv (verifyNode c) (fun st => st.1.get k = some v) post
    (fun m hm st hst => by
      unfold verifyNode
      rcases hf : fetchNodeDetails c m.ID m.Disks [] st.2 with ⟨r, w1⟩
      cases r with
      | error e => exact hst
      | ok d =>
        dsimp only
        rw [GoMap.get_set, if_neg (hpost m hm)]
        exact hst)

theorem run_alive_index {σ : Type} (c : Client σ) (env : Env) (cfg : Config)
    (s3 : Option (Except String (Option ClusterState))) (clusterName : String) (force : Bool)
    (manualPassword : String) (deleteFromCloud : Bool) (w : σ) :
    (handleClusterCreateFromCode c env (Except.ok cfg) s3 clusterName force manualPassword
      deleteFromCloud w).aliveNodesMap = (verifyState c s3 force (c.GetServersList w).2).1 :=
  rfl

theorem verifyState_records {σ : Type} (c : Client σ) (existingState : ClusterState)
    (w1 : σ) (pre post : List NodeState) (n : NodeState) (d : NodeDetails)
    (hnodes : existingState.Nodes = pre ++ n :: post)
    (hlast : ∀ m ∈ post, m.Name ≠ n.Name)
    (hres : (fetchNodeDetails c n.ID n.Disks [] (pre.foldl (verifyNode c) ([], w1)).2).1
      = Except.ok d) :
    ∃ v, (verifyState c (some (Except.ok (some existingState))) false w1).1.get n.Name = some v ∧
      v.Name = n.Name ∧ v.ID = n.ID ∧ v.SSHPort = n.SSHPort ∧ v.AddressID = d.AddressID ∧
      v.Disks = d.Disks ∧ (n.SSHPort ≠ 0 → v.IP = n.IP) ∧ (n.SSHPort = 0 → v.IP = d.IP) := by
  rw [verifyState_loaded, hnodes, List.foldl_append, List.foldl_cons]
  generalize pre.foldl (verifyNode c) ([], w1) = st0 at hres ⊢
  rcases hf : fetchNodeDetails c n.ID n.Disks [] st0.2 with ⟨r, w2⟩
  rw [hf] at hres
  simp only at hres
  subst hres
  have hstep : (verifyNode c st0 n).1.get n.Name = some
      { Name := n.Name, Role := n.Role, ID := n.ID,
        IP := if n.SSHPort != 0 && n.IP != d.IP then n.IP else d.IP,
        SSHPort := n.SSHPort, AddressID := d.AddressID, Labels := n.Labels,
        Taints := n.Taints, Disks := d.Disks, Created := d.Created, Updated := c.Now w2 } := by
    unfold verifyNode
    rw [hf]
    dsimp only
    rw [GoMap.get_set, if_pos rfl]
  refine ⟨_, verifyFold_keeps c n.Name _ post hlast _ hstep, rfl, rfl, rfl, rfl, rfl, ?_, ?_⟩
  · intro hp
    by_cases hip : n.IP = d.IP
    · simp [hip]
    · simp [hp, hip]
  · intro hp
    simp [hp]

/-- C14, the claim as stated fails: with the persisted SSH port 0, the
non-empty persisted IP `192.0.2.9` is replaced by the resolved IP `10.0.0.1`;
with the persisted SSH port 2222, the empty persisted IP is kept. -/
theorem persisted_ip_not_kept :
    ("192.0.2.9" : String) ≠ "" ∧
    (editedRun "192.0.2.9" 0).aliveNodesMap.map (fun e => (e.1, e.2.IP, e.2.SSHPort))
      = [("c1-master-1", "10.0.0.1", 0)] ∧
    (editedRun "" 2222).aliveNodesMap.map (fun e => (e.1, e.2.IP, e.2.SSHPort))
      = [("c1-master-1", "", 2222)] := by
  decide

/-- C14, amended. A persisted node whose detail resolves when
alive-verification reaches it, and whose name no later node of the state
bears, has a record under its name in the alive index; the record keeps the
persisted ID and SSH port, and its IP is the persisted IP when the persisted
SSH port is not zero, and the freshly resolved cloud IP when the persisted SSH
port is zero.  Conversely, every record of the alive index stems from a
persisted node of that name whose detail resolved during alive-verification,
with the same SSH port and IP. -/
theorem alive_record_ip_policy {σ : Type} (c : Client σ) (env : Env) (cfg : Config)
    (s3 : Option (Except String (Option ClusterState))) (clusterName : String) (force : Bool)
    (manualPassword : String) (deleteFromCloud : Bool) (w : σ) :
    (∀ (existingState : ClusterState) (pre post : List NodeState) (n : NodeState)
        (d : NodeDetails),
      s3 = some (Except.ok (some existingState)) → force = false →
      existingState.Nodes = pre ++ n :: post → (∀ m ∈ post, m.Name ≠ n.Name) →
      (fetchNodeDetails c n.ID n.Disks []
        (pre.foldl (verifyNode c) ([], (c.GetServersList w).2)).2).1 = Except.ok d →
      ∃ v, (handleClusterCreateFromCode c env (Except.ok cfg) s3 clusterName force
          manualPassword deleteFromCloud w).aliveNodesMap.get n.Name = some v ∧
        v.Name = n.Name ∧ v.ID = n.ID ∧ v.SSHPort = n.SSHPort ∧
        (n.SSHPort ≠ 0 → v.IP = n.IP) ∧ (n.SSHPort = 0 → v.IP = d.IP)) ∧
    (∀ (k : String) (v : NodeState),
      (handleClusterCreateFromCode c env (Except.ok cfg) s3 clusterName force
        manualPassword deleteFromCloud w).aliveNodesMap.get k = some v →
      ∃ existingState, s3 = some (Except.ok (some existingState)) ∧
        ∃ n ∈ existingState.Nodes, ∃ w' d,
          (fetchNodeDetails c n.ID n.Disks [] w').1 = Except.ok d ∧ n.Name = k ∧
          v.SSHPort = n.SSHPort ∧ (n.SSHPort ≠ 0 → v.IP = n.IP) ∧
          (n.SSHPort = 0 → v.IP = d.IP)) := by
  constructor
  · intro existingState pre post n d hs3 hforce hnodes hlast hres
    subst hs3 hforce
    rw [run_alive_index]
    obtain ⟨v, hv, hname, hid, hport, _, _, hip1, hip2⟩ :=
      verifyState_records c existingState (c.GetServersList w).2 pre post n d hnodes hlast hres
    exact ⟨v, hv, hname, hid, hport, hip1, hip2⟩
  · intro k v h
    obtain ⟨w1, w2, w3, w4, pw, _, hAl, _⟩ :=
      run_shape c env cfg s3 clusterName force manualPassword deleteFromCloud w
    rw [hAl] at h
    obtain ⟨existingState, hs3, _, n, hn, w', d, hf, hname, hport, hip⟩ :=
      verifyState_entries c s3 force w1 (k, v) (GoMap.mem_of_get_eq_some _ _ _ h)
    refine ⟨existingState, hs3, n, hn, w', d, hf, hname, hport, ?_, ?_⟩
    · intro hp
      simpa [hp] using hip
    · intro hp
      simpa [hp] using hip

/-- The persisted record of `c1-master-1` with the IP `192.0.2.9` and the SSH
port 2222 resolves; its record in the alive index keeps the port and the
persisted IP. -/
theorem alive_record_ip_policy_witness :
    (fetchNodeDetails scenarioClient (editedNode "192.0.2.9" 2222).ID
      (editedNode "192.0.2.9" 2222).Disks [] false).1 = Except.ok scenarioDetails ∧
    ∃ v, (editedRun "192.0.2.9" 2222).aliveNodesMap.get "c1-master-1" = some v ∧
      v.ID = "srv-a" ∧ v.SSHPort = 2222 ∧ v.IP = "192.0.2.9" :=
  ⟨rfl,
   match (alive_record_ip_policy scenarioClient scenarioEnv (scenarioConfig [1])
      (some (Except.ok (some (editedState "192.0.2.9" 2222)))) "c1" false "" false false).1
      (editedState "192.0.2.9" 2222) [] [] (editedNode "192.0.2.9" 2222) scenarioDetails
      rfl rfl rfl (fun _ h => absurd h (List.not_mem_nil _)) rfl with
   | ⟨v, hv, _, hid, hport, hip, _⟩ => ⟨v, hv, hid, hport, hip (by decide)⟩⟩

/-! ## The node detail resolver -/

theorem fetchNodeDetails_eq {σ : Type} (c : Client σ) (serverID : String)
    (oldDisks : List DiskState) (configDisks : List Disk) (w w1 w2 w3 : σ)
    (detail : ServerDetail) (allAddrs : GoMap AddressDetail) (vols : List DiskResult)
    (hd : c.GetServerDetail serverID w = (Except.ok detail, w1))
    (ha : GetProjectAddressesMap c w1 = (Except.ok allAddrs, w2))
    (hv : c.GetProjectVolumes w2 = (Except.ok vols, w3)) :
    fetchNodeDetails c serverID oldDisks configDisks w =
      (Except.ok { IP := (resolveAddress allAddrs detail.Addresses).1,
                   AddressID := (resolveAddress allAddrs detail.Addresses).2,
                   Disks := resolveDisks serverID oldDisks configDisks (c.Now w3) (some vols),
                   Created := detail.Created }, w3) := by
  unfold fetchNodeDetails
  simp only [hd, ha, hv]

theorem externalAddress_first (allAddrs : GoMap AddressDetail) (id : String)
    (info : AddressDetail) (post : List String)
    (hget : allAddrs.get id = some info) (hext : info.External = true) :
    ∀ pre : List String,
      (∀ a ∈ pre, ∀ i, allAddrs.get a = some i → i.External = false) →
      externalAddress allAddrs (pre ++ id :: post) = some (info.Address, id) := by
  intro pre
  induction pre with
  | nil => intro _; simp [externalAddress, hget, hext]
  | cons a rest ih =>
    intro hpre
    have hrest := ih (fun b hb => hpre b (List.mem_cons_of_mem _ hb))
    rw [List.cons_append]
    unfold externalAddress
    cases hga : allAddrs.get a with
    | none => simpa using hrest
    | some i =>
      have := hpre a (List.mem_cons_self _ _) i hga
      simpa [this] using hrest

theorem externalAddress_none (allAddrs : GoMap AddressDetail) :
    ∀ addresses : List String,
      (∀ a ∈ addresses, ∀ i, allAddrs.get a = some i → i.External = false) →
      externalAddress allAddrs addresses = none := by
  intro addresses
  induction addresses with
  | nil => intro _; rfl
  | cons a rest ih =>
    intro h
    have hrest := ih (fun b hb => h b (List.mem_cons_of_mem _ hb))
    unfold externalAddress
    cases hga : allAddrs.get a with
    | none => simpa using hrest
    | some i =>
      have := h a (List.mem_cons_self _ _) i hga
      simpa [this] using hrest

/-- C15. When the server detail resolves: if one of the server's address IDs
is in the project address map and marked external, the returned IP and
address-binding ID are the address and the ID of the first such entry in the
server's address order (its address being an address, not the word
`unknown` the code starts from); if none is, and the first listed address is
in the map, the returned binding ID is that first ID and the returned IP its
address. -/
theorem fetchNodeDetails_address {σ : Type} (c : Client σ) (serverID : String)
    (oldDisks : List DiskState) (configDisks : List Disk) (w w1 w2 : σ)
    (detail : ServerDetail) (allAddrs : GoMap AddressDetail)
    (hd : c.GetServerDetail serverID w = (Except.ok detail, w1))
    (ha : GetProjectAddressesMap c w1 = (Except.ok allAddrs, w2)) :
    ∃ d, (fetchNodeDetails c serverID oldDisks configDisks w).1 = Except.ok d ∧
      (∀ pre id post info, detail.Addresses = pre ++ id :: post →
        (∀ a ∈ pre, ∀ i, allAddrs.get a = some i → i.External = false) →
        allAddrs.get id = some info → info.External = true → info.Address ≠ "unknown" →
        d.IP = info.Address ∧ d.AddressID = id) ∧
      (∀ first rest info, detail.Addresses = first :: rest →
        (∀ a ∈ detail.Addresses, ∀ i, allAddrs.get a = some i → i.External = false) →
        allAddrs.get first = some info →
        d.IP = info.Address ∧ d.AddressID = first) := by
  have hshape : ∃ disks, (fetchNodeDetails c serverID oldDisks configDisks w).1 =
      Except.ok { IP := (resolveAddress allAddrs detail.Addresses).1,
                  AddressID := (resolveAddress allAddrs detail.Addresses).2,
                  Disks := disks, Created := detail.Created } := by
    unfold fetchNodeDetails
    simp only [hd, ha]
    exact ⟨_, rfl⟩
  obtain ⟨disks, hfetch⟩ := hshape
  refine ⟨_, hfetch, ?_, ?_⟩
  · intro pre id post info hsplit hpre hget hext hne
    have h1 := externalAddress_first allAddrs id info post hget hext pre hpre
    rw [← hsplit] at h1
    simp [resolveAddress, h1, hne]
  · intro first rest info hsplit hnone hget
    have h1 := externalAddress_none allAddrs detail.Addresses hnone
    rw [hsplit] at h1
    simp [resolveAddress, h1, hsplit, hget]

/-- The server `srv-a` of the critical-disk scenario resolves to its external
address `addr-a`. -/
theorem fetchNodeDetails_address_witness :
    criticalClient.GetServerDetail "srv-a" () = (Except.ok criticalDetail, ()) ∧
    GetProjectAddressesMap criticalClient () =
      (Except.ok [("addr-a", criticalAddress)], ()) ∧
    ∃ d, (fetchNodeDetails criticalClient "srv-a" [] [] ()).1 = Except.ok d ∧
      d.IP = "10.0.0.1" ∧ d.AddressID = "addr-a" :=
  ⟨rfl, rfl,
   match fetchNodeDetails_address criticalClient "srv-a" [] [] () () () criticalDetail
      [("addr-a", criticalAddress)] rfl rfl with
   | ⟨d, hd, h1, _⟩ =>
     ⟨d, hd, h1 [] "addr-a" [] criticalAddress rfl (by simp) (by decide) rfl (by decide)⟩⟩

/-! ## The disk records of the resolver -/

theorem fetchNodeDetails_disks {σ : Type} (c : Client σ) (serverID : String)
    (oldDisks : List DiskState) (configDisks : List Disk) (w w1 w3 : σ)
    (detail : ServerDetail) (vols : List DiskResult)
    (hd : c.GetServerDetail serverID w = (Except.ok detail, w1))
    (hv : c.GetProjectVolumes (GetProjectAddressesMap c w1).2 = (Except.ok vols, w3)) :
    ∃ d, (fetchNodeDetails c serverID oldDisks configDisks w).1 = Except.ok d ∧
      d.Disks = resolveDisks serverID oldDisks configDisks (c.Now w3) (some vols) := by
  unfold fetchNodeDetails
  simp only [hd]
  rcases ha : GetProjectAddressesMap c w1 with ⟨ar, w2⟩
  rw [ha] at hv
  simp only [hv]
  exact ⟨_, rfl, rfl⟩

theorem attachedDisk_some (serverID : String) (oldDisks : List DiskState)
    (configDisks : List Disk) (now : String) (vol : DiskResult) (d : DiskState)
    (h : attachedDisk serverID oldDisks configDisks now vol = some d) :
    ∃ att, vol.AttachedToServer = some att ∧ att.ID = serverID ∧ d.ID = vol.ID ∧
      d.Device = att.Device ∧ d.Owner = "" ∧ d.Group = "" ∧ d.Mode = "" ∧
      d.Critical = (criticalMap oldDisks).contains vol.ID ∧
      (oldMountPoint oldDisks vol.ID ≠ "" → d.MountPoint = oldMountPoint oldDisks vol.ID) := by
  unfold attachedDisk at h
  cases hatt : vol.AttachedToServer with
  | none => simp [hatt] at h
  | some att =>
    simp only [hatt] at h
    by_cases hid : att.ID = serverID
    · simp only [hid, if_true, Option.some.injEq] at h
      subst h
      refine ⟨att, rfl, hid, rfl, rfl, rfl, rfl, rfl, rfl, ?_⟩
      intro hne
      simp [hne]
    · simp [hid] at h

theorem attachedDisk_of_attached (serverID : String) (oldDisks : List DiskState)
    (configDisks : List Disk) (now : String) (vol : DiskResult) (att : VolumeAttachment)
    (hatt : vol.AttachedToServer = some att) (hid : att.ID = serverID) :
    ∃ d, attachedDisk serverID oldDisks configDisks now vol = some d := by
  unfold attachedDisk
  simp [hatt, hid]

theorem oldMountPoint_of_find (oldDisks : List DiskState) (volID : String) (o : DiskState)
    (h : oldDisks.find? (fun old => old.ID = volID && old.MountPoint != "") = some o) :
    oldMountPoint oldDisks volID = o.MountPoint ∧ o.MountPoint ≠ "" ∧ o.ID = volID ∧
      o ∈ oldDisks := by
  have hp := List.find?_some h
  simp at hp
  unfold oldMountPoint
  rw [h]
  exact ⟨rfl, hp.2, hp.1, List.mem_of_find?_eq_some h⟩

/-- What the second loop of `fetchNodeDetails` appends for a prior disk. -/
theorem detachedDiskStep_mem (vols : List DiskResult) (now : String)
    (disks : List DiskState) (old : DiskState) (d : DiskState)
    (h : d ∈ detachedDiskStep vols now disks old) :
    d ∈ disks ∨
      (old.Bootable = false ∧ d.ID = old.ID ∧ d.Device = "" ∧ d.Bootable = false ∧
        d.Owner = "" ∧ d.Group = "" ∧ d.Mode = "" ∧ d.Critical = old.Critical ∧
        d.MountPoint = old.MountPoint ∧ (∃ vol ∈ vols, vol.ID = d.ID) ∧
        ∀ x ∈ disks, x.ID ≠ old.ID) := by
  unfold detachedDiskStep at h
  by_cases hb : old.Bootable = true
  · rw [if_pos hb] at h
    exact Or.inl h
  · rw [if_neg hb] at h
    by_cases hany : disks.any (fun x => x.ID = old.ID) = true
    · rw [if_pos hany] at h
      exact Or.inl h
    · rw [if_neg hany] at h
      have hall : ∀ x ∈ disks, x.ID ≠ old.ID := by simpa using hany
      cases hfind : vols.find? (fun vol => vol.ID = old.ID) with
      | none =>
        rw [hfind] at h
        exact Or.inl h
      | some vol =>
        rw [hfind] at h
        have hp := List.find?_some hfind
        simp at hp
        simp only [List.mem_append, List.mem_singleton] at h
        rcases h with h | h
        · exact Or.inl h
        · subst h
          exact Or.inr ⟨by simpa using hb, hp, rfl, rfl, rfl, rfl, rfl, rfl, rfl,
            ⟨vol, List.mem_of_find?_eq_some hfind, rfl⟩, hall⟩

theorem detachedDiskStep_mono (vols : List DiskResult) (now : String)
    (disks : List DiskState) (old : DiskState) :
    ∀ d ∈ disks, d ∈ detachedDiskStep vols now disks old := by
  intro d hd
  unfold detachedDiskStep
  split
  · exact hd
  · split
    · exact hd
    · split
      · exact List.mem_append_left _ hd
      · exact hd

theorem detachedDiskStep_covers (vols : List DiskResult) (now : String)
    (disks : List DiskState) (old : DiskState) (hb : old.Bootable = false)
    (hvol : ∃ vol ∈ vols, vol.ID = old.ID) :
    ∃ d ∈ detachedDiskStep vols now disks old, d.ID = old.ID := by
  unfold detachedDiskStep
  simp only [hb, Bool.false_eq_true, if_false]
  by_cases hany : disks.any (fun x => x.ID = old.ID) = true
  · rw [if_pos hany]
    simpa using hany
  · rw [if_neg hany]
    cases hfind : vols.find? (fun vol => vol.ID = old.ID) with
    | none =>
      obtain ⟨vol, hv, hid⟩ := hvol
      have := List.find?_eq_none.mp hfind vol hv
      simp [hid] at this
    | some vol =>
      have hp := List.find?_some hfind
      simp at hp
      exact ⟨_, List.mem_append_right _ (List.mem_singleton_self _), hp⟩

/-- The origin of every record of the disk list of the resolver. -/
theorem resolveDisks_mem (serverID : String) (oldDisks : List DiskState)
    (configDisks : List Disk) (now : String) (vols : List DiskResult) (d : DiskState)
    (h : d ∈ resolveDisks serverID oldDisks configDisks now (some vols)) :
    (∃ vol ∈ vols, attachedDisk serverID oldDisks configDisks now vol = some d) ∨
      (∃ old ∈ oldDisks, old.Bootable = false ∧ d.ID = old.ID ∧ d.Device = "" ∧
        d.Bootable = false ∧ d.Owner = "" ∧ d.Group = "" ∧ d.Mode = "" ∧
        d.Critical = old.Critical ∧ d.MountPoint = old.MountPoint ∧
        (∃ vol ∈ vols, vol.ID = d.ID) ∧
        ∀ x ∈ vols.filterMap (attachedDisk serverID oldDisks configDisks now),
          x.ID ≠ old.ID) := by
  unfold resolveDisks at h
  dsimp only at h
  have key : ∀ (l : List DiskState) (init : List DiskState),
      (∀ x ∈ vols.filterMap (attachedDisk serverID oldDisks configDisks now), x ∈ init) →
      d ∈ l.foldl (detachedDiskStep vols now) init →
      d ∈ init ∨
        (∃ old ∈ l, old.Bootable = false ∧ d.ID = old.ID ∧ d.Device = "" ∧
          d.Bootable = false ∧ d.Owner = "" ∧ d.Group = "" ∧ d.Mode = "" ∧
          d.Critical = old.Critical ∧ d.MountPoint = old.MountPoint ∧
          (∃ vol ∈ vols, vol.ID = d.ID) ∧
          ∀ x ∈ vols.filterMap (attachedDisk serverID oldDisks configDisks now),
            x.ID ≠ old.ID) := by
    intro l
    induction l with
    | nil => intro init _ hd; exact Or.inl hd
    | cons o rest ih =>
      intro init hsub hd
      rw [List.foldl_cons] at hd
      rcases ih _ (fun x hx => detachedDiskStep_mono vols now init o x (hsub x hx)) hd with
        h1 | ⟨old, hold, hrest⟩
      · rcases detachedDiskStep_mem vols now init o d h1 with h2 | ⟨a, b, c', e, f, g, i, j, k, l', m⟩
        · exact Or.inl h2
        · exact Or.inr ⟨o, List.mem_cons_self _ _, a, b, c', e, f, g, i, j, k, l',
            fun x hx => m x (hsub x hx)⟩
      · exact Or.inr ⟨old, List.mem_cons_of_mem _ hold, hrest⟩
  rcases key oldDisks _ (fun x hx => hx) h with h1 | h1
  · left
    obtain ⟨vol, hvol, hsome⟩ := List.mem_filterMap.mp h1
    exact ⟨vol, hvol, hsome⟩
  · exact Or.inr h1

theorem resolveDisks_attached (serverID : String) (oldDisks : List DiskState)
    (configDisks : List Disk) (now : String) (vols : List DiskResult) (vol : DiskResult)
    (d : DiskState) (hvol : vol ∈ vols)
    (h : attachedDisk serverID oldDisks configDisks now vol = some d) :
    d ∈ resolveDisks serverID oldDisks configDisks now (some vols) := by
  unfold resolveDisks
  dsimp only
  exact foldl_inv (detachedDiskStep vols now) (fun disks => d ∈ disks) oldDisks
    (fun o _ disks hd => detachedDiskStep_mono vols now disks o d hd) _
    (List.mem_filterMap.mpr ⟨vol, hvol, h⟩)

/-- C16, the claim as stated fails: the prior record of the attached volume
`vol-d` has the owner `1000`, the group `1000` and the mode `0750`; the
returned record keeps its mount point `/data` and has an empty owner, group
and mode. -/
theorem owner_group_mode_not_carried :
    (ownedDisk.ID, ownedDisk.MountPoint, ownedDisk.Owner, ownedDisk.Group, ownedDisk.Mode)
      = ("vol-d", "/data", "1000", "1000", "0750") ∧
    (fetchedDisks criticalClient "srv-a" [ownedDisk] [] ()).map
        (fun d => (d.ID, d.MountPoint, d.Owner, d.Group, d.Mode))
      = [("vol-a", "", "", "", ""), ("vol-d", "/data", "", "", "")] := by
  decide

/-- C16, amended. For every volume the listing reports attached to the server
whose ID is the ID of a prior record with a non-empty mount point, the
returned record of that volume carries the mount point of the first such prior
record; the owner, group and mode of every returned record are empty. -/
theorem attached_record_keeps_mount_point {σ : Type} (c : Client σ) (serverID : String)
    (oldDisks : List DiskState) (configDisks : List Disk) (w w1 w3 : σ)
    (detail : ServerDetail) (vols : List DiskResult)
    (hd : c.GetServerDetail serverID w = (Except.ok detail, w1))
    (hv : c.GetProjectVolumes (GetProjectAddressesMap c w1).2 = (Except.ok vols, w3)) :
    ∃ d, (fetchNodeDetails c serverID oldDisks configDisks w).1 = Except.ok d ∧
      (∀ vol ∈ vols, ∀ att o, vol.AttachedToServer = some att → att.ID = serverID →
        oldDisks.find? (fun old => old.ID = vol.ID && old.MountPoint != "") = some o →
        ∃ rec ∈ d.Disks, rec.ID = vol.ID ∧ rec.Device = att.Device ∧
          rec.MountPoint = o.MountPoint) ∧
      (∀ rec ∈ d.Disks, rec.Owner = "" ∧ rec.Group = "" ∧ rec.Mode = "") := by
  obtain ⟨d, hfetch, hdisks⟩ :=
    fetchNodeDetails_disks c serverID oldDisks configDisks w w1 w3 detail vols hd hv
  refine ⟨d, hfetch, ?_, ?_⟩
  · intro vol hvol att o hatt hid hfind
    obtain ⟨rec, hrec⟩ :=
      attachedDisk_of_attached serverID oldDisks configDisks (c.Now w3) vol att hatt hid
    obtain ⟨att', hatt', _, h1, h2, _, _, _, _, h3⟩ :=
      attachedDisk_some serverID oldDisks configDisks (c.Now w3) vol rec hrec
    obtain ⟨hm, hne, _, _⟩ := oldMountPoint_of_find oldDisks vol.ID o hfind
    refine ⟨rec, ?_, h1, ?_, ?_⟩
    · rw [hdisks]
      exact resolveDisks_attached serverID oldDisks configDisks _ vols vol rec hvol hrec
    · rw [hatt] at hatt'
      simp only [Option.some.injEq] at hatt'
      rw [h2, hatt']
    · rw [h3 (by rw [hm]; exact hne), hm]
  · intro rec hrec
    rw [hdisks] at hrec
    rcases resolveDisks_mem serverID oldDisks configDisks _ vols rec hrec with
      ⟨vol, _, hsome⟩ | ⟨old, _, _, _, _, _, h1, h2, h3, _⟩
    · obtain ⟨_, _, _, _, _, h1, h2, h3, _⟩ :=
        attachedDisk_some serverID oldDisks configDisks _ vol rec hsome
      exact ⟨h1, h2, h3⟩
    · exact ⟨h1, h2, h3⟩

/-- In the critical-disk scenario every returned record has an empty owner,
group and mode. -/
theorem attached_record_keeps_mount_point_witness :
    criticalClient.GetServerDetail "srv-a" () = (Except.ok criticalDetail, ()) ∧
    criticalClient.GetProjectVolumes (GetProjectAddressesMap criticalClient ()).2
      = (Except.ok criticalVolumes, ()) ∧
    ∃ d, (fetchNodeDetails criticalClient "srv-a" [ownedDisk] [] ()).1 = Except.ok d ∧
      ∀ rec ∈ d.Disks, rec.Owner = "" ∧ rec.Group = "" ∧ rec.Mode = "" :=
  ⟨rfl, rfl,
   match attached_record_keeps_mount_point criticalClient "srv-a" [ownedDisk] [] () () ()
      criticalDetail criticalVolumes rfl rfl with
   | ⟨d, hd, _, h2⟩ => ⟨d, hd, h2⟩⟩

/-- C17, the claim as stated fails: the prior records name the volumes `vol-d`
and `vol-e`; the listing reports `vol-d` unattached and `vol-e` attached to
the server `srv-other`; both get a record in the disk list returned for
`srv-a`. -/
theorem detached_volumes_are_returned :
    (fetchedDisks detachedClient "srv-a" [ownedDisk, { ownedDisk with ID := "vol-e" }] []
        ()).map (fun d => (d.ID, d.Device))
      = [("vol-a", "/dev/vda"), ("vol-d", ""), ("vol-e", "")] := by
  decide

/-- C17, amended. Every record returned for the server `S` is either the
record of a volume that the listing reports attached to `S`, or a non-bootable
record with an empty device for a volume of the listing that bears the ID of
a prior non-bootable record while no volume attached to `S` bears it. -/
theorem returned_records_origin {σ : Type} (c : Client σ) (serverID : String)
    (oldDisks : List DiskState) (configDisks : List Disk) (w w1 w3 : σ)
    (detail : ServerDetail) (vols : List DiskResult)
    (hd : c.GetServerDetail serverID w = (Except.ok detail, w1))
    (hv : c.GetProjectVolumes (GetProjectAddressesMap c w1).2 = (Except.ok vols, w3)) :
    ∃ d, (fetchNodeDetails c serverID oldDisks configDisks w).1 = Except.ok d ∧
      ∀ rec ∈ d.Disks,
        (∃ vol ∈ vols, ∃ att, vol.AttachedToServer = some att ∧ att.ID = serverID ∧
          rec.ID = vol.ID ∧ rec.Device = att.Device) ∨
        (rec.Device = "" ∧ rec.Bootable = false ∧
          (∃ old ∈ oldDisks, old.Bootable = false ∧ old.ID = rec.ID) ∧
          (∃ vol ∈ vols, vol.ID = rec.ID) ∧
          ∀ vol ∈ vols, ∀ att, vol.AttachedToServer = some att → att.ID = serverID →
            vol.ID ≠ rec.ID) := by
  obtain ⟨d, hfetch, hdisks⟩ :=
    fetchNodeDetails_disks c serverID oldDisks configDisks w w1 w3 detail vols hd hv
  refine ⟨d, hfetch, ?_⟩
  intro rec hrec
  rw [hdisks] at hrec
  rcases resolveDisks_mem serverID oldDisks configDisks _ vols rec hrec with
    ⟨vol, hvol, hsome⟩ | ⟨old, hold, hb, hid, hdev, hboot, _, _, _, _, _, hex, hnone⟩
  · obtain ⟨att, hatt, haid, h1, h2, _⟩ :=
      attachedDisk_some serverID oldDisks configDisks _ vol rec hsome
    exact Or.inl ⟨vol, hvol, att, hatt, haid, h1, h2⟩
  · refine Or.inr ⟨hdev, hboot, ⟨old, hold, hb, hid.symm⟩, hex, ?_⟩
    intro vol hvol att hatt haid hcontra
    obtain ⟨x, hx⟩ :=
      attachedDisk_of_attached serverID oldDisks configDisks (c.Now w3) vol att hatt haid
    obtain ⟨_, _, _, hxid, _⟩ := attachedDisk_some serverID oldDisks configDisks _ vol x hx
    exact hnone x (List.mem_filterMap.mpr ⟨vol, hvol, hx⟩) (by rw [hxid, hcontra, hid])

/-- In the critical-disk scenario both returned records are records of
volumes attached to `srv-a`. -/
theorem returned_records_origin_witness :
    criticalClient.GetServerDetail "srv-a" () = (Except.ok criticalDetail, ()) ∧
    criticalClient.GetProjectVolumes (GetProjectAddressesMap criticalClient ()).2
      = (Except.ok criticalVolumes, ()) ∧
    (fetchedDisks criticalClient "srv-a" [ownedDisk] [] ()).map (fun d => (d.ID, d.Device))
      = [("vol-a", "/dev/vda"), ("vol-d", "/dev/vdb")] ∧
    ∃ d, (fetchNodeDetails criticalClient "srv-a" [ownedDisk] [] ()).1 = Except.ok d ∧
      ∀ rec ∈ d.Disks, rec.Device = "" → ∃ vol ∈ criticalVolumes, vol.ID = rec.ID :=
  ⟨rfl, rfl, by decide,
   match returned_records_origin criticalClient "srv-a" [ownedDisk] [] () () ()
      criticalDetail criticalVolumes rfl rfl with
   | ⟨d, hd, h⟩ =>
     ⟨d, hd, fun rec hrec _ =>
       match h rec hrec with
       | Or.inl ⟨vol, hvol, _, _, _, hid, _⟩ => ⟨vol, hvol, hid.symm⟩
       | Or.inr ⟨_, _, _, hex, _⟩ => hex⟩⟩

theorem eq_of_id_eq (oldDisks : List DiskState) (hnd : (oldDisks.map (fun d => d.ID)).Nodup)
    (a b : DiskState) (ha : a ∈ oldDisks) (hb : b ∈ oldDisks) (h : a.ID = b.ID) : a = b :=
  List.inj_on_of_nodup_map hnd ha hb h

theorem criticalMap_contains (oldDisks : List DiskState) (o : DiskState) (ho : o ∈ oldDisks)
    (hc : o.Critical = true) : (criticalMap oldDisks).contains o.ID = true := by
  unfold criticalMap
  have hmem : o.ID ∈ (oldDisks.filter (fun d => d.Critical)).map (fun d => d.ID) :=
    List.mem_map.mpr ⟨o, List.mem_filter.mpr ⟨ho, hc⟩, rfl⟩
  simpa using hmem

/-- C18. For every prior-disk list with pairwise distinct volume IDs and every
project volume listing, each prior non-bootable record with `critical = true`
whose volume ID occurs in the listing has a record of that ID in the disk
list `fetchNodeDetails` returns, and every returned record of that ID has
`critical = true`. -/
theorem fetchNodeDetails_keeps_critical {σ : Type} (c : Client σ) (serverID : String)
    (oldDisks : List DiskState) (configDisks : List Disk) (w w1 w3 : σ)
    (detail : ServerDetail) (vols : List DiskResult)
    (hd : c.GetServerDetail serverID w = (Except.ok detail, w1))
    (hv : c.GetProjectVolumes (GetProjectAddressesMap c w1).2 = (Except.ok vols, w3))
    (hnd : (oldDisks.map (fun d => d.ID)).Nodup) :
    ∃ d, (fetchNodeDetails c serverID oldDisks configDisks w).1 = Except.ok d ∧
      ∀ o ∈ oldDisks, o.Bootable = false → o.Critical = true →
        (∃ vol ∈ vols, vol.ID = o.ID) →
        (∃ rec ∈ d.Disks, rec.ID = o.ID) ∧ ∀ rec ∈ d.Disks, rec.ID = o.ID → rec.Critical = true := by
  obtain ⟨d, hfetch, hdisks⟩ :=
    fetchNodeDetails_disks c serverID oldDisks configDisks w w1 w3 detail vols hd hv
  refine ⟨d, hfetch, ?_⟩
  intro o ho hb hc hex
  rw [hdisks]
  refine ⟨?_, ?_⟩
  · unfold resolveDisks
    dsimp only
    exact foldl_reach (detachedDiskStep vols (c.Now w3))
      (fun disks => ∃ rec ∈ disks, rec.ID = o.ID) oldDisks
      (fun old disks ⟨rec, hrec, hid⟩ =>
        ⟨rec, detachedDiskStep_mono vols _ disks old rec hrec, hid⟩)
      o ho (fun disks => detachedDiskStep_covers vols _ disks o hb hex) _
  · intro rec hrec hid
    rcases resolveDisks_mem serverID oldDisks configDisks _ vols rec hrec with
      ⟨vol, _, hsome⟩ | ⟨old, hold, _, hoid, _, _, _, _, _, hcrit, _⟩
    · obtain ⟨_, _, _, h1, _, _, _, _, h2, _⟩ :=
        attachedDisk_some serverID oldDisks configDisks _ vol rec hsome
      rw [h2, ← h1, hid]
      exact criticalMap_contains oldDisks o ho hc
    · have : old = o := eq_of_id_eq oldDisks hnd old o hold ho (by rw [← hoid, hid])
      rw [hcrit, this, hc]

/-- In the critical-disk scenario the critical data disk `vol-d` keeps its
flag. -/
theorem fetchNodeDetails_keeps_critical_witness :
    criticalClient.GetServerDetail "srv-a" () = (Except.ok criticalDetail, ()) ∧
    criticalClient.GetProjectVolumes (GetProjectAddressesMap criticalClient ()).2
      = (Except.ok criticalVolumes, ()) ∧
    ([ownedDisk].map (fun d => d.ID)).Nodup ∧
    ∃ d, (fetchNodeDetails criticalClient "srv-a" [ownedDisk] [] ()).1 = Except.ok d ∧
      (∃ rec ∈ d.Disks, rec.ID = ownedDisk.ID) ∧
      ∀ rec ∈ d.Disks, rec.ID = ownedDisk.ID → rec.Critical = true :=
  ⟨rfl, rfl, by decide,
   match fetchNodeDetails_keeps_critical criticalClient "srv-a" [ownedDisk] [] () () ()
      criticalDetail criticalVolumes rfl rfl (by decide) with
   | ⟨d, hd, h⟩ =>
     ⟨d, hd, h ownedDisk (List.mem_singleton_self _) rfl rfl
       ⟨_, List.mem_cons_of_mem _ (List.mem_singleton_self _), rfl⟩⟩⟩

/-! ## Lemmas on the persisted document -/

namespace JSON

theorem foldl_field (key : String) (l : List (String × JSON)) :
    ∀ acc : Option JSON,
      l.foldl (fun acc kv => if kv.1 = key then some kv.2 else acc) acc =
        (field l key).or acc := by
  induction l with
  | nil => intro acc; simp [field]
  | cons kv rest ih =>
    intro acc
    unfold field
    rw [List.foldl_cons, List.foldl_cons, ih, ih (if kv.1 = key then some kv.2 else none)]
    by_cases h : kv.1 = key
    · simp [h]
      cases field rest key <;> rfl
    · simp [h]

theorem field_append (l1 l2 : List (String × JSON)) (key : String) :
    field (l1 ++ l2) key = (field l2 key).or (field l1 key) := by
  unfold field
  rw [List.foldl_append, foldl_field]
  rfl

theorem field_nil (key : String) : field [] key = none := rfl

theorem field_cons (k : String) (v : JSON) (rest : List (String × JSON)) (key : String) :
    field ((k, v) :: rest) key = (field rest key).or (if k = key then some v else none) := by
  unfold field
  rw [List.foldl_cons, foldl_field]
  rfl

theorem field_optStr (k s key : String) :
    field (optStr k s) key = if k = key then (if s = "" then none else some (JSON.str s))
      else none := by
  unfold optStr
  by_cases hs : s = ""
  · simp [hs, field_nil]
  · by_cases hk : k = key
    · simp [hs, hk, field_cons, field_nil]
    · simp [hs, hk, field_cons, field_nil]

theorem field_optInt (k : String) (n : Int) (key : String) :
    field (optInt k n) key = if k = key then (if n = 0 then none else some (JSON.num n))
      else none := by
  unfold optInt
  by_cases hs : n = 0
  · simp [hs, field_nil]
  · by_cases hk : k = key
    · simp [hs, hk, field_cons, field_nil]
    · simp [hs, hk, field_cons, field_nil]

theorem field_optBool (k : String) (b : Bool) (key : String) :
    field (optBool k b) key = if k = key then (if b then some (JSON.bool true) else none)
      else none := by
  unfold optBool
  cases b
  · simp [field_nil]
  · by_cases hk : k = key
    · simp [hk, field_cons, field_nil]
    · simp [hk, field_cons, field_nil]

theorem field_optArr (k : String) (items : List JSON) (key : String) :
    field (optArr k items) key = if k = key then
      (match items with
       | [] => none
       | _ :: _ => some (JSON.arr items))
      else none := by
  unfold optArr
  cases items with
  | nil => simp [field_nil]
  | cons a rest =>
    by_cases hk : k = key
    · simp [hk, field_cons, field_nil]
    · simp [hk, field_cons, field_nil]

theorem getStr_opt (s : String) :
    getStr (if s = "" then none else some (JSON.str s)) = some s := by
  by_cases hs : s = ""
  · simp [hs, getStr]
  · simp [hs, getStr]

theorem getInt_opt (n : Int) :
    getInt (if n = 0 then none else some (JSON.num n)) = some n := by
  by_cases hs : n = 0
  · simp [hs, getInt]
  · simp [hs, getInt]

theorem getBool_opt (b : Bool) :
    getBool (if b then some (JSON.bool true) else none) = some b := by
  cases b <;> simp [getBool]

theorem getItems_map {α : Type} (decode : JSON → Option α) (encode : α → JSON)
    (l : List α) (h : ∀ a ∈ l, decode (encode a) = some a) :
    getItems decode (l.map encode) = some l := by
  induction l with
  | nil => rfl
  | cons a rest ih =>
    simp only [List.map_cons, getItems, h a (List.mem_cons_self _ _),
      ih (fun b hb => h b (List.mem_cons_of_mem _ hb))]

theorem getArr_opt {α : Type} (decode : JSON → Option α) (encode : α → JSON)
    (l : List α) (h : ∀ a ∈ l, decode (encode a) = some a) :
    getArr decode
      (match l.map encode with
       | [] => none
       | _ :: _ => some (JSON.arr (l.map encode))) = some l := by
  cases l with
  | nil => rfl
  | cons a rest =>
    simp only [List.map_cons, getArr]
    exact getItems_map decode encode (a :: rest) h

theorem set_append_new (m : GoMap String) (k v : String) (h : k ∉ GoMap.keys m) :
    GoMap.set m k v = m ++ [(k, v)] := by
  induction m with
  | nil => rfl
  | cons e rest ih =>
    obtain ⟨k0, v0⟩ := e
    have hne : k0 ≠ k := by
      intro h0
      exact h (by simp [GoMap.keys, h0])
    have hrest : k ∉ GoMap.keys rest := by
      intro h0
      exact h (by simp only [GoMap.keys, List.map_cons, List.mem_cons]; exact Or.inr h0)
    unfold GoMap.set
    simp only [hne, if_false, List.cons_append, ih hrest]

theorem getMembers_map (l : GoMap String) :
    ∀ m : GoMap String, (GoMap.keys l).Nodup → (∀ k ∈ GoMap.keys l, k ∉ GoMap.keys m) →
      getMembers (l.map (fun kv => (kv.1, JSON.str kv.2))) m = some (m ++ l) := by
  induction l with
  | nil => intro m _ _; simp [getMembers]
  | cons e rest ih =>
    intro m hnd hdis
    obtain ⟨k, v⟩ := e
    have hnd' : k ∉ GoMap.keys rest ∧ (GoMap.keys rest).Nodup := by
      simpa [GoMap.keys] using hnd
    have hk : k ∉ GoMap.keys m := hdis k (by simp [GoMap.keys])
    simp only [List.map_cons, getMembers, asStr]
    rw [set_append_new m k v hk, ih _ hnd'.2]
    · simp
    · intro k' hk' hmem
      simp only [GoMap.keys, List.map_append, List.map_cons, List.map_nil, List.mem_append,
        List.mem_singleton] at hmem
      rcases hmem with hmem | hmem
      · exact hdis k' (by simp only [GoMap.keys, List.map_cons, List.mem_cons]; exact Or.inr hk') hmem
      · exact hnd'.1 (hmem ▸ hk')

end JSON

theorem sortedEntries_sorted (m : GoMap String) : (sortedEntries m).Sorted keyLE :=
  List.sorted_insertionSort keyLE m

theorem sortedEntries_idem (m : GoMap String) : sortedEntries (sortedEntries m) = sortedEntries m :=
  List.Sorted.insertionSort_eq (sortedEntries_sorted m)

theorem sortedEntries_perm (m : GoMap String) : (sortedEntries m).Perm m :=
  List.perm_insertionSort keyLE m

theorem sortedEntries_keys_nodup (m : GoMap String) (h : (GoMap.keys m).Nodup) :
    (GoMap.keys (sortedEntries m)).Nodup :=
  ((sortedEntries_perm m).map Prod.fst).nodup_iff.mpr h

theorem sortedEntries_eq_nil (m : GoMap String) : sortedEntries m = [] ↔ m = [] := by
  constructor
  · intro h
    have := (sortedEntries_perm m).length_eq
    rw [h] at this
    exact List.length_eq_zero.mp this.symm
  · intro h
    rw [h]
    rfl

theorem encodeLabels_sorted (key : String) (m : GoMap String) :
    encodeLabels key (sortedEntries m) = encodeLabels key m := by
  cases hm : m with
  | nil => rfl
  | cons e rest =>
    have hne : sortedEntries (e :: rest) ≠ [] := by
      intro h
      exact absurd ((sortedEntries_eq_nil _).mp h) (by simp)
    cases hs : sortedEntries (e :: rest) with
    | nil => exact absurd hs hne
    | cons e' rest' =>
      have hidem := sortedEntries_idem (e :: rest)
      rw [hs] at hidem
      simp only [encodeLabels, hidem, hs]

theorem field_encodeLabels (k : String) (m : GoMap String) (key : String) :
    JSON.field (encodeLabels k m) key = if k = key then
      (match m with
       | [] => none
       | _ :: _ => some (JSON.obj ((sortedEntries m).map (fun kv => (kv.1, JSON.str kv.2)))))
      else none := by
  unfold encodeLabels
  cases m with
  | nil => simp [JSON.field_nil]
  | cons a rest =>
    by_cases hk : k = key
    · simp [hk, JSON.field_cons, JSON.field_nil]
    · simp [hk, JSON.field_cons, JSON.field_nil]

theorem JSON.getStr_str (s : String) : JSON.getStr (some (JSON.str s)) = some s := rfl

theorem JSON.getInt_num (n : Int) : JSON.getInt (some (JSON.num n)) = some n := rfl

theorem JSON.getBool_bool (b : Bool) : JSON.getBool (some (JSON.bool b)) = some b := rfl

theorem decode_encodeDiskState (d : DiskState) : decodeDiskState (encodeDiskState d) = some d := by
  unfold encodeDiskState decodeDiskState
  simp [JSON.field_append, JSON.field_cons, JSON.field_nil, JSON.field_optStr,
    JSON.field_optBool, JSON.getStr_opt, JSON.getBool_opt, JSON.getStr_str, JSON.getInt_num,
    JSON.getBool_bool]

theorem JSON.getItems_roundtrip {α : Type} (decode : JSON → Option α) (encode : α → JSON)
    (l : List α) (h : ∀ a ∈ l, ∃ a', decode (encode a) = some a' ∧ encode a' = encode a) :
    ∃ l', JSON.getItems decode (l.map encode) = some l' ∧ l'.map encode = l.map encode := by
  induction l with
  | nil => exact ⟨[], rfl, rfl⟩
  | cons a rest ih =>
    obtain ⟨a', ha, ha'⟩ := h a (List.mem_cons_self _ _)
    obtain ⟨l', hl, hl'⟩ := ih (fun b hb => h b (List.mem_cons_of_mem _ hb))
    refine ⟨a' :: l', ?_, ?_⟩
    · simp only [List.map_cons, JSON.getItems, ha, hl]
    · simp only [List.map_cons, ha', hl']

theorem field_encodeLabels_ne (k : String) (m : GoMap String) (key : String) (h : k ≠ key) :
    JSON.field (encodeLabels k m) key = none := by
  rw [field_encodeLabels, if_neg h]

theorem getMap_encodeLabels (k : String) (m : GoMap String) (h : (GoMap.keys m).Nodup) :
    JSON.getMap (JSON.field (encodeLabels k m) k) = some (sortedEntries m) := by
  rw [field_encodeLabels, if_pos rfl]
  cases m with
  | nil => rfl
  | cons a rest =>
    simp only [JSON.getMap]
    rw [JSON.getMembers_map _ [] (sortedEntries_keys_nodup _ h) (by simp [GoMap.keys])]
    simp

theorem decode_encodeNodeState (n : NodeState) (h : (GoMap.keys n.Labels).Nodup) :
    decodeNodeState (encodeNodeState n) = some { n with Labels := sortedEntries n.Labels } := by
  have htaints := JSON.getArr_opt JSON.asStr JSON.str n.Taints (fun _ _ => rfl)
  have hdisks := JSON.getArr_opt decodeDiskState encodeDiskState n.Disks
    (fun d _ => decode_encodeDiskState d)
  have hlabels := getMap_encodeLabels "labels" n.Labels h
  unfold encodeNodeState decodeNodeState
  simp [JSON.field_append, JSON.field_cons, JSON.field_nil, JSON.field_optStr,
    JSON.field_optInt, JSON.field_optArr, field_encodeLabels_ne, JSON.getStr_opt,
    JSON.getInt_opt, JSON.getStr_str, htaints, hdisks, hlabels]

theorem encodeNodeState_sorted (n : NodeState) :
    encodeNodeState { n with Labels := sortedEntries n.Labels } = encodeNodeState n := by
  unfold encodeNodeState
  simp only [encodeLabels_sorted]

theorem nodeState_roundtrip (n : NodeState) (h : (GoMap.keys n.Labels).Nodup) :
    ∃ n', decodeNodeState (encodeNodeState n) = some n' ∧
      encodeNodeState n' = encodeNodeState n :=
  ⟨_, decode_encodeNodeState n h, encodeNodeState_sorted n⟩

theorem clusterState_roundtrip (nilNodes : Bool) (s : ClusterState)
    (hmaps : ∀ n ∈ s.Nodes, (GoMap.keys n.Labels).Nodup) :
    ∃ s' nilNodes', decodeClusterState (encodeClusterState nilNodes s) = some (s', nilNodes') ∧
      encodeClusterState nilNodes' s' = encodeClusterState nilNodes s := by
  have hnodes : ∃ nodes' nilNodes',
      decodeNodes (some (encodeNodes nilNodes s.Nodes)) = some (nodes', nilNodes') ∧
      encodeNodes nilNodes' nodes' = encodeNodes nilNodes s.Nodes := by
    cases hN : s.Nodes with
    | nil =>
      cases nilNodes with
      | true => exact ⟨[], true, rfl, rfl⟩
      | false => exact ⟨[], false, rfl, rfl⟩
    | cons a rest =>
      obtain ⟨l', hl, hl'⟩ := JSON.getItems_roundtrip decodeNodeState encodeNodeState (a :: rest)
        (fun n hn => nodeState_roundtrip n (hmaps n (hN ▸ hn)))
      refine ⟨l', false, ?_, ?_⟩
      · simp only [encodeNodes, decodeNodes, hl]
      · cases l' with
        | nil => simp at hl'
        | cons b rest' => simp only [encodeNodes, hl']
  obtain ⟨nodes', nilNodes', hdec, henc⟩ := hnodes
  refine ⟨{ Version := s.Version, LastUpdated := s.LastUpdated, SSHUser := s.SSHUser,
            Nodes := nodes' }, nilNodes', ?_, ?_⟩
  · unfold encodeClusterState decodeClusterState
    simp [JSON.field_cons, JSON.field_nil, JSON.getStr_str, hdec]
  · unfold encodeClusterState
    simp only [henc]

/-- C19. For every `ClusterState` whose label maps are maps (distinct keys),
whether its empty node slice is nil or not: decoding the document `SaveState`
writes, with the decoder `LoadState` uses, and encoding the decoded value
again yields the same document, for any rendering of JSON values whose parser
reads back the documents of cluster states. -/
theorem saved_document_roundtrip {Doc : Type} (render : JSON → Doc) (parse : Doc → Option JSON)
    (hlib : ∀ nilNodes s, parse (render (encodeClusterState nilNodes s))
      = some (encodeClusterState nilNodes s))
    (nilNodes : Bool) (s : ClusterState)
    (hmaps : ∀ n ∈ s.Nodes, (GoMap.keys n.Labels).Nodup) :
    ∃ s' nilNodes',
      loadedDocument parse (savedDocument render nilNodes s) = some (s', nilNodes') ∧
      savedDocument render nilNodes' s' = savedDocument render nilNodes s := by
  obtain ⟨s', nilNodes', hdec, henc⟩ := clusterState_roundtrip nilNodes s hmaps
  refine ⟨s', nilNodes', ?_, ?_⟩
  · unfold loadedDocument savedDocument
    rw [hlib]
    exact hdec
  · unfold savedDocument
    rw [henc]

/-- The persisted state of the critical-disk scenario survives the round
trip. -/
theorem saved_document_roundtrip_witness :
    (∀ n ∈ (criticalState "srv-a").Nodes, (GoMap.keys n.Labels).Nodup) ∧
    ∃ s' nilNodes',
      loadedDocument (fun d : JSON => some d)
        (savedDocument (fun t : JSON => t) false (criticalState "srv-a")) = some (s', nilNodes') ∧
      savedDocument (fun t : JSON => t) nilNodes' s'
        = savedDocument (fun t : JSON => t) false (criticalState "srv-a") :=
  ⟨by decide,
   saved_document_roundtrip (fun t : JSON => t) (fun d : JSON => some d) (fun _ _ => rfl) false
     (criticalState "srv-a") (by decide)⟩

/-- C20, evaluated on the failing input. The object store cannot be reached:
`GetObject` hands out a handle and `Stat` fails on the connection, with a code
other than `NoSuchKey`.  `LoadState` returns the absent state without error,
whereas `ObjectExists` returns the error for the same failure. -/
theorem loadState_absent_when_unreachable :
    unreachableReply.Stat = some { Code := "", Message := "dial tcp: connection refused" } ∧
    LoadState unreachableReply = Except.ok none ∧
    ObjectExists unreachableReply.Stat = Except.error "dial tcp: connection refused" := by
  exact ⟨rfl, rfl, rfl⟩

/-! ## A state that cannot be read -/

/-- C21 (as the code behaves): an error of `LoadState` does not abort the run.
For every cloud, configuration and error the run is the very run of a store
that holds no state, and it saves whenever the configuration loads; in the
scenario of the one-slot configuration the run issues one `CreateServer`
request and saves a state of its own over the one it could not read. -/
theorem unreadable_state_is_overwritten :
    (∀ (σ : Type) (c : Client σ) (env : Env) (cfg : Except String Config) (e : String)
        (clusterName : String) (force : Bool) (manualPassword : String)
        (deleteFromCloud : Bool) (w : σ),
      handleClusterCreateFromCode c env cfg (some (Except.error e)) clusterName force
          manualPassword deleteFromCloud w
        = handleClusterCreateFromCode c env cfg (some (Except.ok none)) clusterName force
          manualPassword deleteFromCloud w) ∧
    (∀ (σ : Type) (c : Client σ) (env : Env) (cfg : Config) (e : String)
        (clusterName : String) (force : Bool) (manualPassword : String)
        (deleteFromCloud : Bool) (w : σ),
      (handleClusterCreateFromCode c env (Except.ok cfg) (some (Except.error e)) clusterName
          force manualPassword deleteFromCloud w).saved ≠ none) ∧
    (unreadableRun.provisionLog.filter Event.isCreateServer).length = 1 ∧
    unreadableRun.saved.map (fun s => s.Nodes.map (fun n => (n.Name, n.ID)))
      = some [("c1-master-2", "srv-b")] := by
  refine ⟨?_, ?_, by decide, by decide⟩
  · intro σ c env cfg e clusterName force manualPassword deleteFromCloud w
    cases cfg <;> rfl
  · intro σ c env cfg e clusterName force manualPassword deleteFromCloud w
    simp [handleClusterCreateFromCode, runPostActions]

/-! ## The matcher: sizes and the account of the specs -/

/-- C26 (counterexample): the prior record of `vol-1` has the spec's size 50,
the pool reports `vol-1` with size 100; step 1 selects `vol-1`, and the plan
reattaches it, although the size the pool reports is not the spec's. -/
theorem step_one_ignores_pool_size :
    matchOldDisk resizedSpec (availableVolumes resizedPool) resizedOld [] = ("vol-1", ["vol-1"]) ∧
    (matchDisks [resizedSpec] resizedOld (availableVolumes resizedPool)).disksToAttach
      = ["vol-1"] ∧
    (availableVolumes resizedPool).map (fun av => (av.ID, av.Size)) = [("vol-1", 100)] ∧
    resizedSpec.Size = 50 := by
  decide

/-- C26 (amended): when step 1 selects a volume for a spec, the selected ID is
the ID of a non-bootable prior record whose recorded size equals the spec's
size, and the ID of a volume of the pool that was not yet used; the size the
pool reports for that volume is not compared. -/
theorem step_one_matches_recorded_size (dConf : Disk) (avail : List DiskResult)
    (oldDisks : List DiskState) (used : List String)
    (hsel : (matchOldDisk dConf avail oldDisks used).1 ≠ "") :
    (∃ oldD ∈ oldDisks, oldD.ID = (matchOldDisk dConf avail oldDisks used).1 ∧
      oldD.Bootable = false ∧ oldD.Size = dConf.Size) ∧
    (∃ av ∈ avail, av.ID = (matchOldDisk dConf avail oldDisks used).1) ∧
    (matchOldDisk dConf avail oldDisks used).1 ∉ used := by
  induction oldDisks generalizing used with
  | nil => exact absurd rfl hsel
  | cons oldD rest ih =>
    unfold matchOldDisk at hsel ⊢
    by_cases hc : (oldD.Bootable || oldD.Size != dConf.Size) = true
    · rw [if_pos hc] at hsel ⊢
      obtain ⟨⟨d, hd, h1⟩, h2, h3⟩ := ih used hsel
      exact ⟨⟨d, List.mem_cons_of_mem _ hd, h1⟩, h2, h3⟩
    · rw [if_neg hc] at hsel ⊢
      have hc2 : oldD.Bootable = false ∧ oldD.Size = dConf.Size := by
        simpa using hc
      cases hfind : avail.find? (fun av => av.ID = oldD.ID && !(used.contains av.ID)) with
      | none =>
        simp only [hfind] at hsel ⊢
        obtain ⟨⟨d, hd, h1⟩, h2, h3⟩ := ih used hsel
        exact ⟨⟨d, List.mem_cons_of_mem _ hd, h1⟩, h2, h3⟩
      | some av =>
        simp only [hfind] at hsel ⊢
        have hmem := List.mem_of_find?_eq_some hfind
        have hp := List.find?_some hfind
        simp at hp
        by_cases hid : (av.ID != "") = true
        · rw [if_pos hid]
          exact ⟨⟨oldD, List.mem_cons_self _ _, hp.1.symm, hc2⟩, ⟨av, hmem, rfl⟩, hp.2⟩
        · rw [if_neg hid] at hsel ⊢
          obtain ⟨⟨d, hd, h1⟩, h2, h3⟩ := ih (av.ID :: used) hsel
          exact ⟨⟨d, List.mem_cons_of_mem _ hd, h1⟩, h2,
            fun h => h3 (List.mem_cons_of_mem _ h)⟩

/-- Step 1 on the scenario selects `vol-1`, whose recorded size is the spec's. -/
theorem step_one_matches_recorded_size_witness :
    (matchOldDisk resizedSpec (availableVolumes resizedPool) resizedOld []).1 ≠ "" ∧
    ((∃ oldD ∈ resizedOld,
        oldD.ID = (matchOldDisk resizedSpec (availableVolumes resizedPool) resizedOld []).1 ∧
        oldD.Bootable = false ∧ oldD.Size = resizedSpec.Size) ∧
      (∃ av ∈ availableVolumes resizedPool,
        av.ID = (matchOldDisk resizedSpec (availableVolumes resizedPool) resizedOld []).1) ∧
      (matchOldDisk resizedSpec (availableVolumes resizedPool) resizedOld []).1 ∉
        ([] : List String)) :=
  ⟨by decide, step_one_matches_recorded_size resizedSpec (availableVolumes resizedPool)
    resizedOld [] (by decide)⟩

theorem matchDiskStep_cases (oldDisks : List DiskState) (avail : List DiskResult)
    (plan : DiskPlan) (dConf : Disk) :
    (dConf.Bootable = true ∧
      (matchDiskStep oldDisks avail plan dConf).storagesPayload
        = plan.storagesPayload ++ [requestOf dConf] ∧
      (matchDiskStep oldDisks avail plan dConf).disksToAttach = plan.disksToAttach) ∨
    (dConf.Bootable = false ∧
      (matchDiskStep oldDisks avail plan dConf).storagesPayload
        = plan.storagesPayload ++ [requestOf dConf] ∧
      (matchDiskStep oldDisks avail plan dConf).disksToAttach = plan.disksToAttach) ∨
    (dConf.Bootable = false ∧
      (matchDiskStep oldDisks avail plan dConf).storagesPayload = plan.storagesPayload ∧
      ∃ id, (matchDiskStep oldDisks avail plan dConf).disksToAttach
        = plan.disksToAttach ++ [id]) := by
  unfold matchDiskStep
  by_cases hb : dConf.Bootable = true
  · rw [if_pos hb]
    exact Or.inl ⟨hb, by simp [requestOf, hb], rfl⟩
  · rw [if_neg hb]
    have hb2 : dConf.Bootable = false := by simpa using hb
    by_cases hf : ((findDisk dConf avail oldDisks plan.usedVolIDs).1 != "") = true
    · dsimp only
      rw [if_pos hf]
      exact Or.inr (Or.inr ⟨hb2, rfl, _, rfl⟩)
    · dsimp only
      rw [if_neg hf]
      exact Or.inr (Or.inl ⟨hb2, by simp [requestOf, hb2], rfl⟩)

theorem foldl_matchDiskStep_account (oldDisks : List DiskState) (avail : List DiskResult)
    (groupDisks : List Disk) :
    ∀ plan : DiskPlan,
      ((groupDisks.foldl (matchDiskStep oldDisks avail) plan).storagesPayload.filter
          (fun p => p.bootable)
        = plan.storagesPayload.filter (fun p => p.bootable) ++
          (groupDisks.filter (fun d => d.Bootable)).map requestOf) ∧
      (((groupDisks.foldl (matchDiskStep oldDisks avail) plan).storagesPayload.filter
          (fun p => !p.bootable)).length +
          (groupDisks.foldl (matchDiskStep oldDisks avail) plan).disksToAttach.length
        = (plan.storagesPayload.filter (fun p => !p.bootable)).length +
          plan.disksToAttach.length + (groupDisks.filter (fun d => !d.Bootable)).length) ∧
      ((groupDisks.foldl (matchDiskStep oldDisks avail) plan).storagesPayload.length +
          (groupDisks.foldl (matchDiskStep oldDisks avail) plan).disksToAttach.length
        = plan.storagesPayload.length + plan.disksToAttach.length + groupDisks.length) ∧
      (∀ p ∈ (groupDisks.foldl (matchDiskStep oldDisks avail) plan).storagesPayload,
        p ∈ plan.storagesPayload ∨ ∃ d ∈ groupDisks, p = requestOf d) := by
  induction groupDisks with
  | nil => intro plan; simp
  | cons dConf rest ih =>
    intro plan
    simp only [List.foldl_cons]
    obtain ⟨h1, h2, h3, h4⟩ := ih (matchDiskStep oldDisks avail plan dConf)
    rcases matchDiskStep_cases oldDisks avail plan dConf with
      ⟨hb, hs, ha⟩ | ⟨hb, hs, ha⟩ | ⟨hb, hs, id, ha⟩
    · refine ⟨?_, ?_, ?_, ?_⟩
      · rw [h1, hs]; simp [List.filter_cons, hb, requestOf]
      · rw [h2, hs, ha]; simp [List.filter_cons, hb, requestOf]
      · rw [h3, hs, ha]; simp; omega
      · intro p hp
        rcases h4 p hp with h | ⟨d, hd, h⟩
        · rw [hs] at h
          rcases List.mem_append.1 h with h | h
          · exact Or.inl h
          · exact Or.inr ⟨dConf, List.mem_cons_self _ _, by simpa using h⟩
        · exact Or.inr ⟨d, List.mem_cons_of_mem _ hd, h⟩
    · refine ⟨?_, ?_, ?_, ?_⟩
      · rw [h1, hs]; simp [List.filter_cons, hb, requestOf]
      · rw [h2, hs, ha]; simp [List.filter_cons, hb, requestOf]; omega
      · rw [h3, hs, ha]; simp; omega
      · intro p hp
        rcases h4 p hp with h | ⟨d, hd, h⟩
        · rw [hs] at h
          rcases List.mem_append.1 h with h | h
          · exact Or.inl h
          · exact Or.inr ⟨dConf, List.mem_cons_self _ _, by simpa using h⟩
        · exact Or.inr ⟨d, List.mem_cons_of_mem _ hd, h⟩
    · refine ⟨?_, ?_, ?_, ?_⟩
      · rw [h1, hs]; simp [List.filter_cons, hb]
      · rw [h2, hs, ha]; simp [List.filter_cons, hb]; omega
      · rw [h3, hs, ha]; simp; omega
      · intro p hp
        rcases h4 p hp with h | ⟨d, hd, h⟩
        · rw [hs] at h
          exact Or.inl h
        · exact Or.inr ⟨d, List.mem_cons_of_mem _ hd, h⟩

/-- C27. The plan of one attempt accounts for each configured spec exactly
once: its bootable requests are, in order, the requests of the bootable specs
(one each, of the spec's type and size); its non-bootable requests and its
reattached volumes together are as many as the non-bootable specs; requests
and reattached volumes together are as many as the specs; and every request is
the request of one of the specs, with that spec's bootable flag, type and
size. -/
theorem plan_accounts_for_each_spec (groupDisks : List Disk) (oldDisks : List DiskState)
    (avail : List DiskResult) :
    (matchDisks groupDisks oldDisks avail).storagesPayload.filter (fun p => p.bootable)
      = (groupDisks.filter (fun d => d.Bootable)).map requestOf ∧
    ((matchDisks groupDisks oldDisks avail).storagesPayload.filter
        (fun p => !p.bootable)).length +
        (matchDisks groupDisks oldDisks avail).disksToAttach.length
      = (groupDisks.filter (fun d => !d.Bootable)).length ∧
    (matchDisks groupDisks oldDisks avail).storagesPayload.length +
        (matchDisks groupDisks oldDisks avail).disksToAttach.length
      = groupDisks.length ∧
    (∀ p ∈ (matchDisks groupDisks oldDisks avail).storagesPayload,
      ∃ d ∈ groupDisks, p = requestOf d) := by
  obtain ⟨h1, h2, h3, h4⟩ := foldl_matchDiskStep_account oldDisks avail groupDisks
    { storagesPayload := [], disksToAttach := [], usedVolIDs := [] }
  refine ⟨?_, ?_, ?_, ?_⟩
  · simpa [matchDisks] using h1
  · simpa [matchDisks] using h2
  · simpa [matchDisks] using h3
  · intro p hp
    rcases h4 p hp with h | h
    · exact absurd h (List.not_mem_nil p)
    · exact h

/-! ## The cleanup of volumes -/

theorem criticalDisks_inner_mono (disks : List DiskState) (id : String) :
    ∀ m : List String, id ∈ m →
      id ∈ disks.foldl (fun m d => if d.Critical then d.ID :: m else m) m :=
  foldl_inv _ (fun m => id ∈ m) disks (fun d _ m hm => by
    by_cases hc : d.Critical = true
    · simp only [hc, if_true]; exact List.mem_cons_of_mem _ hm
    · simp only [hc]; exact hm)

theorem criticalDisks_mem (st : ClusterState) (n : NodeState) (hn : n ∈ st.Nodes)
    (d : DiskState) (hd : d ∈ n.Disks) (hc : d.Critical = true) :
    d.ID ∈ criticalDisks (some (Except.ok (some st))) := by
  unfold criticalDisks
  exact foldl_nested_reach (fun n : NodeState => n.Disks)
    (fun _ m d => if d.Critical then d.ID :: m else m) (fun m => d.ID ∈ m) st.Nodes
    (fun _ d' m hm => by
      by_cases hc' : d'.Critical = true
      · simp only [hc', if_true]; exact List.mem_cons_of_mem _ hm
      · simp only [hc']; exact hm)
    n hn d hd (fun m => by simp [hc]) []

theorem deleteVol_mem (critical : List String) (id x : String) (hx : x ∈ deleteVol critical id) :
    x = id ∧ x ∉ critical := by
  unfold deleteVol at hx
  by_cases hc : critical.contains id = true
  · rw [if_pos hc] at hx; exact absurd hx (List.not_mem_nil x)
  · rw [if_neg hc] at hx
    have hxid : x = id := by simpa using hx
    subst hxid
    exact ⟨rfl, fun h => hc (by simpa using h)⟩

theorem handleCleanDisks_calls (s3 : Option (Except String (Option ClusterState)))
    (list : Except String DiskListResponse) (trimSpace : String → String) (text : String)
    (x : String) (hx : x ∈ handleCleanDisks s3 list trimSpace text) :
    x ∉ criticalDisks s3 := by
  unfold handleCleanDisks at hx
  cases list with
  | error e => exact absurd hx (List.not_mem_nil x)
  | ok list =>
    dsimp only at hx
    by_cases h0 : list.Count = 0
    · rw [if_pos h0] at hx; exact absurd hx (List.not_mem_nil x)
    · rw [if_neg h0] at hx
      by_cases h1 : trimSpace text = ""
      · rw [if_pos h1] at hx; exact absurd hx (List.not_mem_nil x)
      · rw [if_neg h1] at hx
        by_cases h2 : trimSpace text = "DELETE-ALL"
        · rw [if_pos h2] at hx
          exact foldl_inv _ (fun calls => x ∈ calls → x ∉ criticalDisks s3) list.Result
            (fun d _ calls ih => by
              by_cases hb : d.Bootable = true
              · simp only [hb, Bool.not_true, Bool.false_eq_true, if_false]
                intro hm
                rcases List.mem_append.1 hm with hm | hm
                · exact ih hm
                · exact (deleteVol_mem _ _ _ hm).2
              · simp only [hb, Bool.not_false, if_true]
                exact ih) [] (fun h => absurd h (List.not_mem_nil x)) hx
        · rw [if_neg h2] at hx
          by_cases h3 : trimSpace text = "DELETE-FORCE"
          · rw [if_pos h3] at hx
            exact foldl_inv _ (fun calls => x ∈ calls → x ∉ criticalDisks s3) list.Result
              (fun d _ calls ih => by
                intro hm
                rcases List.mem_append.1 hm with hm | hm
                · exact ih hm
                · exact (deleteVol_mem _ _ _ hm).2) [] (fun h => absurd h (List.not_mem_nil x)) hx
          · rw [if_neg h3] at hx
            exact (deleteVol_mem _ _ _ hx).2

/-- C23. For every operator input (`DELETE-ALL`, `DELETE-FORCE`, a typed
volume ID, or anything else), every outcome of the volume listing and every
state that loads, `handleCleanDisks` passes to `DeleteVolume` no volume ID
that a disk record of that state marks critical. -/
theorem clean_disks_spares_critical (st : ClusterState)
    (list : Except String DiskListResponse) (trimSpace : String → String) (text : String) :
    ∀ id ∈ handleCleanDisks (some (Except.ok (some st))) list trimSpace text,
      ∀ n ∈ st.Nodes, ∀ d ∈ n.Disks, d.ID = id → d.Critical = false := by
  intro id hid n hn d hd hdid
  have hnot := handleCleanDisks_calls _ list trimSpace text id hid
  by_contra hc
  have hc2 : d.Critical = true := by simpa using hc
  exact hnot (hdid ▸ criticalDisks_mem st n hn d hd hc2)

/-- On the listing of `cleanState`, `DELETE-FORCE` deletes the boot volume,
whose record is not critical, and spares the critical one. -/
theorem clean_disks_spares_critical_witness :
    handleCleanDisks (some (Except.ok (some cleanState))) (Except.ok cleanListing)
        (fun s => s) "DELETE-FORCE" = ["vol-boot"] ∧
    cleanNode.Disks.map (fun d => (d.ID, d.Critical))
      = [("vol-boot", false), ("vol-crit", true)] ∧
    cleanBoot.Critical = false :=
  ⟨by decide, by decide,
   clean_disks_spares_critical cleanState (Except.ok cleanListing) (fun s => s)
    "DELETE-FORCE" "vol-boot" (by decide) cleanNode (by decide) cleanBoot (by decide) rfl⟩

/-! ## The reattachment of recorded disks -/

/-- C28 (as the code behaves): the state records the data disk `vol-crit` of
the server `srv-a`, and the cloud lists `vol-crit` with status `IN_USE` and no
`attached_to_server`.  Processing the disk reaches the `else` branch that
formats `volInfo.AttachedToServer.ID`, and the run ends in a nil-pointer
failure.  With an attachment to another server the same run completes without
a request. -/
theorem attach_disks_nil_dereference :
    handleAttachDisks (attachClient [listedVolume "IN_USE" none])
        (Except.ok (some cleanState)) () = Except.error nilDereference ∧
    ∃ r, handleAttachDisks
        (attachClient [listedVolume "IN_USE" (some { ID := "srv-z", Device := "/dev/vdc" })])
        (Except.ok (some cleanState)) () = Except.ok r ∧ r.log = [] ∧ r.saved = none :=
  ⟨rfl, _, rfl, rfl, rfl⟩

/-! ## The group of a node -/

theorem hasPrefix_iff (s pre : String) : hasPrefix s pre = true ↔ pre.data <+: s.data := by
  unfold hasPrefix
  exact List.isPrefixOf_iff_prefix

theorem nodeName_eq_groupPrefix (clusterName : String) (g : NodeGroup) (slot : Int) :
    (nodeName clusterName g.NamePrefix slot).data
      = (groupPrefix clusterName g).data ++ (formatInt slot).data := by
  simp [nodeName, groupPrefix, String.data_append]

theorem groupPrefix_data (clusterName : String) (g : NodeGroup) :
    (groupPrefix clusterName g).data
      = (clusterName ++ "-").data ++ (g.NamePrefix ++ "-").data := by
  simp [groupPrefix, String.data_append]

/-- C30 (counterexample): the groups `a` and `a-b`, in this order; the node
`c1-a-b-1` generated for the group `a-b` is matched to the group `a`, whose
`c1-a-` is a prefix of its name. -/
theorem hyphenated_prefix_matches_other_group :
    nodeName "c1" (namedGroup "a-b" "worker").NamePrefix 1 = "c1-a-b-1" ∧
    matchedGroup "c1" [namedGroup "a" "master", namedGroup "a-b" "worker"]
      (nodeName "c1" (namedGroup "a-b" "worker").NamePrefix 1)
      = some (namedGroup "a" "master") := by
  decide

/-- C30 (amended): in a configuration whose groups have pairwise distinct
name prefixes and in which no group's prefix followed by a hyphen is a prefix
of another group's prefix followed by a hyphen, the group `handlePermissions`
selects for the node name generated for a slot of group `g` is `g`. -/
theorem matchedGroup_recovers_group (clusterName : String) (groups : List NodeGroup)
    (g : NodeGroup) (slot : Int) (hg : g ∈ groups)
    (hdist : ∀ g1 ∈ groups, ∀ g2 ∈ groups, g1.NamePrefix = g2.NamePrefix → g1 = g2)
    (hsep : ∀ g1 ∈ groups, ∀ g2 ∈ groups, g1.NamePrefix ≠ g2.NamePrefix →
      hasPrefix (g2.NamePrefix ++ "-") (g1.NamePrefix ++ "-") = false) :
    matchedGroup clusterName groups (nodeName clusterName g.NamePrefix slot) = some g := by
  have hself : hasPrefix (nodeName clusterName g.NamePrefix slot) (groupPrefix clusterName g)
      = true := by
    rw [hasPrefix_iff, nodeName_eq_groupPrefix]
    exact List.prefix_append _ _
  unfold matchedGroup
  cases hfind : groups.find? (fun grp => hasPrefix (nodeName clusterName g.NamePrefix slot)
      (groupPrefix clusterName grp)) with
  | none =>
    have := List.find?_eq_none.1 hfind g hg
    exact absurd hself this
  | some g1 =>
    have hmem := List.mem_of_find?_eq_some hfind
    have hp := List.find?_some hfind
    rw [hasPrefix_iff, nodeName_eq_groupPrefix, groupPrefix_data, groupPrefix_data,
      List.append_assoc] at hp
    have hp1 : (g1.NamePrefix ++ "-").data <+:
        (g.NamePrefix ++ "-").data ++ (formatInt slot).data :=
      (List.prefix_append_right_inj _).1 hp
    have hp2 : (g.NamePrefix ++ "-").data <+:
        (g.NamePrefix ++ "-").data ++ (formatInt slot).data := List.prefix_append _ _
    have heq : g1.NamePrefix = g.NamePrefix := by
      by_contra hne
      rcases List.prefix_or_prefix_of_prefix hp1 hp2 with h | h
      · have := hsep g1 hmem g hg hne
        rw [← Bool.not_eq_true, hasPrefix_iff] at this
        exact this h
      · have := hsep g hg g1 hmem (fun h' => hne h'.symm)
        rw [← Bool.not_eq_true, hasPrefix_iff] at this
        exact this h
    rw [hdist g1 hmem g hg heq]

/-- The groups `master` and `worker`: the node `c1-worker-1` is matched to
`worker`. -/
theorem matchedGroup_recovers_group_witness :
    matchedGroup "c1" [namedGroup "master" "master", namedGroup "worker" "worker"]
      (nodeName "c1" (namedGroup "worker" "worker").NamePrefix 1)
      = some (namedGroup "worker" "worker") :=
  matchedGroup_recovers_group "c1" [namedGroup "master" "master", namedGroup "worker" "worker"]
    (namedGroup "worker" "worker") 1 (by decide) (by decide) (by decide)

/-! ## The order of the inventory -/

theorem insertBack_perm {α : Type} (less : α → α → Bool) (x : α) (l : List α) :
    (insertBack less x l).Perm (x :: l) := by
  induction l with
  | nil => exact List.Perm.refl _
  | cons y rest ih =>
    unfold insertBack
    by_cases h : less x y = true
    · rw [if_pos h]
      exact (List.Perm.cons y ih).trans (List.Perm.swap x y rest)
    · rw [if_neg h]

theorem insertionSort_perm {α : Type} (less : α → α → Bool) (l : List α) :
    (insertionSort less l).Perm l := by
  have h : ∀ acc : List α,
      (l.foldl (fun sortedRev x => insertBack less x sortedRev) acc).Perm (l ++ acc) := by
    induction l with
    | nil => intro acc; exact List.Perm.refl _
    | cons a rest ih =>
      intro acc
      simp only [List.foldl_cons]
      refine (ih _).trans ?_
      refine (List.Perm.append_left rest (insertBack_perm less a acc)).trans ?_
      exact List.perm_middle
  unfold insertionSort
  refine (List.reverse_perm _).trans ?_
  simpa using h []

theorem insertBack_sorted {α : Type} (less : α → α → Bool)
    (hirr : ∀ a, less a a = false)
    (htrans : ∀ a b c, less a b = true → less b c = true → less a c = true)
    (hneg : ∀ a b c, less a b = false → less b c = false → less a c = false)
    (x : α) (l : List α) (hs : l.Pairwise (fun a b => less a b = false)) :
    (insertBack less x l).Pairwise (fun a b => less a b = false) := by
  induction l with
  | nil => simp [insertBack]
  | cons y rest ih =>
    rw [List.pairwise_cons] at hs
    unfold insertBack
    by_cases h : less x y = true
    · rw [if_pos h, List.pairwise_cons]
      refine ⟨?_, ih hs.2⟩
      intro b hb
      rcases List.mem_cons.1 ((insertBack_perm less x rest).subset hb) with hb | hb
      · rw [hb]
        cases hyx : less y x with
        | false => rfl
        | true => exact absurd (htrans x y x h hyx) (by rw [hirr x]; simp)
      · exact hs.1 b hb
    · rw [if_neg h]
      have hxy : less x y = false := by simpa using h
      rw [List.pairwise_cons]
      refine ⟨?_, List.pairwise_cons.2 hs⟩
      intro b hb
      rcases List.mem_cons.1 hb with hb | hb
      · rw [hb]; exact hxy
      · exact hneg x y b hxy (hs.1 b hb)

theorem insertionSort_sorted {α : Type} (less : α → α → Bool)
    (hirr : ∀ a, less a a = false)
    (htrans : ∀ a b c, less a b = true → less b c = true → less a c = true)
    (hneg : ∀ a b c, less a b = false → less b c = false → less a c = false)
    (l : List α) :
    (insertionSort less l).Pairwise (fun a b => less b a = false) := by
  have h : ∀ acc : List α, acc.Pairwise (fun a b => less a b = false) →
      (l.foldl (fun sortedRev x => insertBack less x sortedRev) acc).Pairwise
        (fun a b => less a b = false) := by
    induction l with
    | nil => intro acc hs; exact hs
    | cons a rest ih =>
      intro acc hs
      simp only [List.foldl_cons]
      exact ih _ (insertBack_sorted less hirr htrans hneg a acc hs)
  unfold insertionSort
  rw [List.pairwise_reverse]
  exact h [] List.Pairwise.nil

/-- Insertion sort meets the contract of `sort.Slice`. -/
theorem insertionSort_sorts : SortsSlices insertionSort :=
  fun less l hirr htrans hneg =>
    ⟨insertionSort_perm less l, insertionSort_sorted less hirr htrans hneg l⟩

theorem inventoryLess_eq (sinkNode : String) (a b : NodeResult) :
    inventoryLess sinkNode a b =
      (if a.Name = sinkNode then false
       else if b.Name = sinkNode then true else decide (a.Name < b.Name)) := by
  have h : (a.Name.data < b.Name.data) ↔ a.Name < b.Name := String.lt_iff_toList_lt.symm
  unfold inventoryLess
  rw [decide_eq_decide.2 h]

theorem inventoryLess_empty (a b : NodeResult) (ha : a.Name ≠ "") (hb : b.Name ≠ "") :
    inventoryLess "" a b = decide (a.Name < b.Name) := by
  rw [inventoryLess_eq, if_neg ha, if_neg hb]

/-- The `less` function of the inventory is a strict weak ordering, whatever
the sink name. -/
theorem inventoryLess_strict_weak (sinkNode : String) :
    (∀ a, inventoryLess sinkNode a a = false) ∧
    (∀ a b c, inventoryLess sinkNode a b = true → inventoryLess sinkNode b c = true →
      inventoryLess sinkNode a c = true) ∧
    (∀ a b c, inventoryLess sinkNode a b = false → inventoryLess sinkNode b c = false →
      inventoryLess sinkNode a c = false) := by
  refine ⟨?_, ?_, ?_⟩
  · intro a
    rw [inventoryLess_eq]
    by_cases ha : a.Name = sinkNode <;> simp [ha]
  · intro a b c
    simp only [inventoryLess_eq]
    by_cases ha : a.Name = sinkNode <;> by_cases hb : b.Name = sinkNode <;>
      by_cases hc : c.Name = sinkNode <;> simp [ha, hb, hc]
    exact fun h1 h2 => lt_trans h1 h2
  · intro a b c
    simp only [inventoryLess_eq]
    by_cases ha : a.Name = sinkNode <;> by_cases hb : b.Name = sinkNode <;>
      by_cases hc : c.Name = sinkNode <;> simp [ha, hb, hc]
    exact fun h1 h2 => le_trans h2 h1

/-- C24. For every sorting function that meets the contract of `sort.Slice`
and every node list with non-empty names, the sequence in which
`saveToAnsibleInventory` with an empty sink name renders the nodes is a
permutation of its input in which every node's name is at most the name of
every node after it. -/
theorem inventory_sorted_by_name
    (sortSlice : (NodeResult → NodeResult → Bool) → List NodeResult → List NodeResult)
    (hsort : SortsSlices sortSlice) (nodes : List NodeResult)
    (hne : ∀ n ∈ nodes, n.Name ≠ "") :
    (saveToAnsibleInventory sortSlice nodes "").Perm nodes ∧
    (saveToAnsibleInventory sortSlice nodes "").Pairwise (fun a b => a.Name ≤ b.Name) := by
  obtain ⟨hirr, htrans, hneg⟩ := inventoryLess_strict_weak ""
  obtain ⟨hperm, hsorted⟩ := hsort (inventoryLess "") nodes hirr htrans hneg
  refine ⟨hperm, ?_⟩
  unfold saveToAnsibleInventory
  refine List.Pairwise.imp_of_mem ?_ hsorted
  intro a b ha hb hless
  have hna := hne a (hperm.subset ha)
  have hnb := hne b (hperm.subset hb)
  rw [inventoryLess_empty b a hnb hna] at hless
  exact not_lt.1 (by simpa using hless)

/-- Three nodes given in the order of arrival `c1-master-2`, `c1-worker-1`,
`c1-master-1` and sorted by insertion are rendered in the order of their
names. -/
theorem inventory_sorted_by_name_witness :
    (saveToAnsibleInventory insertionSort [namedNode "c1-master-2" "b",
        namedNode "c1-worker-1" "c", namedNode "c1-master-1" "a"] "").map (fun n => n.Name)
      = ["c1-master-1", "c1-master-2", "c1-worker-1"] ∧
    (saveToAnsibleInventory insertionSort [namedNode "c1-master-2" "b",
        namedNode "c1-worker-1" "c", namedNode "c1-master-1" "a"] "").Perm
      [namedNode "c1-master-2" "b", namedNode "c1-worker-1" "c", namedNode "c1-master-1" "a"] :=
  ⟨by decide,
   (inventory_sorted_by_name insertionSort insertionSort_sorts [namedNode "c1-master-2" "b",
      namedNode "c1-worker-1" "c", namedNode "c1-master-1" "a"] (by decide)).1⟩

/-! ## The bound on concurrent workers -/

theorem countP_set_of_getElem? {α : Type} (p : α → Bool) :
    ∀ (l : List α) (i : Nat) (a b : α), l[i]? = some b →
      (l.set i a).countP p + (if p b then 1 else 0) = l.countP p + (if p a then 1 else 0) := by
  intro l
  induction l with
  | nil => intro i a b h; simp at h
  | cons x rest ih =>
    intro i a b h
    cases i with
    | zero =>
      simp only [List.getElem?_cons_zero, Option.some.injEq] at h
      subst h
      simp only [List.set_cons_zero, List.countP_cons]
      omega
    | succ j =>
      simp only [List.getElem?_cons_succ] at h
      have := ih j a b h
      simp only [List.set_cons_succ, List.countP_cons]
      omega

theorem workerStep_inv (cap : Nat) (s : Pool) (i : Nat)
    (h : s.phases.countP Phase.holding = s.sem ∧ s.sem ≤ cap) :
    (workerStep cap s i).phases.countP Phase.holding = (workerStep cap s i).sem ∧
      (workerStep cap s i).sem ≤ cap := by
  unfold workerStep
  cases hget : s.phases[i]? with
  | none => exact h
  | some ph =>
    have hset := fun a => countP_set_of_getElem? Phase.holding s.phases i a ph hget
    cases ph with
    | waiting =>
      by_cases hc : s.sem < cap
      · simp only [hc, if_true]
        have := hset Phase.acquired
        simp only [Phase.holding] at this
        constructor
        · simp at this; omega
        · omega
      · simp only [hc, if_false]; exact h
    | acquired =>
      have := hset Phase.running
      simp only [Phase.holding] at this
      dsimp only
      exact ⟨by simp at this; omega, h.2⟩
    | running =>
      have := hset Phase.returned
      simp only [Phase.holding] at this
      dsimp only
      exact ⟨by simp at this; omega, h.2⟩
    | returned =>
      by_cases hc : 0 < s.sem
      · simp only [hc, if_true]
        have := hset Phase.finished
        simp only [Phase.holding] at this
        constructor
        · simp at this; omega
        · omega
      · simp only [hc, if_false]; exact h
    | finished => exact h

theorem runningCount_le_holding (s : Pool) :
    s.runningCount ≤ s.phases.countP Phase.holding := by
  unfold Pool.runningCount
  apply List.countP_mono_left
  intro p _ hp
  have : p = Phase.running := by simpa using hp
  subst this
  rfl

/-- C25. For every number of queued nodes and every interleaving of the steps
of the provisioning goroutines, the number of invocations of `createNodeAsync`
that are running never exceeds 5, the capacity of the semaphore.  With 12
queued nodes five invocations do run at once, and a sixth goroutine stays
before its send until one of them has released the semaphore. -/
theorem at_most_five_workers_running :
    (∀ (n : Nat) (schedule : List Nat),
      (runSchedule maxConcurrency (startPool n) schedule).runningCount ≤ 5) ∧
    (runSchedule maxConcurrency (startPool 12) [0, 0, 1, 1, 2, 2, 3, 3, 4, 4, 5, 5]).runningCount
      = 5 ∧
    (runSchedule maxConcurrency (startPool 12)
      [0, 0, 1, 1, 2, 2, 3, 3, 4, 4, 5, 5]).phases[5]? = some Phase.waiting ∧
    (runSchedule maxConcurrency (startPool 12)
      [0, 0, 1, 1, 2, 2, 3, 3, 4, 4, 5, 0, 0, 5, 5]).phases[5]? = some Phase.running := by
  refine ⟨?_, by decide, by decide, by decide⟩
  intro n schedule
  have hinv : (runSchedule maxConcurrency (startPool n) schedule).phases.countP Phase.holding
        = (runSchedule maxConcurrency (startPool n) schedule).sem ∧
      (runSchedule maxConcurrency (startPool n) schedule).sem ≤ maxConcurrency := by
    unfold runSchedule
    refine foldl_inv (workerStep maxConcurrency)
      (fun s => s.phases.countP Phase.holding = s.sem ∧ s.sem ≤ maxConcurrency) schedule
      (fun i _ s hs => workerStep_inv maxConcurrency s i hs) (startPool n) ?_
    constructor
    · simp [startPool, List.countP_replicate, Phase.holding]
    · exact Nat.zero_le _
  have := runningCount_le_holding (runSchedule maxConcurrency (startPool n) schedule)
  have h5 : maxConcurrency = 5 := rfl
  omega

/-! ## The mount points of attached volumes -/

/-- C29 (counterexample): the configured specs have the pairwise distinct
mount points `/data1`, `/data2` and `/data3`, there is no prior record, and
the two volumes attached to `srv-a` have distinct IDs and device paths and
the same size 50: both returned records have the mount point `/data1`. -/
theorem same_size_volumes_share_mount_point :
    twinConfig.map (fun cd => cd.MountPoint) = ["/data1", "/data2", "/data3"] ∧
    (twinVolumes 50 50).map (fun v => (v.ID, v.Size, v.Bootable,
        v.AttachedToServer.map (fun att => att.Device)))
      = [("vol-1", 50, false, some "/dev/vdb"), ("vol-2", 50, false, some "/dev/vdc")] ∧
    (fetchedDisks (twinClient 50 50) "srv-a" [] twinConfig ()).map
        (fun d => (d.ID, d.Bootable, d.MountPoint))
      = [("vol-1", false, "/data1"), ("vol-2", false, "/data1")] := by
  decide

theorem attachedDisk_config_mount (serverID : String) (oldDisks : List DiskState)
    (configDisks : List Disk) (now : String) (vol : DiskResult) (d : DiskState)
    (h : attachedDisk serverID oldDisks configDisks now vol = some d)
    (hb : vol.Bootable = false) (ho : oldMountPoint oldDisks vol.ID = "")
    (hc : configMountPoint configDisks vol.Size ≠ "") :
    d.MountPoint = configMountPoint configDisks vol.Size ∧ d.ID = vol.ID ∧
      d.Bootable = false := by
  unfold attachedDisk at h
  cases hatt : vol.AttachedToServer with
  | none => simp [hatt] at h
  | some att =>
    simp only [hatt] at h
    by_cases hid : att.ID = serverID
    · simp only [hid, if_true, Option.some.injEq] at h
      subst h
      simp [ho, hb, hc]
    · simp [hid] at h

theorem configMountPoint_spec (configDisks : List Disk) (size : Int)
    (hc : configMountPoint configDisks size ≠ "") :
    ∃ cd ∈ configDisks, cd.MountPoint = configMountPoint configDisks size ∧
      cd.MountPoint ≠ "" ∧ cd.Size = size := by
  unfold configMountPoint at hc ⊢
  cases hfind : configDisks.find?
      (fun cd => !cd.Bootable && cd.MountPoint != "" && cd.Size = size) with
  | none => rw [hfind] at hc; exact absurd rfl hc
  | some cd =>
    have hp := List.find?_some hfind
    simp at hp
    exact ⟨cd, List.mem_of_find?_eq_some hfind, rfl, hp.1.2, hp.2⟩

/-- C29 (amended): `fetchNodeDetails` takes the configured mount point by
size.  Given configured specs whose non-empty mount points are pairwise
distinct, two volumes attached to the server, both non-bootable, without a
prior mount point and of a size for which a mount point is configured, have
records in the returned list that bear the mount point configured for their
size; the two mount points are equal exactly when the two sizes are equal. -/
theorem config_mount_point_by_size {σ : Type} (c : Client σ) (serverID : String)
    (oldDisks : List DiskState) (configDisks : List Disk) (w w1 w3 : σ)
    (detail : ServerDetail) (vols : List DiskResult)
    (hd : c.GetServerDetail serverID w = (Except.ok detail, w1))
    (hv : c.GetProjectVolumes (GetProjectAddressesMap c w1).2 = (Except.ok vols, w3))
    (hnd : ((configDisks.filter (fun cd => cd.MountPoint != "")).map
      (fun cd => cd.MountPoint)).Nodup)
    (v1 v2 : DiskResult) (hv1 : v1 ∈ vols) (hv2 : v2 ∈ vols)
    (att1 att2 : VolumeAttachment)
    (ha1 : v1.AttachedToServer = some att1) (hs1 : att1.ID = serverID)
    (ha2 : v2.AttachedToServer = some att2) (hs2 : att2.ID = serverID)
    (hb1 : v1.Bootable = false) (hb2 : v2.Bootable = false)
    (ho1 : oldMountPoint oldDisks v1.ID = "") (ho2 : oldMountPoint oldDisks v2.ID = "")
    (hc1 : configMountPoint configDisks v1.Size ≠ "")
    (hc2 : configMountPoint configDisks v2.Size ≠ "") :
    ∃ d, (fetchNodeDetails c serverID oldDisks configDisks w).1 = Except.ok d ∧
      ∃ r1 ∈ d.Disks, ∃ r2 ∈ d.Disks,
        r1.ID = v1.ID ∧ r2.ID = v2.ID ∧ r1.Bootable = false ∧ r2.Bootable = false ∧
        r1.MountPoint = configMountPoint configDisks v1.Size ∧
        r2.MountPoint = configMountPoint configDisks v2.Size ∧
        (r1.MountPoint = r2.MountPoint ↔ v1.Size = v2.Size) := by
  obtain ⟨d, hfd, hdisks⟩ :=
    fetchNodeDetails_disks c serverID oldDisks configDisks w w1 w3 detail vols hd hv
  obtain ⟨r1, hr1⟩ :=
    attachedDisk_of_attached serverID oldDisks configDisks (c.Now w3) v1 att1 ha1 hs1
  obtain ⟨r2, hr2⟩ :=
    attachedDisk_of_attached serverID oldDisks configDisks (c.Now w3) v2 att2 ha2 hs2
  obtain ⟨hm1, hi1, hbt1⟩ :=
    attachedDisk_config_mount serverID oldDisks configDisks _ v1 r1 hr1 hb1 ho1 hc1
  obtain ⟨hm2, hi2, hbt2⟩ :=
    attachedDisk_config_mount serverID oldDisks configDisks _ v2 r2 hr2 hb2 ho2 hc2
  refine ⟨d, hfd, r1, ?_, r2, ?_, hi1, hi2, hbt1, hbt2, hm1, hm2, ?_⟩
  · rw [hdisks]
    exact resolveDisks_attached serverID oldDisks configDisks _ vols v1 r1 hv1 hr1
  · rw [hdisks]
    exact resolveDisks_attached serverID oldDisks configDisks _ vols v2 r2 hv2 hr2
  · rw [hm1, hm2]
    constructor
    · intro heq
      obtain ⟨cd1, hcd1, hcm1, hne1, hsz1⟩ := configMountPoint_spec configDisks v1.Size hc1
      obtain ⟨cd2, hcd2, hcm2, hne2, hsz2⟩ := configMountPoint_spec configDisks v2.Size hc2
      have hf1 : cd1 ∈ configDisks.filter (fun cd => cd.MountPoint != "") :=
        List.mem_filter.mpr ⟨hcd1, by simpa using hne1⟩
      have hf2 : cd2 ∈ configDisks.filter (fun cd => cd.MountPoint != "") :=
        List.mem_filter.mpr ⟨hcd2, by simpa using hne2⟩
      have hcd : cd1 = cd2 :=
        List.inj_on_of_nodup_map hnd hf1 hf2 (by rw [hcm1, hcm2, heq])
      rw [← hsz1, ← hsz2, hcd]
    · intro heq
      rw [heq]

/-- Volumes of the sizes 50 and 100 receive the distinct mount points
`/data1` and `/data3`. -/
theorem config_mount_point_by_size_witness :
    (fetchedDisks (twinClient 50 100) "srv-a" [] twinConfig ()).map
        (fun d => (d.ID, d.MountPoint))
      = [("vol-1", "/data1"), ("vol-2", "/data3")] ∧
    ∃ d, (fetchNodeDetails (twinClient 50 100) "srv-a" [] twinConfig ()).1 = Except.ok d ∧
      ∃ r1 ∈ d.Disks, ∃ r2 ∈ d.Disks, r1.ID = "vol-1" ∧ r2.ID = "vol-2" ∧
        ¬ (r1.MountPoint = r2.MountPoint) :=
  ⟨by decide,
   match config_mount_point_by_size (twinClient 50 100) "srv-a" [] twinConfig () () ()
      criticalDetail (twinVolumes 50 100) rfl rfl (by decide)
      { ID := "vol-1", Name := "data-1", Size := 50, Status := "IN_USE", Typ := "storage",
        Bootable := false, Created := "t0",
        AttachedToServer := some { ID := "srv-a", Device := "/dev/vdb" } }
      { ID := "vol-2", Name := "data-2", Size := 100, Status := "IN_USE", Typ := "storage",
        Bootable := false, Created := "t0",
        AttachedToServer := some { ID := "srv-a", Device := "/dev/vdc" } }
      (by decide) (by decide) { ID := "srv-a", Device := "/dev/vdb" }
      { ID := "srv-a", Device := "/dev/vdc" } rfl rfl rfl rfl rfl rfl
      (by decide) (by decide) (by decide) (by decide) with
   | ⟨d, hd, r1, hr1, r2, hr2, hi1, hi2, _, _, _, _, hiff⟩ =>
     ⟨d, hd, r1, hr1, r2, hr2, hi1, hi2, fun h => absurd (hiff.1 h) (by decide)⟩⟩

/-! ## The resolver applied to its own result -/

theorem attachedDisk_id (serverID : String) (oldDisks : List DiskState)
    (configDisks : List Disk) (now : String) (vol : DiskResult) (d : DiskState)
    (h : attachedDisk serverID oldDisks configDisks now vol = some d) : d.ID = vol.ID := by
  obtain ⟨_, _, _, hid, _⟩ := attachedDisk_some serverID oldDisks configDisks now vol d h
  exact hid

theorem filterMap_ids_sublist (f : DiskResult → Option DiskState)
    (hf : ∀ vol d, f vol = some d → d.ID = vol.ID) (vols : List DiskResult) :
    ((vols.filterMap f).map (fun d => d.ID)).Sublist (vols.map (fun v => v.ID)) := by
  induction vols with
  | nil => simp
  | cons v rest ih =>
    cases hv : f v with
    | none =>
      rw [List.filterMap_cons_none hv]
      exact List.Sublist.cons _ ih
    | some d =>
      rw [List.filterMap_cons_some hv]
      simp only [List.map_cons]
      rw [hf v d hv]
      exact List.Sublist.cons₂ _ ih

theorem attached_ids_nodup (serverID : String) (oldDisks : List DiskState)
    (configDisks : List Disk) (now : String) (vols : List DiskResult)
    (hnd : (vols.map (fun v => v.ID)).Nodup) :
    ((vols.filterMap (attachedDisk serverID oldDisks configDisks now)).map
      (fun d => d.ID)).Nodup :=
  List.Nodup.sublist
    (filterMap_ids_sublist _ (attachedDisk_id serverID oldDisks configDisks now) vols) hnd

theorem detachedDiskStep_shape (vols : List DiskResult) (now : String) (A : List DiskState)
    (disks : List DiskState) (old : DiskState)
    (h : ∃ X, disks = A ++ X ∧ (∀ x ∈ X, DetachedRecord vols x) ∧
      (disks.map (fun d => d.ID)).Nodup) :
    ∃ X, detachedDiskStep vols now disks old = A ++ X ∧ (∀ x ∈ X, DetachedRecord vols x) ∧
      ((detachedDiskStep vols now disks old).map (fun d => d.ID)).Nodup := by
  obtain ⟨X, hX, hdet, hnd⟩ := h
  unfold detachedDiskStep
  by_cases hb : old.Bootable = true
  · rw [if_pos hb]; exact ⟨X, hX, hdet, hnd⟩
  · rw [if_neg hb]
    by_cases hany : disks.any (fun d => d.ID = old.ID) = true
    · rw [if_pos hany]; exact ⟨X, hX, hdet, hnd⟩
    · rw [if_neg hany]
      have hall : ∀ x ∈ disks, x.ID ≠ old.ID := by simpa using hany
      cases hfind : vols.find? (fun vol => vol.ID = old.ID) with
      | none => exact ⟨X, hX, hdet, hnd⟩
      | some vol =>
        have hp := List.find?_some hfind
        have hvid : vol.ID = old.ID := by simpa using hp
        dsimp only
        refine ⟨X ++ [?r], ?_, ?_, ?_⟩
        case r =>
          exact { ID := vol.ID, Size := vol.Size, Typ := vol.Typ, Bootable := false,
                  Device := "", MountPoint := old.MountPoint, Owner := "", Group := "",
                  Mode := "", Critical := old.Critical, Created := vol.Created,
                  Updated := now }
        · rw [hX, List.append_assoc]
        · intro x hx
          rcases List.mem_append.1 hx with hx | hx
          · exact hdet x hx
          · have hx' := List.mem_singleton.1 hx
            subst hx'
            refine ⟨vol, ?_, rfl, rfl, rfl, rfl, rfl, rfl, rfl, rfl⟩
            dsimp only
            rw [hvid]
            exact hfind
        · rw [List.map_append, List.nodup_append]
          refine ⟨hnd, by simp, ?_⟩
          intro a ha hb'
          simp only [List.map_cons, List.map_nil, List.mem_singleton] at hb'
          obtain ⟨x, hx, hxa⟩ := List.mem_map.1 ha
          exact hall x hx (by rw [hxa, hb', hvid])

theorem resolveDisks_shape (serverID : String) (oldDisks : List DiskState)
    (configDisks : List Disk) (now : String) (vols : List DiskResult)
    (hnd : (vols.map (fun v => v.ID)).Nodup) :
    ∃ X, resolveDisks serverID oldDisks configDisks now (some vols)
        = vols.filterMap (attachedDisk serverID oldDisks configDisks now) ++ X ∧
      (∀ x ∈ X, DetachedRecord vols x) ∧
      ((resolveDisks serverID oldDisks configDisks now (some vols)).map
        (fun d => d.ID)).Nodup := by
  unfold resolveDisks
  dsimp only
  exact foldl_inv (detachedDiskStep vols now)
    (fun disks => ∃ X,
      disks = vols.filterMap (attachedDisk serverID oldDisks configDisks now) ++ X ∧
      (∀ x ∈ X, DetachedRecord vols x) ∧ (disks.map (fun d => d.ID)).Nodup)
    oldDisks (fun old _ disks h => detachedDiskStep_shape vols now _ disks old h) _
    ⟨[], by simp, by simp, attached_ids_nodup serverID oldDisks configDisks now vols hnd⟩

theorem mountPoint_fixed (m dflt : String) (b : Bool) :
    (if ((if (if m = "" && !b then dflt else m) = "" && !b then ""
          else (if m = "" && !b then dflt else m)) = "" && !b) = true
      then dflt
      else (if (if m = "" && !b then dflt else m) = "" && !b then ""
          else (if m = "" && !b then dflt else m)))
      = (if m = "" && !b then dflt else m) := by
  by_cases hm : m = "" <;> by_cases hd : dflt = "" <;> cases b <;> simp [hm, hd]

theorem oldMountPoint_of_nodup (disks : List DiskState)
    (hnd : (disks.map (fun d => d.ID)).Nodup) (r : DiskState) (hr : r ∈ disks) :
    oldMountPoint disks r.ID = r.MountPoint := by
  unfold oldMountPoint
  cases hfind : disks.find? (fun old => old.ID = r.ID && old.MountPoint != "") with
  | none =>
    have := List.find?_eq_none.1 hfind r hr
    simp at this
    exact this.symm
  | some o =>
    have hp := List.find?_some hfind
    simp at hp
    have ho := List.mem_of_find?_eq_some hfind
    rw [eq_of_id_eq disks hnd o r ho hr hp.1]

theorem criticalMap_of_nodup (disks : List DiskState)
    (hnd : (disks.map (fun d => d.ID)).Nodup) (r : DiskState) (hr : r ∈ disks) :
    (criticalMap disks).contains r.ID = r.Critical := by
  cases hc : r.Critical with
  | true => exact criticalMap_contains disks r hr hc
  | false =>
    rw [Bool.eq_false_iff]
    intro hcon
    unfold criticalMap at hcon
    have hmem : r.ID ∈ (disks.filter (fun d => d.Critical)).map (fun d => d.ID) := by
      simpa using hcon
    obtain ⟨o, ho, hoid⟩ := List.mem_map.1 hmem
    rw [List.mem_filter] at ho
    have := eq_of_id_eq disks hnd o r ho.1 hr hoid
    rw [this, hc] at ho
    exact absurd ho.2 (by simp)

theorem attachedDisk_restamp (serverID : String) (oldDisks : List DiskState)
    (configDisks : List Disk) (now now2 : String) (vols : List DiskResult)
    (disks : List DiskState) (hnd : (disks.map (fun d => d.ID)).Nodup)
    (hsub : ∀ r ∈ vols.filterMap (attachedDisk serverID oldDisks configDisks now), r ∈ disks)
    (vol : DiskResult) (hvol : vol ∈ vols) :
    attachedDisk serverID disks [] now2 vol
      = (attachedDisk serverID oldDisks configDisks now vol).map (DiskState.restamp now2) := by
  cases h1 : attachedDisk serverID oldDisks configDisks now vol with
  | none =>
    unfold attachedDisk at h1 ⊢
    cases hatt : vol.AttachedToServer with
    | none => simp
    | some att =>
      simp only [hatt] at h1 ⊢
      by_cases hid : att.ID = serverID
      · simp [hid] at h1
      · simp [hid]
  | some r =>
    have hr : r ∈ disks := hsub r (List.mem_filterMap.2 ⟨vol, hvol, h1⟩)
    have hrid : r.ID = vol.ID := attachedDisk_id _ _ _ _ _ _ h1
    have hm := oldMountPoint_of_nodup disks hnd r hr
    have hc := criticalMap_of_nodup disks hnd r hr
    rw [hrid] at hm hc
    unfold attachedDisk at h1 ⊢
    cases hatt : vol.AttachedToServer with
    | none => simp [hatt] at h1
    | some att =>
      simp only [hatt] at h1 ⊢
      by_cases hid : att.ID = serverID
      · simp only [hid, if_true, Option.some.injEq] at h1 ⊢
        simp only [Option.map_some', Option.some.injEq]
        rw [hm, hc]
        subst h1
        simp only [DiskState.restamp, configMountPoint, List.find?_nil]
        congr 1
        exact mountPoint_fixed _ _ _
      · simp [hid] at h1

theorem detachedFold_skip (vols : List DiskResult) (now : String) (A2 : List DiskState)
    (l : List DiskState) (hl : ∀ a ∈ l, ∃ b ∈ A2, b.ID = a.ID) :
    l.foldl (detachedDiskStep vols now) A2 = A2 := by
  induction l with
  | nil => rfl
  | cons a rest ih =>
    rw [List.foldl_cons]
    have hstep : detachedDiskStep vols now A2 a = A2 := by
      unfold detachedDiskStep
      by_cases hb : a.Bootable = true
      · rw [if_pos hb]
      · rw [if_neg hb]
        have hany : A2.any (fun d => d.ID = a.ID) = true := by
          obtain ⟨b, hb2, hid⟩ := hl a (List.mem_cons_self _ _)
          simp only [List.any_eq_true, decide_eq_true_eq]
          exact ⟨b, hb2, hid⟩
        rw [if_pos hany]
    rw [hstep]
    exact ih (fun a' ha' => hl a' (List.mem_cons_of_mem _ ha'))

theorem detachedFold_restamp (vols : List DiskResult) (now2 : String) (A A2 : List DiskState)
    (hA2 : A2.map (fun d => d.ID) = A.map (fun d => d.ID)) (X : List DiskState) :
    ∀ pre : List DiskState, (∀ x ∈ X, DetachedRecord vols x) →
      ((A ++ (pre ++ X)).map (fun d => d.ID)).Nodup →
      X.foldl (detachedDiskStep vols now2) (A2 ++ pre.map (DiskState.restamp now2))
        = A2 ++ (pre ++ X).map (DiskState.restamp now2) := by
  induction X with
  | nil => intro pre _ _; simp
  | cons x rest ih =>
    intro pre hdet hnd
    rw [List.foldl_cons]
    obtain ⟨vol, hfind, hxb, hxdev, hxsize, hxtyp, hxo, hxg, hxm, hxc⟩ :=
      hdet x (List.mem_cons_self _ _)
    have hvid : vol.ID = x.ID := by
      have hp := List.find?_some hfind
      simpa using hp
    have hnot : (A2 ++ pre.map (DiskState.restamp now2)).any (fun d => d.ID = x.ID) = false := by
      rw [Bool.eq_false_iff]
      intro hany
      simp only [List.any_eq_true, decide_eq_true_eq] at hany
      obtain ⟨d, hd, hdid⟩ := hany
      have hmem : x.ID ∈ (A ++ pre).map (fun d => d.ID) := by
        rw [List.map_append, List.mem_append]
        rcases List.mem_append.1 hd with hd | hd
        · left
          rw [← hA2, ← hdid]
          exact List.mem_map_of_mem _ hd
        · right
          obtain ⟨p, hp, hpd⟩ := List.mem_map.1 hd
          rw [← hdid, ← hpd]
          exact List.mem_map_of_mem (fun d => d.ID) hp
      have hnd2 : ((A ++ pre) ++ (x :: rest)).map (fun d => d.ID) |>.Nodup := by
        rw [List.append_assoc]; exact hnd
      rw [List.map_append, List.nodup_append] at hnd2
      exact hnd2.2.2 hmem (by simp)
    have hstep : detachedDiskStep vols now2 (A2 ++ pre.map (DiskState.restamp now2)) x
        = A2 ++ (pre ++ [x]).map (DiskState.restamp now2) := by
      unfold detachedDiskStep
      rw [if_neg (by simp [hxb]), if_neg (by simp [hnot]), hfind]
      dsimp only
      rw [List.map_append, ← List.append_assoc]
      congr 1
      simp only [List.map_cons, List.map_nil, DiskState.restamp]
      congr 1
      cases x
      simp only at hvid hxb hxdev hxsize hxtyp hxo hxg hxm hxc
      simp [hvid, hxb, hxdev, hxsize, hxtyp, hxo, hxg, hxm, hxc]
    rw [hstep]
    have := ih (pre ++ [x]) (fun y hy => hdet y (List.mem_cons_of_mem _ hy))
      (by simpa [List.append_assoc] using hnd)
    rw [this]
    simp [List.append_assoc]

/-- The resolver applied to the disk list it returned, without configured
disks: the same records, with a new `Updated` stamp. -/
theorem resolveDisks_idem (serverID : String) (oldDisks : List DiskState)
    (configDisks : List Disk) (now now2 : String) (allVolumes : Option (List DiskResult))
    (hnd : ∀ vols, allVolumes = some vols → (vols.map (fun v => v.ID)).Nodup) :
    resolveDisks serverID (resolveDisks serverID oldDisks configDisks now allVolumes) [] now2
        allVolumes
      = (resolveDisks serverID oldDisks configDisks now allVolumes).map
          (DiskState.restamp now2) := by
  cases allVolumes with
  | none => rfl
  | some vols =>
    have hv := hnd vols rfl
    obtain ⟨X, hshape, hdet, hnodup⟩ :=
      resolveDisks_shape serverID oldDisks configDisks now vols hv
    have hsub : ∀ r ∈ vols.filterMap (attachedDisk serverID oldDisks configDisks now),
        r ∈ resolveDisks serverID oldDisks configDisks now (some vols) := by
      intro r hr
      rw [hshape]
      exact List.mem_append_left _ hr
    have hA2 : vols.filterMap (attachedDisk serverID
          (resolveDisks serverID oldDisks configDisks now (some vols)) [] now2)
        = (vols.filterMap (attachedDisk serverID oldDisks configDisks now)).map
            (DiskState.restamp now2) := by
      rw [List.map_filterMap]
      apply List.filterMap_congr
      intro vol hvol
      rw [attachedDisk_restamp serverID oldDisks configDisks now now2 vols _ hnodup hsub
        vol hvol]
    have hids : ((vols.filterMap (attachedDisk serverID oldDisks configDisks now)).map
          (DiskState.restamp now2)).map (fun d => d.ID)
        = (vols.filterMap (attachedDisk serverID oldDisks configDisks now)).map
            (fun d => d.ID) := by
      rw [List.map_map]
      rfl
    generalize hD : resolveDisks serverID oldDisks configDisks now (some vols) = D
      at hshape hnodup hsub hA2 ⊢
    unfold resolveDisks
    dsimp only
    rw [hA2, hshape, List.foldl_append]
    rw [detachedFold_skip vols now2 _ _ (fun a ha =>
      ⟨DiskState.restamp now2 a, List.mem_map_of_mem _ ha, rfl⟩)]
    have := detachedFold_restamp vols now2 _ _ hids X [] hdet
      (by rw [List.nil_append, ← hshape]; exact hnodup)
    simp only [List.map_nil, List.append_nil, List.nil_append] at this
    rw [this, List.map_append]

/-! ## A fixed cloud -/

theorem fetchNodeDetails_fixed {σ : Type} (c : Client σ)
    (detailOf : String → Except String ServerDetail)
    (addrs : Except String (List AddressDetail)) (vols : Except String (List DiskResult))
    (hfix : FixedCloud c detailOf addrs vols) (id : String) (oldDisks : List DiskState)
    (configDisks : List Disk) (w : σ) :
    (∀ d, (fetchNodeDetails c id oldDisks configDisks w).1 = Except.ok d →
      ∃ detail now, detailOf id = Except.ok detail ∧
        d.IP = (resolveAddress (addrsOf addrs) detail.Addresses).1 ∧
        d.AddressID = (resolveAddress (addrsOf addrs) detail.Addresses).2 ∧
        d.Disks = resolveDisks id oldDisks configDisks now (volsOf vols)) ∧
    (∀ detail, detailOf id = Except.ok detail →
      ∃ d, (fetchNodeDetails c id oldDisks configDisks w).1 = Except.ok d) := by
  obtain ⟨h1, h2, h3, _⟩ := hfix
  have hd := h1 id w
  unfold fetchNodeDetails
  rcases hD : c.GetServerDetail id w with ⟨r, w1⟩
  rw [hD] at hd
  simp only at hd
  cases r with
  | error e =>
    refine ⟨fun d h => by simp at h, fun detail hdet => ?_⟩
    rw [← hd] at hdet
    exact absurd hdet (by simp)
  | ok detail =>
    dsimp only
    have ha := h2 w1
    unfold GetProjectAddressesMap
    rcases hA : c.GetProjectAddresses w1 with ⟨ra, w2⟩
    rw [hA] at ha
    simp only at ha
    rcases hV : c.GetProjectVolumes
        (match ra with
          | Except.ok addrs => ((Except.ok (addressesMap addrs) :
              Except String (GoMap AddressDetail)), w2)
          | Except.error e => (Except.error e, w2)).2 with ⟨rv, w3⟩
    have hv := h3 (match ra with
          | Except.ok addrs => ((Except.ok (addressesMap addrs) :
              Except String (GoMap AddressDetail)), w2)
          | Except.error e => (Except.error e, w2)).2
    rw [hV] at hv
    simp only at hv
    subst ha hv
    refine ⟨?_, fun _ _ => ?_⟩
    · intro d hdd
      refine ⟨detail, c.Now w3, hd.symm, ?_⟩
      cases ra with
      | ok l =>
        simp only [hV] at hdd
        cases hdd
        cases rv <;> exact ⟨rfl, rfl, rfl⟩
      | error e =>
        simp only [hV] at hdd
        cases hdd
        cases rv <;> exact ⟨rfl, rfl, rfl⟩
    · cases ra <;> exact ⟨_, rfl⟩

theorem WaitForStatus_resolves {σ : Type} (c : Client σ)
    (detailOf : String → Except String ServerDetail)
    (hdet : ∀ id w, (c.GetServerDetail id w).1 = detailOf id)
    (id : String) (targets : List String) (n : Nat) :
    ∀ w, (WaitForStatus c id targets n w).1.err = none → ∃ detail, detailOf id = Except.ok detail := by
  induction n with
  | zero => intro w h; simp [WaitForStatus] at h
  | succ n ih =>
    intro w h
    unfold WaitForStatus at h
    have hd := hdet id w
    rcases hD : c.GetServerDetail id w with ⟨r, w1⟩
    rw [hD] at hd h
    simp only at hd
    cases r with
    | error e =>
      simp only at h
      by_cases h404 : containsSubstr e "Status: 404" = true
      · rw [if_pos h404] at h; simp at h
      · rw [if_neg h404] at h; exact ih w1 h
    | ok detail => exact ⟨detail, hd.symm⟩

theorem mem_desiredSlots (groups : List NodeGroup) (g : NodeGroup)
    (slot : Int × InstanceConfig) :
    (g, slot) ∈ desiredSlots groups ↔ g ∈ groups ∧ slot ∈ g.Instances ∧ slot.2.Enabled = true := by
  unfold desiredSlots
  simp only [List.mem_flatMap, List.mem_map, List.mem_filter, Prod.mk.injEq]
  constructor
  · rintro ⟨g', hg', s, ⟨hs, hen⟩, rfl, rfl⟩
    exact ⟨hg', hs, hen⟩
  · rintro ⟨hg, hs, hen⟩
    exact ⟨g, hg, slot, ⟨hs, hen⟩, rfl, rfl⟩

theorem verifyNode_resolved {σ : Type} (c : Client σ)
    (detailOf : String → Except String ServerDetail)
    (addrs : Except String (List AddressDetail)) (vols : Except String (List DiskResult))
    (hfix : FixedCloud c detailOf addrs vols) (st : GoMap NodeState × σ) (n : NodeState)
    (h : ∀ e ∈ st.1, Resolved detailOf addrs vols e.2.ID e.2.IP e.2.AddressID e.2.SSHPort
      e.2.Disks) :
    ∀ e ∈ (verifyNode c st n).1, Resolved detailOf addrs vols e.2.ID e.2.IP e.2.AddressID
      e.2.SSHPort e.2.Disks := by
  unfold verifyNode
  rcases hf : fetchNodeDetails c n.ID n.Disks [] st.2 with ⟨r, w1⟩
  cases r with
  | error e => exact h
  | ok d =>
    intro e he
    rcases GoMap.mem_of_mem_set _ _ _ _ he with h' | h'
    · obtain ⟨detail, now, hdet, hip, haid, hdisks⟩ :=
        (fetchNodeDetails_fixed c detailOf addrs vols hfix n.ID n.Disks [] st.2).1 d
          (by rw [hf])
      rw [h']
      refine ⟨detail, hdet, haid, ?_, n.Disks, [], now, hdisks⟩
      intro hport
      have hport' : n.SSHPort = 0 := hport
      simp [hport', hip]
    · exact h e h'

theorem verifyState_resolved {σ : Type} (c : Client σ)
    (detailOf : String → Except String ServerDetail)
    (addrs : Except String (List AddressDetail)) (vols : Except String (List DiskResult))
    (hfix : FixedCloud c detailOf addrs vols)
    (s3 : Option (Except String (Option ClusterState))) (force : Bool) (w : σ) :
    ∀ e ∈ (verifyState c s3 force w).1, Resolved detailOf addrs vols e.2.ID e.2.IP
      e.2.AddressID e.2.SSHPort e.2.Disks := by
  unfold verifyState
  split
  · split
    · split
      · simp
      · exact foldl_inv (verifyNode c)
          (fun st => ∀ e ∈ st.1, Resolved detailOf addrs vols e.2.ID e.2.IP e.2.AddressID
            e.2.SSHPort e.2.Disks) _
          (fun n _ st h => verifyNode_resolved c detailOf addrs vols hfix st n h) _ (by simp)
    · simp
  · simp

theorem classifySlot_proven {σ : Type} (c : Client σ)
    (detailOf : String → Except String ServerDetail)
    (addrs : Except String (List AddressDetail)) (vols : Except String (List DiskResult))
    (hfix : FixedCloud c detailOf addrs vols) (clusterName : String)
    (alive : GoMap NodeState) (cloud : GoMap String) (ex : Option ClusterState)
    (groups : List NodeGroup)
    (halive : ∀ k v, alive.get k = some v → v.Name = k ∧
      Resolved detailOf addrs vols v.ID v.IP v.AddressID v.SSHPort v.Disks)
    (group : NodeGroup) (hg : group ∈ groups) (st : ClassifyState σ)
    (slot : Int × InstanceConfig) (hs : slot ∈ group.Instances)
    (h : (∀ n ∈ st.finalNodes, Proven detailOf addrs vols clusterName groups n) ∧
      (∀ q ∈ st.nodesToCreate, ∃ p ∈ desiredSlots groups,
        q.Name = nodeName clusterName p.1.NamePrefix p.2.1 ∧ q.Group = p.1 ∧
        q.MergedLabels = mergeLabels p.1.Labels p.2.2.Labels)) :
    (∀ n ∈ (classifySlot c clusterName alive cloud ex group st slot).finalNodes,
      Proven detailOf addrs vols clusterName groups n) ∧
    (∀ q ∈ (classifySlot c clusterName alive cloud ex group st slot).nodesToCreate,
      ∃ p ∈ desiredSlots groups,
        q.Name = nodeName clusterName p.1.NamePrefix p.2.1 ∧ q.Group = p.1 ∧
        q.MergedLabels = mergeLabels p.1.Labels p.2.2.Labels) := by
  unfold classifySlot
  dsimp only
  by_cases hEn : slot.2.Enabled = true
  · have hmem : (group, slot) ∈ desiredSlots groups :=
      (mem_desiredSlots groups group slot).2 ⟨hg, hs, hEn⟩
    simp only [hEn, Bool.not_true, Bool.false_eq_true, if_false]
    cases hA : alive.get (nodeName clusterName group.NamePrefix slot.1) with
    | some existing =>
      dsimp only
      obtain ⟨hname, hres⟩ := halive _ _ hA
      refine ⟨?_, h.2⟩
      intro n hn
      rcases List.mem_append.1 hn with hn | hn
      · exact h.1 n hn
      · have hn' := List.mem_singleton.1 hn
        subst hn'
        exact ⟨hres, (group, slot), hmem, hname, rfl, rfl, rfl⟩
    | none =>
      dsimp only
      cases hC : cloud.get (nodeName clusterName group.NamePrefix slot.1) with
      | some realID =>
        dsimp only
        rcases hf : fetchNodeDetails c realID [] group.Disks st.world with ⟨r, w1⟩
        cases r with
        | error e => exact h
        | ok d =>
          dsimp only
          refine ⟨?_, h.2⟩
          intro n hn
          rcases List.mem_append.1 hn with hn | hn
          · exact h.1 n hn
          · have hn' := List.mem_singleton.1 hn
            subst hn'
            obtain ⟨detail, now, hdet, hip, haid, hdisks⟩ :=
              (fetchNodeDetails_fixed c detailOf addrs vols hfix realID [] group.Disks
                st.world).1 d (by rw [hf])
            exact ⟨⟨detail, hdet, haid, fun _ => hip, [], group.Disks, now, hdisks⟩,
              (group, slot), hmem, rfl, rfl, rfl, rfl⟩
      | none =>
        dsimp only
        refine ⟨h.1, ?_⟩
        intro q hq
        rcases List.mem_append.1 hq with hq | hq
        · exact h.2 q hq
        · have hq' := List.mem_singleton.1 hq
          subst hq'
          exact ⟨(group, slot), hmem, rfl, rfl, rfl⟩
  · simp only [hEn, Bool.not_false, if_true]
    exact h

theorem createNodeAttempts_resolved {σ : Type} (c : Client σ)
    (detailOf : String → Except String ServerDetail)
    (addrs : Except String (List AddressDetail)) (vols : Except String (List DiskResult))
    (hfix : FixedCloud c detailOf addrs vols) (name : String) (group : NodeGroup)
    (oldDisks : List DiskState) (labels : GoMap String) (password : String)
    (avail : List DiskResult) (n : Nat) :
    ∀ (lastErr : Option String) (w : σ) (log : List Event),
      (createNodeAttempts c name group oldDisks labels password avail n lastErr w log).1.Err
          = none →
        Resolved detailOf addrs vols
          (createNodeAttempts c name group oldDisks labels password avail n lastErr w log).1.ID
          (createNodeAttempts c name group oldDisks labels password avail n lastErr w log).1.IP
          (createNodeAttempts c name group oldDisks labels password avail n lastErr w
            log).1.AddressID
          (createNodeAttempts c name group oldDisks labels password avail n lastErr w
            log).1.SSHPort
          (createNodeAttempts c name group oldDisks labels password avail n lastErr w
            log).1.Disks ∧
        (createNodeAttempts c name group oldDisks labels password avail n lastErr w log).1.Role
          = group.Role ∧
        (createNodeAttempts c name group oldDisks labels password avail n lastErr w log).1.Labels
          = labels ∧
        (createNodeAttempts c name group oldDisks labels password avail n lastErr w log).1.Taints
          = group.Taints := by
  induction n with
  | zero => intro lastErr w log h; simp [createNodeAttempts] at h
  | succ n ih =>
    intro lastErr w log
    unfold createNodeAttempts
    dsimp only
    rcases hAddr : addressesPayload c group w with ⟨addresses, w1⟩
    dsimp only
    rcases hC : c.CreateServer
      (createPayload name group (matchDisks group.Disks oldDisks avail).storagesPayload
        addresses) w1 with ⟨r, w2⟩
    cases r with
    | error e => exact ih _ _ _
    | ok id =>
      dsimp only
      rcases hW : WaitForStatus c id ["ACTIVE", "RUNNING"] 60 w2 with ⟨wr, w3⟩
      dsimp only
      cases hE : wr.err with
      | some e => exact ih _ _ _
      | none =>
        dsimp only
        rcases hAt : attachAll c id (matchDisks group.Disks oldDisks avail).disksToAttach w3
          (log ++ [Event.CreateServer
            (createPayload name group (matchDisks group.Disks oldDisks avail).storagesPayload
              addresses)]) with ⟨w4, log4⟩
        dsimp only
        rcases hF : fetchNodeDetails c id oldDisks group.Disks w4 with ⟨details, w5⟩
        dsimp only
        intro _
        obtain ⟨detail0, hdet0⟩ := WaitForStatus_resolves c detailOf hfix.1 id
          ["ACTIVE", "RUNNING"] 60 w2 (by rw [hW]; exact hE)
        obtain ⟨d, hd⟩ := (fetchNodeDetails_fixed c detailOf addrs vols hfix id oldDisks
          group.Disks w4).2 detail0 hdet0
        obtain ⟨detail, now, hdet, hip, haid, hdisks⟩ :=
          (fetchNodeDetails_fixed c detailOf addrs vols hfix id oldDisks group.Disks w4).1 d hd
        rw [hF] at hd
        simp only at hd
        subst hd
        exact ⟨⟨detail, hdet, haid, fun _ => hip, oldDisks, group.Disks, now, hdisks⟩,
          rfl, rfl, rfl⟩

theorem provision_proven {σ : Type} (c : Client σ)
    (detailOf : String → Except String ServerDetail)
    (addrs : Except String (List AddressDetail)) (vols : Except String (List DiskResult))
    (hfix : FixedCloud c detailOf addrs vols) (password : String)
    (items : List PendingNode) (arrival : List Nat) :
    ∀ (w : σ) (log : List Event),
      ∀ r ∈ (provision c password items arrival w log).1, r.Err = none →
        ∃ q ∈ items, Resolved detailOf addrs vols r.ID r.IP r.AddressID r.SSHPort r.Disks ∧
          r.Name = q.Name ∧ r.Role = q.Group.Role ∧ r.Labels = q.MergedLabels ∧
          r.Taints = q.Group.Taints := by
  induction arrival with
  | nil => intro w log r hr; simp [provision] at hr
  | cons i rest ih =>
    intro w log r hr herr
    unfold provision at hr
    cases hi : items[i]? with
    | none =>
      simp only [hi] at hr
      exact ih w log r hr herr
    | some itm =>
      simp only [hi, List.mem_cons] at hr
      rcases hr with hr | hr
      · refine ⟨itm, List.getElem?_mem hi, ?_⟩
        have hname := createNodeAsync_name c itm.Name itm.Group itm.OldDisks itm.MergedLabels
          password w log
        rw [← hr] at hname
        rw [hr] at herr ⊢
        unfold createNodeAsync at herr ⊢
        obtain ⟨h1, h2, h3, h4⟩ := createNodeAttempts_resolved c detailOf addrs vols hfix
          itm.Name itm.Group itm.OldDisks itm.MergedLabels password _ 3 none _ _ herr
        refine ⟨h1, ?_, h2, h3, h4⟩
        exact createNodeAttempts_name _ _ _ _ _ _ _ _ _ _ _
      · exact ih _ _ r hr herr

/-- In a fixed cloud every entry of the final list of a run is proven. -/
theorem finalNodes_proven {σ : Type} (c : Client σ)
    (detailOf : String → Except String ServerDetail)
    (addrs : Except String (List AddressDetail)) (vols : Except String (List DiskResult))
    (hfix : FixedCloud c detailOf addrs vols) (env : Env) (cfg : Config)
    (s3 : Option (Except String (Option ClusterState))) (clusterName : String) (force : Bool)
    (manualPassword : String) (deleteFromCloud : Bool) (w : σ) :
    ∀ n ∈ (handleClusterCreateFromCode c env (Except.ok cfg) s3 clusterName force
        manualPassword deleteFromCloud w).finalNodes,
      Proven detailOf addrs vols clusterName cfg.Groups n := by
  obtain ⟨w1, w2, w3, w4, pw, _, hAl, hCl, hQ, hF, _⟩ :=
    run_shape c env cfg s3 clusterName force manualPassword deleteFromCloud w
  have halive : ∀ k v, (verifyState c s3 force w1).1.get k = some v → v.Name = k ∧
      Resolved detailOf addrs vols v.ID v.IP v.AddressID v.SSHPort v.Disks := by
    intro k v hkv
    exact ⟨alive_name_of_get c s3 force w1 k v hkv,
      verifyState_resolved c detailOf addrs vols hfix s3 force w1 (k, v)
        (GoMap.mem_of_get_eq_some _ _ _ hkv)⟩
  have hcl : (∀ n ∈ (classify c clusterName (verifyState c s3 force w1).1
        (buildCloudServerMap (c.GetServersList w).1) (loadedState s3) cfg.Groups w2).finalNodes,
        Proven detailOf addrs vols clusterName cfg.Groups n) ∧
      (∀ q ∈ (classify c clusterName (verifyState c s3 force w1).1
        (buildCloudServerMap (c.GetServersList w).1) (loadedState s3) cfg.Groups
        w2).nodesToCreate, ∃ p ∈ desiredSlots cfg.Groups,
        q.Name = nodeName clusterName p.1.NamePrefix p.2.1 ∧ q.Group = p.1 ∧
        q.MergedLabels = mergeLabels p.1.Labels p.2.2.Labels) := by
    unfold classify
    exact foldl_nested_inv NodeGroup.Instances
      (fun g => classifySlot c clusterName (verifyState c s3 force w1).1
        (buildCloudServerMap (c.GetServersList w).1) (loadedState s3) g)
      (fun st => (∀ n ∈ st.finalNodes, Proven detailOf addrs vols clusterName cfg.Groups n) ∧
        (∀ q ∈ st.nodesToCreate, ∃ p ∈ desiredSlots cfg.Groups,
          q.Name = nodeName clusterName p.1.NamePrefix p.2.1 ∧ q.Group = p.1 ∧
          q.MergedLabels = mergeLabels p.1.Labels p.2.2.Labels))
      cfg.Groups
      (fun g hg i hi st h => classifySlot_proven c detailOf addrs vols hfix clusterName _ _ _
        cfg.Groups halive g hg st i hi h)
      _ ⟨by simp, by simp⟩
  intro n hn
  rw [hF, collectResults_mem] at hn
  rcases hn with hn | ⟨hn, herr⟩
  · rw [hCl] at hn
    exact hcl.1 n hn
  · obtain ⟨q, hq, hres, hname, hrole, hlabels, htaints⟩ :=
      provision_proven c detailOf addrs vols hfix pw _ env.arrival w3 [] n hn herr
    rw [hQ] at hq
    obtain ⟨p, hp, hqn, hqg, hql⟩ := hcl.2 q hq
    exact ⟨hres, p, hp, hname.trans hqn, by rw [hrole, hqg], by rw [hlabels, hql],
      by rw [htaints, hqg]⟩

/-! ## The second run -/

theorem refetch_same {σ : Type} (c : Client σ)
    (detailOf : String → Except String ServerDetail)
    (addrs : Except String (List AddressDetail)) (vols : Except String (List DiskResult))
    (hfix : FixedCloud c detailOf addrs vols) (id ip addrID : String) (port : Int)
    (disks : List DiskState) (hres : Resolved detailOf addrs vols id ip addrID port disks)
    (w : σ) :
    ∃ d, (fetchNodeDetails c id disks [] w).1 = Except.ok d ∧ d.AddressID = addrID ∧
      (if port != 0 && ip != d.IP then ip else d.IP) = ip ∧
      ∃ now2, d.Disks = disks.map (DiskState.restamp now2) := by
  obtain ⟨detail, hdet, haid, hip, old, cfgD, now, hdisks⟩ := hres
  obtain ⟨d, hd⟩ := (fetchNodeDetails_fixed c detailOf addrs vols hfix id disks [] w).2 detail hdet
  obtain ⟨detail', now2, hdet', hip', haid', hdisks'⟩ :=
    (fetchNodeDetails_fixed c detailOf addrs vols hfix id disks [] w).1 d hd
  have hsame : detail' = detail := by
    rw [hdet] at hdet'
    exact (Except.ok.inj hdet').symm
  subst hsame
  refine ⟨d, hd, by rw [haid', haid], ?_, now2, ?_⟩
  · by_cases hp : port = 0
    · simp [hp, hip hp, hip']
    · by_cases hne : ip = d.IP
      · simp [hne]
      · simp [hp, hne]
  · rw [hdisks', hdisks]
    apply resolveDisks_idem
    intro l hl
    apply hfix.2.2.2 l
    cases vols with
    | error e => simp [volsOf] at hl
    | ok l' =>
      simp only [volsOf, Option.some.injEq] at hl
      rw [hl]

theorem verifyNode_source {σ : Type} (c : Client σ) (nodes : List NodeState)
    (st : GoMap NodeState × σ) (n : NodeState) (hn : n ∈ nodes)
    (h : ∀ e ∈ st.1, ∃ m ∈ nodes, ∃ w' d,
      (fetchNodeDetails c m.ID m.Disks [] w').1 = Except.ok d ∧ e.1 = m.Name ∧
      e.2.Name = m.Name ∧ e.2.ID = m.ID ∧ e.2.SSHPort = m.SSHPort ∧
      e.2.AddressID = d.AddressID ∧ e.2.Disks = d.Disks ∧
      e.2.IP = (if m.SSHPort != 0 && m.IP != d.IP then m.IP else d.IP)) :
    ∀ e ∈ (verifyNode c st n).1, ∃ m ∈ nodes, ∃ w' d,
      (fetchNodeDetails c m.ID m.Disks [] w').1 = Except.ok d ∧ e.1 = m.Name ∧
      e.2.Name = m.Name ∧ e.2.ID = m.ID ∧ e.2.SSHPort = m.SSHPort ∧
      e.2.AddressID = d.AddressID ∧ e.2.Disks = d.Disks ∧
      e.2.IP = (if m.SSHPort != 0 && m.IP != d.IP then m.IP else d.IP) := by
  unfold verifyNode
  rcases hf : fetchNodeDetails c n.ID n.Disks [] st.2 with ⟨r, w1⟩
  cases r with
  | error e => exact h
  | ok d =>
    intro e he
    rcases GoMap.mem_of_mem_set _ _ _ _ he with h' | h'
    · refine ⟨n, hn, st.2, d, by rw [hf], ?_⟩
      rw [h']
      exact ⟨rfl, rfl, rfl, rfl, rfl, rfl, rfl⟩
    · exact h e h'

theorem verifyNode_covers {σ : Type} (c : Client σ) (nodes : List NodeState) (m : NodeState)
    (hm : m ∈ nodes) (hok : ∀ w, ∃ d, (fetchNodeDetails c m.ID m.Disks [] w).1 = Except.ok d) :
    ∀ init : GoMap NodeState × σ, (nodes.foldl (verifyNode c) init).1.get m.Name ≠ none := by
  refine foldl_reach (verifyNode c) (fun st => st.1.get m.Name ≠ none) nodes ?_ m hm ?_
  · intro n st hst
    unfold verifyNode
    rcases hf : fetchNodeDetails c n.ID n.Disks [] st.2 with ⟨r, w1⟩
    cases r with
    | error e => exact hst
    | ok d =>
      dsimp only
      rw [GoMap.get_set]
      by_cases hk : n.Name = m.Name
      · rw [if_pos hk]; simp
      · rw [if_neg hk]; exact hst
  · intro st
    unfold verifyNode
    obtain ⟨d, hd⟩ := hok st.2
    rcases hf : fetchNodeDetails c m.ID m.Disks [] st.2 with ⟨r, w1⟩
    rw [hf] at hd
    simp only at hd
    subst hd
    dsimp only
    rw [GoMap.get_set, if_pos rfl]
    simp

theorem provision_nil {σ : Type} (c : Client σ) (password : String) (arrival : List Nat) :
    ∀ (w : σ) (log : List Event), (provision c password [] arrival w log).1 = [] := by
  induction arrival with
  | nil => intro w log; rfl
  | cons i rest ih =>
    intro w log
    unfold provision
    simp only [List.getElem?_nil]
    exact ih w log

theorem classifySlot_all_alive {σ : Type} (c : Client σ) (clusterName : String)
    (alive : GoMap NodeState) (cloud : GoMap String) (ex : Option ClusterState)
    (groups : List NodeGroup)
    (hall : ∀ p ∈ desiredSlots groups,
      alive.get (nodeName clusterName p.1.NamePrefix p.2.1) ≠ none)
    (group : NodeGroup) (hg : group ∈ groups) (st : ClassifyState σ)
    (slot : Int × InstanceConfig) (hs : slot ∈ group.Instances)
    (h : st.nodesToCreate = [] ∧
      ∀ n ∈ st.finalNodes, ∃ p ∈ desiredSlots groups, ∃ existing,
        alive.get (nodeName clusterName p.1.NamePrefix p.2.1) = some existing ∧
        n.Name = existing.Name ∧ n.ID = existing.ID ∧ n.IP = existing.IP ∧
        n.SSHPort = existing.SSHPort ∧ n.AddressID = existing.AddressID ∧
        n.Disks = existing.Disks ∧ n.Role = p.1.Role ∧
        n.Labels = mergeLabels p.1.Labels p.2.2.Labels ∧ n.Taints = p.1.Taints) :
    (classifySlot c clusterName alive cloud ex group st slot).nodesToCreate = [] ∧
      ∀ n ∈ (classifySlot c clusterName alive cloud ex group st slot).finalNodes,
        ∃ p ∈ desiredSlots groups, ∃ existing,
        alive.get (nodeName clusterName p.1.NamePrefix p.2.1) = some existing ∧
        n.Name = existing.Name ∧ n.ID = existing.ID ∧ n.IP = existing.IP ∧
        n.SSHPort = existing.SSHPort ∧ n.AddressID = existing.AddressID ∧
        n.Disks = existing.Disks ∧ n.Role = p.1.Role ∧
        n.Labels = mergeLabels p.1.Labels p.2.2.Labels ∧ n.Taints = p.1.Taints := by
  unfold classifySlot
  dsimp only
  by_cases hEn : slot.2.Enabled = true
  · have hmem : (group, slot) ∈ desiredSlots groups :=
      (mem_desiredSlots groups group slot).2 ⟨hg, hs, hEn⟩
    simp only [hEn, Bool.not_true, Bool.false_eq_true, if_false]
    cases hA : alive.get (nodeName clusterName group.NamePrefix slot.1) with
    | some existing =>
      dsimp only
      refine ⟨h.1, ?_⟩
      intro n hn
      rcases List.mem_append.1 hn with hn | hn
      · exact h.2 n hn
      · have hn' := List.mem_singleton.1 hn
        subst hn'
        exact ⟨(group, slot), hmem, existing, hA, rfl, rfl, rfl, rfl, rfl, rfl, rfl, rfl, rfl⟩
    | none => exact absurd hA (hall (group, slot) hmem)
  · simp only [hEn, Bool.not_false, if_true]
    exact h

theorem classify_all_alive {σ : Type} (c : Client σ) (clusterName : String)
    (alive : GoMap NodeState) (cloud : GoMap String) (ex : Option ClusterState)
    (groups : List NodeGroup) (w : σ)
    (hall : ∀ p ∈ desiredSlots groups,
      alive.get (nodeName clusterName p.1.NamePrefix p.2.1) ≠ none) :
    (classify c clusterName alive cloud ex groups w).nodesToCreate = [] ∧
      ∀ n ∈ (classify c clusterName alive cloud ex groups w).finalNodes,
        ∃ p ∈ desiredSlots groups, ∃ existing,
        alive.get (nodeName clusterName p.1.NamePrefix p.2.1) = some existing ∧
        n.Name = existing.Name ∧ n.ID = existing.ID ∧ n.IP = existing.IP ∧
        n.SSHPort = existing.SSHPort ∧ n.AddressID = existing.AddressID ∧
        n.Disks = existing.Disks ∧ n.Role = p.1.Role ∧
        n.Labels = mergeLabels p.1.Labels p.2.2.Labels ∧ n.Taints = p.1.Taints := by
  unfold classify
  exact foldl_nested_inv NodeGroup.Instances
    (fun g => classifySlot c clusterName alive cloud ex g)
    (fun st => st.nodesToCreate = [] ∧
      ∀ n ∈ st.finalNodes, ∃ p ∈ desiredSlots groups, ∃ existing,
        alive.get (nodeName clusterName p.1.NamePrefix p.2.1) = some existing ∧
        n.Name = existing.Name ∧ n.ID = existing.ID ∧ n.IP = existing.IP ∧
        n.SSHPort = existing.SSHPort ∧ n.AddressID = existing.AddressID ∧
        n.Disks = existing.Disks ∧ n.Role = p.1.Role ∧
        n.Labels = mergeLabels p.1.Labels p.2.2.Labels ∧ n.Taints = p.1.Taints)
    groups
    (fun g hg i hi st h =>
      classifySlot_all_alive c clusterName alive cloud ex groups hall g hg st i hi h)
    _ ⟨rfl, by simp⟩

theorem saved_nodes (hasBackend : Bool) (sshUser : String) (nodes : List NodeResult)
    (now : String) (S : ClusterState) (h : runPostActions hasBackend sshUser nodes now = some S) :
    (∀ m ∈ S.Nodes, ∃ n ∈ nodes, m.Name = n.Name ∧ m.ID = n.ID ∧ m.IP = n.IP ∧
      m.SSHPort = n.SSHPort ∧ m.Disks = n.Disks) ∧
    (∀ n ∈ nodes, ∃ m ∈ S.Nodes, m.Name = n.Name ∧ m.ID = n.ID ∧ m.IP = n.IP ∧
      m.SSHPort = n.SSHPort ∧ m.Disks = n.Disks) := by
  unfold runPostActions at h
  cases hasBackend with
  | false => simp at h
  | true =>
    simp only [if_true, Option.some.injEq] at h
    subst h
    constructor
    · intro m hm
      obtain ⟨n, hn, rfl⟩ := List.mem_map.1 hm
      exact ⟨n, hn, rfl, rfl, rfl, rfl, rfl⟩
    · intro n hn
      exact ⟨_, List.mem_map_of_mem _ hn, rfl, rfl, rfl, rfl, rfl⟩

theorem unstamped_restamp (now : String) (disks : List DiskState) :
    (disks.map (DiskState.restamp now)).map DiskState.unstamped
      = disks.map DiskState.unstamped := by
  rw [List.map_map]
  rfl

theorem desiredSlot_of_name (clusterName : String) (groups : List NodeGroup)
    (hnames : (desiredNames clusterName groups).Nodup)
    (p q : NodeGroup × (Int × InstanceConfig)) (hp : p ∈ desiredSlots groups)
    (hq : q ∈ desiredSlots groups)
    (h : nodeName clusterName p.1.NamePrefix p.2.1 = nodeName clusterName q.1.NamePrefix q.2.1) :
    p = q :=
  List.inj_on_of_nodup_map hnames hp hq h

/-- In a fixed cloud, after a first run that saved `S1` and whose final list
names every desired node, once each: the alive index of the second run holds,
for every enabled slot, the record of the first run's entry of that name, with
the same ID, IP, SSH port, address ID and disks (restamped). -/
theorem second_alive_index {σ : Type} (c : Client σ)
    (detailOf : String → Except String ServerDetail)
    (addrs : Except String (List AddressDetail)) (vols : Except String (List DiskResult))
    (hfix : FixedCloud c detailOf addrs vols) (clusterName : String) (groups : List NodeGroup)
    (final1 : List NodeResult) (S1 : ClusterState) (w : σ)
    (hproven : ∀ n ∈ final1, Proven detailOf addrs vols clusterName groups n)
    (hS1 : (∀ m ∈ S1.Nodes, ∃ n ∈ final1, m.Name = n.Name ∧ m.ID = n.ID ∧ m.IP = n.IP ∧
        m.SSHPort = n.SSHPort ∧ m.Disks = n.Disks) ∧
      (∀ n ∈ final1, ∃ m ∈ S1.Nodes, m.Name = n.Name ∧ m.ID = n.ID ∧ m.IP = n.IP ∧
        m.SSHPort = n.SSHPort ∧ m.Disks = n.Disks))
    (hnodup : (final1.map (fun n => n.Name)).Nodup)
    (n1 : NodeResult) (hn1 : n1 ∈ final1) :
    ∃ v, (verifyState c (some (Except.ok (some S1))) false w).1.get n1.Name = some v ∧
      v.Name = n1.Name ∧ v.ID = n1.ID ∧ v.IP = n1.IP ∧ v.SSHPort = n1.SSHPort ∧
      v.AddressID = n1.AddressID ∧ ∃ now2, v.Disks = n1.Disks.map (DiskState.restamp now2) := by
  rw [verifyState_loaded]
  obtain ⟨m, hm, hmn, hmid, hmip, hmport, hmdisks⟩ := hS1.2 n1 hn1
  have hres1 := (hproven n1 hn1).1
  have hok : ∀ w', ∃ d, (fetchNodeDetails c m.ID m.Disks [] w').1 = Except.ok d := by
    intro w'
    obtain ⟨d, hd, _⟩ := refetch_same c detailOf addrs vols hfix n1.ID n1.IP n1.AddressID
      n1.SSHPort n1.Disks hres1 w'
    rw [hmid, hmdisks]
    exact ⟨d, hd⟩
  have hget := verifyNode_covers c S1.Nodes m hm hok ([], w)
  rw [hmn] at hget
  cases hv : (S1.Nodes.foldl (verifyNode c) ([], w)).1.get n1.Name with
  | none => exact absurd hv hget
  | some v =>
    have hsrc := foldl_inv (verifyNode c)
      (fun st => ∀ e ∈ st.1, ∃ m ∈ S1.Nodes, ∃ w' d,
        (fetchNodeDetails c m.ID m.Disks [] w').1 = Except.ok d ∧ e.1 = m.Name ∧
        e.2.Name = m.Name ∧ e.2.ID = m.ID ∧ e.2.SSHPort = m.SSHPort ∧
        e.2.AddressID = d.AddressID ∧ e.2.Disks = d.Disks ∧
        e.2.IP = (if m.SSHPort != 0 && m.IP != d.IP then m.IP else d.IP))
      S1.Nodes (fun n hn st h => verifyNode_source c S1.Nodes st n hn h) ([], w) (by simp)
      (n1.Name, v) (GoMap.mem_of_get_eq_some _ _ _ hv)
    obtain ⟨m', hm', w', d, hd, hk, hvn, hvid, hvport, hvaid, hvdisks, hvip⟩ := hsrc
    obtain ⟨n1', hn1', hmn', hmid', hmip', hmport', hmdisks'⟩ := hS1.1 m' hm'
    have hsame : n1' = n1 :=
      List.inj_on_of_nodup_map hnodup hn1' hn1 (by rw [← hmn', ← hk])
    subst hsame
    obtain ⟨d0, hd0, haid0, hip0, now2, hdisks0⟩ :=
      refetch_same c detailOf addrs vols hfix n1'.ID n1'.IP n1'.AddressID n1'.SSHPort
        n1'.Disks hres1 w'
    rw [hmid', hmdisks'] at hd
    rw [hd0] at hd
    have hdd : d0 = d := Except.ok.inj hd
    subst hdd
    refine ⟨v, rfl, ?_, ?_, ?_, ?_, ?_, now2, ?_⟩
    · rw [hvn, hmn']
    · rw [hvid, hmid']
    · rw [hvip, hmport', hmip']; exact hip0
    · rw [hvport, hmport']
    · rw [hvaid, haid0]
    · rw [hvdisks, hdisks0]

/-- C22. Idempotence over a fixed, deterministic cloud.  The cloud answers
`GetServerDetail`, the address listing and the volume listing in the same way
in every world, and no volume ID occurs twice in the volume listing; the
desired names of the configuration are pairwise distinct.  If a first run
saves the state `S1` and its final list names every desired node, each name
once, then a second run with the same configuration and `force = false` that
loads `S1` queues no node for creation, reports no orphan, and its final list
has, for every entry of the first run, an entry with the same name, ID, IP,
SSH port, address ID, role, labels, taints and disk records (the `Updated`
stamps of the disk records excepted), and no other entry. -/
theorem second_run_reproduces_first {σ : Type} (c : Client σ)
    (detailOf : String → Except String ServerDetail)
    (addrs : Except String (List AddressDetail)) (vols : Except String (List DiskResult))
    (hfix : FixedCloud c detailOf addrs vols) (env1 env2 : Env) (cfg : Config)
    (s3 : Option (Except String (Option ClusterState))) (clusterName : String)
    (force1 : Bool) (password1 password2 : String) (delete1 delete2 : Bool) (w1 w2 : σ)
    (S1 : ClusterState)
    (hnames : (desiredNames clusterName cfg.Groups).Nodup)
    (hsaved : (handleClusterCreateFromCode c env1 (Except.ok cfg) s3 clusterName force1
      password1 delete1 w1).saved = some S1)
    (hall : ∀ name ∈ desiredNames clusterName cfg.Groups,
      ∃ n ∈ (handleClusterCreateFromCode c env1 (Except.ok cfg) s3 clusterName force1
        password1 delete1 w1).finalNodes, n.Name = name)
    (hnodup : ((handleClusterCreateFromCode c env1 (Except.ok cfg) s3 clusterName force1
      password1 delete1 w1).finalNodes.map (fun n => n.Name)).Nodup) :
    (handleClusterCreateFromCode c env2 (Except.ok cfg) (some (Except.ok (some S1)))
      clusterName false password2 delete2 w2).nodesToCreate = [] ∧
    (handleClusterCreateFromCode c env2 (Except.ok cfg) (some (Except.ok (some S1)))
      clusterName false password2 delete2 w2).orphans = [] ∧
    (∀ n2 ∈ (handleClusterCreateFromCode c env2 (Except.ok cfg) (some (Except.ok (some S1)))
        clusterName false password2 delete2 w2).finalNodes,
      ∃ n1 ∈ (handleClusterCreateFromCode c env1 (Except.ok cfg) s3 clusterName force1
        password1 delete1 w1).finalNodes, SameNode n1 n2) ∧
    (∀ n1 ∈ (handleClusterCreateFromCode c env1 (Except.ok cfg) s3 clusterName force1
        password1 delete1 w1).finalNodes,
      ∃ n2 ∈ (handleClusterCreateFromCode c env2 (Except.ok cfg) (some (Except.ok (some S1)))
        clusterName false password2 delete2 w2).finalNodes, SameNode n1 n2) := by
  have hproven := finalNodes_proven c detailOf addrs vols hfix env1 cfg s3 clusterName force1
    password1 delete1 w1
  obtain ⟨_, _, now1, _, hsv⟩ :=
    run_final_shape c env1 cfg s3 clusterName force1 password1 delete1 w1
  rw [hsv] at hsaved
  have hS1 := saved_nodes _ _ _ _ _ hsaved
  generalize (handleClusterCreateFromCode c env1 (Except.ok cfg) s3 clusterName force1
    password1 delete1 w1).finalNodes = final1 at hproven hall hnodup hS1 ⊢
  obtain ⟨v1, v2, v3, v4, pw, _, hAl, hCl, hQ, hF, hO, _⟩ :=
    run_shape c env2 cfg (some (Except.ok (some S1))) clusterName false password2 delete2 w2
  have hkey := second_alive_index c detailOf addrs vols hfix clusterName cfg.Groups final1 S1
    v1 hproven hS1 hnodup
  -- every enabled slot has the first run's entry of its name in the alive index
  have hslot : ∀ p ∈ desiredSlots cfg.Groups, ∃ n1 ∈ final1,
      n1.Name = nodeName clusterName p.1.NamePrefix p.2.1 := by
    intro p hp
    exact hall _ (List.mem_map_of_mem _ hp)
  have hallAlive : ∀ p ∈ desiredSlots cfg.Groups,
      (verifyState c (some (Except.ok (some S1))) false v1).1.get
        (nodeName clusterName p.1.NamePrefix p.2.1) ≠ none := by
    intro p hp
    obtain ⟨n1, hn1, hname⟩ := hslot p hp
    obtain ⟨v, hv, _⟩ := hkey n1 hn1
    rw [← hname, hv]
    simp
  obtain ⟨hqueue, hfinal⟩ := classify_all_alive c clusterName
    (verifyState c (some (Except.ok (some S1))) false v1).1
    (buildCloudServerMap (c.GetServersList w2).1) (loadedState (some (Except.ok (some S1))))
    cfg.Groups v2 hallAlive
  rw [← hQ] at hqueue
  rw [← hCl] at hfinal
  have hF2 : (handleClusterCreateFromCode c env2 (Except.ok cfg) (some (Except.ok (some S1)))
      clusterName false password2 delete2 w2).finalNodes
      = (handleClusterCreateFromCode c env2 (Except.ok cfg) (some (Except.ok (some S1)))
      clusterName false password2 delete2 w2).classified := by
    rw [hF, hqueue, provision_nil]
    rfl
  -- an entry of the second run built from the slot `p` agrees with the first run's entry
  have hmatch : ∀ (n2 : NodeResult) (p : NodeGroup × (Int × InstanceConfig))
      (existing : NodeState), p ∈ desiredSlots cfg.Groups →
      (verifyState c (some (Except.ok (some S1))) false v1).1.get
        (nodeName clusterName p.1.NamePrefix p.2.1) = some existing →
      n2.Name = existing.Name → n2.ID = existing.ID → n2.IP = existing.IP →
      n2.SSHPort = existing.SSHPort → n2.AddressID = existing.AddressID →
      n2.Disks = existing.Disks → n2.Role = p.1.Role →
      n2.Labels = mergeLabels p.1.Labels p.2.2.Labels → n2.Taints = p.1.Taints →
      ∀ n1 ∈ final1, n1.Name = nodeName clusterName p.1.NamePrefix p.2.1 →
        SameNode n1 n2 := by
    intro n2 p existing hp hget hN hI hIP hP hA hD hR hL hT n1 hn1 hname
    obtain ⟨v, hv, hvn, hvid, hvip, hvport, hvaid, now2, hvdisks⟩ := hkey n1 hn1
    rw [hname, hget] at hv
    have hve : existing = v := Option.some.inj hv
    subst hve
    obtain ⟨_, q, hq, hqn, hqr, hql, hqt⟩ := hproven n1 hn1
    have hpq : p = q :=
      desiredSlot_of_name clusterName cfg.Groups hnames p q hp hq (by rw [← hname, hqn])
    subst hpq
    refine ⟨by rw [hN, hvn], by rw [hI, hvid], by rw [hIP, hvip], by rw [hP, hvport],
      by rw [hA, hvaid], by rw [hR, hqr], by rw [hL, hql], by rw [hT, hqt], ?_⟩
    rw [hD, hvdisks, unstamped_restamp]
  have hsecond : ∀ n2 ∈ (handleClusterCreateFromCode c env2 (Except.ok cfg)
      (some (Except.ok (some S1))) clusterName false password2 delete2 w2).finalNodes,
      ∃ n1 ∈ final1, SameNode n1 n2 := by
    intro n2 hn2
    rw [hF2] at hn2
    obtain ⟨p, hp, existing, hget, hN, hI, hIP, hP, hA, hD, hR, hL, hT⟩ := hfinal n2 hn2
    obtain ⟨n1, hn1, hname⟩ := hslot p hp
    exact ⟨n1, hn1, hmatch n2 p existing hp hget hN hI hIP hP hA hD hR hL hT n1 hn1 hname⟩
  have hfirst : ∀ n1 ∈ final1, ∃ n2 ∈ (handleClusterCreateFromCode c env2 (Except.ok cfg)
      (some (Except.ok (some S1))) clusterName false password2 delete2 w2).finalNodes,
      SameNode n1 n2 := by
    intro n1 hn1
    obtain ⟨_, p, hp, hpn, _⟩ := hproven n1 hn1
    obtain ⟨v, hv, _⟩ := hkey n1 hn1
    rw [hpn] at hv
    obtain ⟨g, slot⟩ := p
    obtain ⟨hg, hs, hEn⟩ := (mem_desiredSlots cfg.Groups g slot).1 hp
    obtain ⟨n2, hn2, hN, hI, hIP, hP, hA, hD, _, hR, hT, hL, _⟩ :=
      classify_reach_final c clusterName
        (verifyState c (some (Except.ok (some S1))) false v1).1
        (buildCloudServerMap (c.GetServersList w2).1)
        (loadedState (some (Except.ok (some S1)))) cfg.Groups v2
        (fun n => n.Name = v.Name ∧ n.ID = v.ID ∧ n.IP = v.IP ∧ n.SSHPort = v.SSHPort ∧
          n.AddressID = v.AddressID ∧ n.Disks = v.Disks ∧ n.Created = v.Created ∧
          n.Role = g.Role ∧ n.Taints = g.Taints ∧
          n.Labels = mergeLabels g.Labels slot.2.Labels ∧ n.IsNew = false ∧ n.Err = none)
        g hg slot hs
        (fun st => classifySlot_retained c clusterName _ _ _ g slot v hEn hv st)
    rw [← hCl, ← hF2] at hn2
    exact ⟨n2, hn2, hmatch n2 (g, slot) v hp hv hN hI hIP hP hA hD hR hL hT n1 hn1 hpn⟩
  refine ⟨hqueue, ?_, hsecond, hfirst⟩
  -- no orphan: every key of the alive index is the name of an entry of the first run
  rw [hO]
  rw [List.eq_nil_iff_forall_not_mem]
  intro o ho
  have hmem : o.1 ∈ ((verifyState c (some (Except.ok (some S1))) false v1).1.foldl
      (orphanStep c env2 delete2
        (handleClusterCreateFromCode c env2 (Except.ok cfg) (some (Except.ok (some S1)))
          clusterName false password2 delete2 w2).finalNodes)
      { orphans := [], deleted := [], reads := 0, world := v4, log := [] }).orphans.map
        Prod.fst := List.mem_map_of_mem _ ho
  rw [orphanFold_orphans] at hmem
  rcases hmem with hmem | ⟨hkeys, hno⟩
  · simp at hmem
  · obtain ⟨e, he, hek⟩ := List.mem_map.1 hkeys
    rw [verifyState_loaded] at he
    have hsrc := foldl_inv (verifyNode c)
      (fun st => ∀ e ∈ st.1, ∃ m ∈ S1.Nodes, e.1 = m.Name)
      S1.Nodes
      (fun n hn st h e he => by
        unfold verifyNode at he
        rcases hf : fetchNodeDetails c n.ID n.Disks [] st.2 with ⟨r, w'⟩
        rw [hf] at he
        cases r with
        | error _ => exact h e he
        | ok d =>
          rcases GoMap.mem_of_mem_set _ _ _ _ he with h' | h'
          · exact ⟨n, hn, by rw [h']⟩
          · exact h e h')
      ([], v1) (by simp) e he
    obtain ⟨m, hm, hmn⟩ := hsrc
    obtain ⟨n1, hn1, hmn1, _⟩ := hS1.1 m hm
    obtain ⟨n2, hn2, hsame⟩ := hfirst n1 hn1
    exact hno n2 hn2 (by rw [hsame.1, ← hmn1, ← hmn, hek])

/-- In the fixed cloud of the scenario the first run adopts `c1-master-1` and
creates `c1-master-2`; the second run, on the state the first one saved,
queues nothing, reports no orphan and ends with the same two nodes. -/
theorem second_run_reproduces_first_witness :
    firstRun.nodesToCreate.map (fun p => p.Name) = ["c1-master-2"] ∧
    firstRun.finalNodes.map (fun n => (n.Name, n.ID)) =
      [("c1-master-1", "srv-a"), ("c1-master-2", "srv-b")] ∧
    secondRun.nodesToCreate = [] ∧ secondRun.orphans = [] ∧
    secondRun.finalNodes.map (fun n => (n.Name, n.ID, n.IP, n.SSHPort, n.AddressID)) =
      firstRun.finalNodes.map (fun n => (n.Name, n.ID, n.IP, n.SSHPort, n.AddressID)) :=
  ⟨by decide, by decide,
   (second_run_reproduces_first fixedClient
      (fun id => (fixedClient.GetServerDetail id ()).1)
      (fixedClient.GetProjectAddresses ()).1 (fixedClient.GetProjectVolumes ()).1
      ⟨fun _ _ => rfl, fun _ => rfl, fun _ => rfl, fun l hl => by cases hl; decide⟩
      scenarioEnv scenarioEnv (scenarioConfig [1, 2]) (some (Except.ok none)) "c1" false "" ""
      false false () () firstSaved (by decide) (by decide) (by decide) (by decide)).1,
   (second_run_reproduces_first fixedClient
      (fun id => (fixedClient.GetServerDetail id ()).1)
      (fixedClient.GetProjectAddresses ()).1 (fixedClient.GetProjectVolumes ()).1
      ⟨fun _ _ => rfl, fun _ => rfl, fun _ => rfl, fun l hl => by cases hl; decide⟩
      scenarioEnv scenarioEnv (scenarioConfig [1, 2]) (some (Except.ok none)) "c1" false "" ""
      false false () () firstSaved (by decide) (by decide) (by decide) (by decide)).2.1,
   by decide⟩

end Cl
